import Mathlib

/-!
# SVE packet ray tracer (`src/raytracer/main.c`): embedding and verification

The C program renders ten canned scenes with packets of rays held in Arm SVE
vector registers.  This development embeds the program shallowly:

* `float` values are elements of an arbitrary linearly ordered field `F`
  (exact arithmetic; `ℚ` is used whenever something is evaluated).  Decimal
  literals of the source (`0.8f`, `1e9f`, ...) are the rationals they denote.
* An SVE vector `svfloat32_t` of `W` lanes is a function `Fin W → F`, a
  predicate register `svbool_t` is a function `Fin W → Bool`.  The intrinsics
  the source calls are modelled lane by lane after the Arm C Language
  Extensions: `_z` forms zero the inactive lanes, comparisons are false in
  inactive lanes, `svsel` selects by predicate.
* The hardware square root behind `svsqrt_f32_z` is a parameter
  `vsqrt : F → F`; nothing is assumed about it unless a theorem says so.
* Global arrays are functions from the index (`Nat`) to the element, the
  seven `svfloat32_t *` out-parameters of the intersectors are one `HitState`
  record that is passed in and returned.
-/

namespace Raytracer

/-! ## Compile-time constants -/

def WIDTH : Nat := 640
def HEIGHT : Nat := 480
def NUM_SCENES : Nat := 10
def IMG_SIZE : Nat := WIDTH * HEIGHT * 3
def NUM_SPHERES : Nat := 5
def NUM_PLANES : Nat := 2
def NUM_CYLINDERS : Nat := 1
def NUM_DISKS : Nat := 1
def MAX_TRIANGLES : Nat := 128

/-! ## SVE registers and intrinsics -/

/-- A vector register of `W` 32-bit float lanes. -/
abbrev svfloat32_t (W : Nat) (F : Type) : Type := Fin W → F

/-- A predicate register: one bit per 32-bit lane. -/
abbrev svbool_t (W : Nat) : Type := Fin W → Bool

section Intrinsics

variable {F : Type} [LinearOrderedField F] {W : Nat}

def svdup_f32 (c : F) : svfloat32_t W F := fun _ => c

def svadd_f32_z (pg : svbool_t W) (a b : svfloat32_t W F) : svfloat32_t W F :=
  fun i => if pg i then a i + b i else 0

def svsub_f32_z (pg : svbool_t W) (a b : svfloat32_t W F) : svfloat32_t W F :=
  fun i => if pg i then a i - b i else 0

def svmul_f32_z (pg : svbool_t W) (a b : svfloat32_t W F) : svfloat32_t W F :=
  fun i => if pg i then a i * b i else 0

def svdiv_f32_z (pg : svbool_t W) (a b : svfloat32_t W F) : svfloat32_t W F :=
  fun i => if pg i then a i / b i else 0

def svneg_f32_z (pg : svbool_t W) (a : svfloat32_t W F) : svfloat32_t W F :=
  fun i => if pg i then - a i else 0

/-- Multiply-add `a * b + c` (the accumulator is the last operand). -/
def svmad_f32_z (pg : svbool_t W) (a b c : svfloat32_t W F) : svfloat32_t W F :=
  fun i => if pg i then a i * b i + c i else 0

def svmax_f32_z (pg : svbool_t W) (a b : svfloat32_t W F) : svfloat32_t W F :=
  fun i => if pg i then max (a i) (b i) else 0

/-- Square root of the active lanes, by the hardware operation `vsqrt`. -/
def svsqrt_f32_z (vsqrt : F → F) (pg : svbool_t W) (a : svfloat32_t W F) :
    svfloat32_t W F :=
  fun i => if pg i then vsqrt (a i) else 0

def svcmpgt (pg : svbool_t W) (a b : svfloat32_t W F) : svbool_t W :=
  fun i => pg i && decide (a i > b i)

def svcmplt (pg : svbool_t W) (a b : svfloat32_t W F) : svbool_t W :=
  fun i => pg i && decide (a i < b i)

def svcmpge (pg : svbool_t W) (a b : svfloat32_t W F) : svbool_t W :=
  fun i => pg i && decide (a i ≥ b i)

def svcmple (pg : svbool_t W) (a b : svfloat32_t W F) : svbool_t W :=
  fun i => pg i && decide (a i ≤ b i)

def svcmpne (pg : svbool_t W) (a b : svfloat32_t W F) : svbool_t W :=
  fun i => pg i && decide (a i ≠ b i)

def svand_z (pg a b : svbool_t W) : svbool_t W :=
  fun i => pg i && (a i && b i)

/-- True when some lane active in `pg` is set in `p`. -/
def svptest_any (pg p : svbool_t W) : Bool :=
  (List.finRange W).any fun i => pg i && p i

def svsel (p : svbool_t W) (a b : svfloat32_t W F) : svfloat32_t W F :=
  fun i => if p i then a i else b i

end Intrinsics

/-! ## Scene objects -/

structure Sphere (F : Type) where
  x : F
  y : F
  z : F
  r : F
  color : Nat

structure Plane (F : Type) where
  nx : F
  ny : F
  nz : F
  d : F
  color : Nat

structure Cylinder (F : Type) where
  cx : F
  cy : F
  cz : F
  r : F
  h : F
  color : Nat

structure Disk (F : Type) where
  cx : F
  cy : F
  cz : F
  r : F
  color : Nat

/-- A triangle; each vertex `v0`, `v1`, `v2` is a `float[3]`. -/
structure Triangle (F : Type) where
  v0 : Fin 3 → F
  v1 : Fin 3 → F
  v2 : Fin 3 → F
  color : Nat

/-- The seven per-lane vectors an intersector receives by pointer. -/
structure HitState (W : Nat) (F : Type) where
  bestT : svfloat32_t W F
  R : svfloat32_t W F
  G : svfloat32_t W F
  B : svfloat32_t W F
  Nx : svfloat32_t W F
  Ny : svfloat32_t W F
  Nz : svfloat32_t W F

section Intersectors

variable {F : Type} [LinearOrderedField F] {W : Nat}

/-- The macro `UPDATE_HIT(closer,t,nx,ny,nz,r,g,b)`. -/
def UPDATE_HIT (closer : svbool_t W) (t nx ny nz r g b : svfloat32_t W F)
    (hs : HitState W F) : HitState W F :=
  { bestT := svsel closer t hs.bestT
    Nx := svsel closer nx hs.Nx
    Ny := svsel closer ny hs.Ny
    Nz := svsel closer nz hs.Nz
    R := svsel closer r hs.R
    G := svsel closer g hs.G
    B := svsel closer b hs.B }

/-- Red channel `((color >> 16) & 0xFF) / 255.0f`. -/
def color_r (color : Nat) : F := (((color >>> 16) &&& 0xFF : Nat) : F) / 255

/-- Green channel `((color >> 8) & 0xFF) / 255.0f`. -/
def color_g (color : Nat) : F := (((color >>> 8) &&& 0xFF : Nat) : F) / 255

/-- Blue channel `(color & 0xFF) / 255.0f`. -/
def color_b (color : Nat) : F := ((color &&& 0xFF : Nat) : F) / 255

/-- One iteration of the loop of `intersect_spheres`, for the sphere `s`. -/
def intersect_spheres_body (vsqrt : F → F) (s : Sphere F) (pg : svbool_t W)
    (Ox Oy Oz Dx Dy Dz : svfloat32_t W F) (hs : HitState W F) : HitState W F :=
  let cx := s.x
  let cy := s.y
  let cz := s.z
  let r := s.r
  let color := s.color
  let X := svsub_f32_z pg Ox (svdup_f32 cx)
  let Y := svsub_f32_z pg Oy (svdup_f32 cy)
  let Z := svsub_f32_z pg Oz (svdup_f32 cz)
  let a := svadd_f32_z pg (svadd_f32_z pg (svmul_f32_z pg Dx Dx) (svmul_f32_z pg Dy Dy))
    (svmul_f32_z pg Dz Dz)
  let b := svmul_f32_z pg Dx X
  let b := svadd_f32_z pg b (svmul_f32_z pg Dy Y)
  let b := svadd_f32_z pg b (svmul_f32_z pg Dz Z)
  let b := svmul_f32_z pg b (svdup_f32 2)
  let c := svadd_f32_z pg (svadd_f32_z pg (svmul_f32_z pg X X) (svmul_f32_z pg Y Y))
    (svmul_f32_z pg Z Z)
  let c := svsub_f32_z pg c (svdup_f32 (r * r))
  let disc := svsub_f32_z pg (svmul_f32_z pg b b)
    (svmul_f32_z pg (svdup_f32 4) (svmul_f32_z pg a c))
  let hit := svcmpgt pg disc (svdup_f32 0)
  if !svptest_any pg hit then hs else
  let sqrt_disc := svsqrt_f32_z vsqrt hit disc
  let t0 := svdiv_f32_z hit (svsub_f32_z hit (svneg_f32_z hit b) sqrt_disc)
    (svmul_f32_z hit a (svdup_f32 2))
  let closer := svand_z pg hit
    (svand_z pg (svcmplt pg t0 hs.bestT) (svcmpgt pg t0 (svdup_f32 0)))
  if !svptest_any pg closer then hs else
  let Hx := svmad_f32_z closer Dx t0 Ox
  let Hy := svmad_f32_z closer Dy t0 Oy
  let Hz := svmad_f32_z closer Dz t0 Oz
  let nx := svdiv_f32_z closer (svsub_f32_z closer Hx (svdup_f32 cx)) (svdup_f32 r)
  let ny := svdiv_f32_z closer (svsub_f32_z closer Hy (svdup_f32 cy)) (svdup_f32 r)
  let nz := svdiv_f32_z closer (svsub_f32_z closer Hz (svdup_f32 cz)) (svdup_f32 r)
  UPDATE_HIT closer t0 nx ny nz (svdup_f32 (color_r color)) (svdup_f32 (color_g color))
    (svdup_f32 (color_b color)) hs

/-- The function `intersect_spheres`: the spheres `0 .. NUM_SPHERES-1` in turn. -/
def intersect_spheres (vsqrt : F → F) (spheres : Nat → Sphere F) (pg : svbool_t W)
    (Ox Oy Oz Dx Dy Dz : svfloat32_t W F) (hs : HitState W F) : HitState W F :=
  (List.range NUM_SPHERES).foldl
    (fun hs i => intersect_spheres_body vsqrt (spheres i) pg Ox Oy Oz Dx Dy Dz hs) hs

/-- One iteration of the loop of `intersect_planes`, for the plane `p`. -/
def intersect_planes_body (p : Plane F) (pg : svbool_t W)
    (Ox Oy Oz Dx Dy Dz : svfloat32_t W F) (hs : HitState W F) : HitState W F :=
  let nx := p.nx
  let ny := p.ny
  let nz := p.nz
  let d := p.d
  let color := p.color
  let denom := svadd_f32_z pg
    (svadd_f32_z pg (svmul_f32_z pg Dx (svdup_f32 nx)) (svmul_f32_z pg Dy (svdup_f32 ny)))
    (svmul_f32_z pg Dz (svdup_f32 nz))
  let valid := svcmpne pg denom (svdup_f32 0)
  let t := svdiv_f32_z valid
    (svsub_f32_z valid (svdup_f32 (-d))
      (svadd_f32_z valid
        (svadd_f32_z valid (svmul_f32_z valid Ox (svdup_f32 nx))
          (svmul_f32_z valid Oy (svdup_f32 ny)))
        (svmul_f32_z valid Oz (svdup_f32 nz))))
    denom
  let closer := svand_z pg valid
    (svand_z pg (svcmplt pg t hs.bestT) (svcmpgt pg t (svdup_f32 0)))
  if !svptest_any pg closer then hs else
  UPDATE_HIT closer t (svdup_f32 nx) (svdup_f32 ny) (svdup_f32 nz)
    (svdup_f32 (color_r color)) (svdup_f32 (color_g color)) (svdup_f32 (color_b color)) hs

/-- The function `intersect_planes`. -/
def intersect_planes (planes : Nat → Plane F) (pg : svbool_t W)
    (Ox Oy Oz Dx Dy Dz : svfloat32_t W F) (hs : HitState W F) : HitState W F :=
  (List.range NUM_PLANES).foldl
    (fun hs i => intersect_planes_body (planes i) pg Ox Oy Oz Dx Dy Dz hs) hs

/-- One iteration of the loop of `intersect_cylinders`, for the cylinder `cyl`. -/
def intersect_cylinders_body (vsqrt : F → F) (cyl : Cylinder F) (pg : svbool_t W)
    (Ox Oy Oz Dx Dy Dz : svfloat32_t W F) (hs : HitState W F) : HitState W F :=
  let cx := cyl.cx
  let cy := cyl.cy
  let cz := cyl.cz
  let r := cyl.r
  let h := cyl.h
  let color := cyl.color
  let X := svsub_f32_z pg Ox (svdup_f32 cx)
  let Z := svsub_f32_z pg Oz (svdup_f32 cz)
  let a := svadd_f32_z pg (svmul_f32_z pg Dx Dx) (svmul_f32_z pg Dz Dz)
  let b := svmul_f32_z pg Dx X
  let b := svadd_f32_z pg b (svmul_f32_z pg Dz Z)
  let b := svmul_f32_z pg b (svdup_f32 2)
  let c := svadd_f32_z pg (svmul_f32_z pg X X) (svmul_f32_z pg Z Z)
  let c := svsub_f32_z pg c (svdup_f32 (r * r))
  let disc := svsub_f32_z pg (svmul_f32_z pg b b)
    (svmul_f32_z pg (svdup_f32 4) (svmul_f32_z pg a c))
  let hit := svcmpgt pg disc (svdup_f32 0)
  if !svptest_any pg hit then hs else
  let sqrt_disc := svsqrt_f32_z vsqrt hit disc
  let t0 := svdiv_f32_z hit (svsub_f32_z hit (svneg_f32_z hit b) sqrt_disc)
    (svmul_f32_z hit a (svdup_f32 2))
  let closer := svand_z pg hit (svcmplt pg t0 hs.bestT)
  if !svptest_any pg closer then hs else
  let yhit := svmad_f32_z closer Dy t0 Oy
  let within := svand_z pg closer (svcmpge pg yhit (svdup_f32 cy))
  let within := svand_z pg within (svcmple pg yhit (svdup_f32 (cy + h)))
  if !svptest_any pg within then hs else
  let nx := svdiv_f32_z within (svmad_f32_z within Dx t0 Ox) (svdup_f32 r)
  let nz := svdiv_f32_z within (svmad_f32_z within Dz t0 Oz) (svdup_f32 r)
  UPDATE_HIT within t0 nx (svdup_f32 0) nz
    (svdup_f32 (color_r color)) (svdup_f32 (color_g color)) (svdup_f32 (color_b color)) hs

/-- The function `intersect_cylinders`. -/
def intersect_cylinders (vsqrt : F → F) (cylinders : Nat → Cylinder F) (pg : svbool_t W)
    (Ox Oy Oz Dx Dy Dz : svfloat32_t W F) (hs : HitState W F) : HitState W F :=
  (List.range NUM_CYLINDERS).foldl
    (fun hs i => intersect_cylinders_body vsqrt (cylinders i) pg Ox Oy Oz Dx Dy Dz hs) hs

/-- One iteration of the loop of `intersect_disks`, for the disk `dk`. -/
def intersect_disks_body (dk : Disk F) (pg : svbool_t W)
    (Ox Oy Oz Dx Dy Dz : svfloat32_t W F) (hs : HitState W F) : HitState W F :=
  let cx := dk.cx
  let cy := dk.cy
  let cz := dk.cz
  let r := dk.r
  let color := dk.color
  let denom := Dy
  let valid := svcmpne pg denom (svdup_f32 0)
  let t := svdiv_f32_z valid (svsub_f32_z valid (svdup_f32 cy) Oy) Dy
  let closer := svand_z pg valid
    (svand_z pg (svcmplt pg t hs.bestT) (svcmpgt pg t (svdup_f32 0)))
  if !svptest_any pg closer then hs else
  let hx := svmad_f32_z closer Dx t Ox
  let hz := svmad_f32_z closer Dz t Oz
  let dx := svsub_f32_z closer hx (svdup_f32 cx)
  let dz := svsub_f32_z closer hz (svdup_f32 cz)
  let dist2 := svadd_f32_z closer (svmul_f32_z closer dx dx) (svmul_f32_z closer dz dz)
  let inside := svand_z pg closer (svcmple pg dist2 (svdup_f32 (r * r)))
  if !svptest_any pg inside then hs else
  UPDATE_HIT inside t (svdup_f32 0) (svdup_f32 1) (svdup_f32 0)
    (svdup_f32 (color_r color)) (svdup_f32 (color_g color)) (svdup_f32 (color_b color)) hs

/-- The function `intersect_disks`. -/
def intersect_disks (disks : Nat → Disk F) (pg : svbool_t W)
    (Ox Oy Oz Dx Dy Dz : svfloat32_t W F) (hs : HitState W F) : HitState W F :=
  (List.range NUM_DISKS).foldl
    (fun hs i => intersect_disks_body (disks i) pg Ox Oy Oz Dx Dy Dz hs) hs

/-- One iteration of the loop of `bvh_trace_packet_sve`, for the triangle `t`.
Only `bestT`, `R`, `G`, `B` are assigned; `Nx`, `Ny`, `Nz` are not. -/
def bvh_trace_packet_sve_body (t : Triangle F) (pg : svbool_t W)
    (Ox Oy Oz Dx Dy Dz : svfloat32_t W F) (hs : HitState W F) : HitState W F :=
  let v0x := t.v0 0
  let v0y := t.v0 1
  let v0z := t.v0 2
  let v1x := t.v1 0
  let v1y := t.v1 1
  let v1z := t.v1 2
  let v2x := t.v2 0
  let v2y := t.v2 1
  let v2z := t.v2 2
  let e1x : svfloat32_t W F := svdup_f32 (v1x - v0x)
  let e1y : svfloat32_t W F := svdup_f32 (v1y - v0y)
  let e1z : svfloat32_t W F := svdup_f32 (v1z - v0z)
  let e2x : svfloat32_t W F := svdup_f32 (v2x - v0x)
  let e2y : svfloat32_t W F := svdup_f32 (v2y - v0y)
  let e2z : svfloat32_t W F := svdup_f32 (v2z - v0z)
  let px := svsub_f32_z pg (svmul_f32_z pg Dy e2z) (svmul_f32_z pg Dz e2y)
  let py := svsub_f32_z pg (svmul_f32_z pg Dz e2x) (svmul_f32_z pg Dx e2z)
  let pz := svsub_f32_z pg (svmul_f32_z pg Dx e2y) (svmul_f32_z pg Dy e2x)
  let det := svadd_f32_z pg
    (svadd_f32_z pg (svmul_f32_z pg e1x px) (svmul_f32_z pg e1y py)) (svmul_f32_z pg e1z pz)
  let hit := svcmpne pg det (svdup_f32 0)
  if !svptest_any pg hit then hs else
  let inv_det := svdiv_f32_z hit (svdup_f32 1) det
  let tx := svsub_f32_z pg Ox (svdup_f32 v0x)
  let ty := svsub_f32_z pg Oy (svdup_f32 v0y)
  let tz := svsub_f32_z pg Oz (svdup_f32 v0z)
  let u := svadd_f32_z pg
    (svadd_f32_z pg (svmul_f32_z pg tx px) (svmul_f32_z pg ty py)) (svmul_f32_z pg tz pz)
  let u := svmul_f32_z hit u inv_det
  let qx := svsub_f32_z pg (svmul_f32_z pg ty e1z) (svmul_f32_z pg tz e1y)
  let qy := svsub_f32_z pg (svmul_f32_z pg tz e1x) (svmul_f32_z pg tx e1z)
  let qz := svsub_f32_z pg (svmul_f32_z pg tx e1y) (svmul_f32_z pg ty e1x)
  let v := svadd_f32_z pg
    (svadd_f32_z pg (svmul_f32_z pg Dx qx) (svmul_f32_z pg Dy qy)) (svmul_f32_z pg Dz qz)
  let v := svmul_f32_z hit v inv_det
  let inside := svand_z pg hit
    (svand_z pg (svcmpge pg u (svdup_f32 0))
      (svand_z pg (svcmpge pg v (svdup_f32 0))
        (svcmple pg (svadd_f32_z pg u v) (svdup_f32 1))))
  if !svptest_any pg inside then hs else
  let tval := svadd_f32_z pg
    (svadd_f32_z pg (svmul_f32_z pg e2x qx) (svmul_f32_z pg e2y qy)) (svmul_f32_z pg e2z qz)
  let tval := svmul_f32_z inside tval inv_det
  let closer := svand_z pg inside (svcmplt pg tval hs.bestT)
  if !svptest_any pg closer then hs else
  let rcol : F := color_r t.color
  let gcol : F := color_g t.color
  let bcol : F := color_b t.color
  { hs with
    bestT := svsel closer tval hs.bestT
    R := svsel closer (svdup_f32 rcol) hs.R
    G := svsel closer (svdup_f32 gcol) hs.G
    B := svsel closer (svdup_f32 bcol) hs.B }

/-- The function `bvh_trace_packet_sve`: the triangles `0 .. num_triangles-1` in turn. -/
def bvh_trace_packet_sve (triangles : Nat → Triangle F) (num_triangles : Nat)
    (pg : svbool_t W) (Ox Oy Oz Dx Dy Dz : svfloat32_t W F) (hs : HitState W F) :
    HitState W F :=
  (List.range num_triangles).foldl
    (fun hs i => bvh_trace_packet_sve_body (triangles i) pg Ox Oy Oz Dx Dy Dz hs) hs

end Intersectors

/-! ## Math utilities -/

section MathUtil

variable {F : Type} [LinearOrderedField F]

/-- The program's own `sqrtf`: five Newton steps from `x / 2`. -/
def sqrtf (x : F) : F :=
  if x ≤ 0 then 0 else
  let g := x * 0.5
  (List.range 5).foldl (fun g _ => 0.5 * (g + x / g)) g

def fmaxf (a b : F) : F := if a > b then a else b

def fminf (a b : F) : F := if a < b then a else b

/-- The loop `while (x > 3.14159f) x -= 6.28318f;`, at most `fuel` iterations. -/
def reduce_above : Nat → F → F
  | 0, x => x
  | fuel + 1, x => if x > 3.14159 then reduce_above fuel (x - 6.28318) else x

/-- The loop `while (x < -3.14159f) x += 6.28318f;`, at most `fuel` iterations. -/
def reduce_below : Nat → F → F
  | 0, x => x
  | fuel + 1, x => if x < -3.14159 then reduce_below fuel (x + 6.28318) else x

variable [FloorRing F]

/-- Iterations granted to a range-reduction loop started at `x`: each iteration
moves `x` by more than 6 towards the interval, so `⌈|x|⌉` of them are enough. -/
def reduce_fuel (x : F) : Nat := ⌈|x|⌉₊

def my_sinf (x : F) : F :=
  let x := reduce_above (reduce_fuel x) x
  let x := reduce_below (reduce_fuel x) x
  let x2 := x * x
  x * (1 - x2 / 6 + (x2 * x2) / 120)

def my_cosf (x : F) : F :=
  let x := reduce_above (reduce_fuel x) x
  let x := reduce_below (reduce_fuel x) x
  let x2 := x * x
  1 - x2 / 2 + (x2 * x2) / 24

end MathUtil

/-! ## Global state -/

/-- The file-scope variables of `main.c`. -/
structure Store (F : Type) where
  spheres : Nat → Sphere F
  planes : Nat → Plane F
  cylinders : Nat → Cylinder F
  disks : Nat → Disk F
  triangles : Nat → Triangle F
  num_triangles : Nat
  light_dir : Fin 3 → F
  framebuffer : Nat → Nat

/-- A loop `for (i = i0; cond(i); i = step(i)) body(i)`, cut off after `fuel`
iterations; called as `for_loop cond step body fuel i0 s`. -/
def for_loop {σ : Type} (cond : Nat → Bool) (step : Nat → Nat) (body : Nat → σ → σ) :
    Nat → Nat → σ → σ
  | 0, _, s => s
  | fuel + 1, i, s => if cond i then for_loop cond step body fuel (step i) (body i s) else s

section Program

variable {F : Type} [LinearOrderedField F]

/-- The function `normalize_light`, applied to the array `v`. -/
def normalize_light (v : Fin 3 → F) : Fin 3 → F :=
  let len := sqrtf (v 0 * v 0 + v 1 * v 1 + v 2 * v 2)
  let v := Function.update v 0 (v 0 / len)
  let v := Function.update v 1 (v 1 / len)
  let v := Function.update v 2 (v 2 / len)
  v

/-- The function `add_triangle`: silently returns when the list is full. -/
def add_triangle (v0 v1 v2 : Fin 3 → F) (color : Nat) (st : Store F) : Store F :=
  if st.num_triangles ≥ MAX_TRIANGLES then st else
  let n := st.num_triangles
  let st := { st with num_triangles := n + 1 }
  let t := (List.finRange 3).foldl
    (fun t i => { t with
      v0 := Function.update t.v0 i (v0 i)
      v1 := Function.update t.v1 i (v1 i)
      v2 := Function.update t.v2 i (v2 i) })
    (st.triangles n)
  let t := { t with color := color }
  { st with triangles := Function.update st.triangles n t }

/-- The function `build_bvh`: a no-op. -/
def build_bvh (st : Store F) : Store F := st

variable [FloorRing F]

/-- The body of the inner loop of `init_torus`, for grid cell `(i, j)`. -/
def init_torus_cell (R r : F) (seg i j : Nat) (st : Store F) : Store F :=
  let t0 : F := (i : F) / (seg : F) * 6.28318
  let t1 : F := ((i + 1 : Nat) : F) / (seg : F) * 6.28318
  let p0 : F := (j : F) / (seg : F) * 6.28318
  let p1 : F := ((j + 1 : Nat) : F) / (seg : F) * 6.28318
  let v0 : Fin 3 → F :=
    ![(R + r * my_cosf p0) * my_cosf t0, r * my_sinf p0, -(R + r * my_cosf p0) * my_sinf t0]
  let v1 : Fin 3 → F :=
    ![(R + r * my_cosf p1) * my_cosf t0, r * my_sinf p1, -(R + r * my_cosf p1) * my_sinf t0]
  let v2 : Fin 3 → F :=
    ![(R + r * my_cosf p0) * my_cosf t1, r * my_sinf p0, -(R + r * my_cosf p0) * my_sinf t1]
  let v3 : Fin 3 → F :=
    ![(R + r * my_cosf p1) * my_cosf t1, r * my_sinf p1, -(R + r * my_cosf p1) * my_sinf t1]
  let st := add_triangle v0 v1 v2 0xFF8800 st
  add_triangle v2 v1 v3 0xFF8800 st

/-- The function `init_torus`. -/
def init_torus (st : Store F) : Store F :=
  let st := { st with num_triangles := 0 }
  let R : F := 1.5
  let r : F := 0.5
  let seg : Nat := 8
  (List.range seg).foldl
    (fun st i => (List.range seg).foldl (fun st j => init_torus_cell R r seg i j st) st) st

/-- The function `render_scene`: baseline, per-scene patch, light normalisation. -/
def render_scene (sid : Nat) (st : Store F) : Store F :=
  let st := { st with light_dir := Function.update st.light_dir 0 1 }
  let st := { st with light_dir := Function.update st.light_dir 1 1 }
  let st := { st with light_dir := Function.update st.light_dir 2 (-1) }
  let st := (List.range NUM_SPHERES).foldl
    (fun st i =>
      let s : Sphere F :=
        { x := (((i % 3 : Nat) * 2 - 2 : Int) : F)
          y := (((i / 3 : Nat) - 1 : Int) : F)
          z := ((-3 - (i : Int) : Int) : F)
          r := 0.8 + ((i % 2 : Nat) : F) * 0.2
          color := 0xFF0000 >>> (i * 4) }
      { st with spheres := Function.update st.spheres i s }) st
  let p0 : Plane F := { nx := 0, ny := 1, nz := 0, d := -1, color := 0xAAAAAA }
  let st := { st with planes := Function.update st.planes 0 p0 }
  let p1 : Plane F := { nx := 0, ny := 0, nz := 1, d := 6, color := 0xCCCCCC }
  let st := { st with planes := Function.update st.planes 1 p1 }
  let c0 : Cylinder F := { cx := 0, cy := -1, cz := -5, r := 1.0, h := 2.0, color := 0x00FFFF }
  let st := { st with cylinders := Function.update st.cylinders 0 c0 }
  let d0 : Disk F := { cx := 2, cy := -1, cz := -4, r := 1.5, color := 0xFFFF00 }
  let st := { st with disks := Function.update st.disks 0 d0 }
  let st : Store F :=
    match sid with
    | 0 => st
    | 1 =>
      let st := { st with light_dir := Function.update st.light_dir 0 (-1) }
      let st := { st with
        planes := Function.update st.planes 0 { (st.planes 0) with color := 0xFF00FF } }
      { st with spheres := Function.update st.spheres 0 { (st.spheres 0) with x := -3 } }
    | 2 =>
      let st := (List.range NUM_SPHERES).foldl
        (fun st i =>
          { st with spheres := Function.update st.spheres i { (st.spheres i) with r := 1.2 } })
        st
      { st with
        cylinders := Function.update st.cylinders 0 { (st.cylinders 0) with color := 0xFFFF00 } }
    | 3 =>
      let st := { st with disks := Function.update st.disks 0 { (st.disks 0) with r := 3.0 } }
      { st with disks := Function.update st.disks 0 { (st.disks 0) with color := 0xFF00FF } }
    | 4 =>
      let st := { st with light_dir := Function.update st.light_dir 0 0 }
      let st := { st with light_dir := Function.update st.light_dir 1 (-1) }
      let st := { st with
        spheres := Function.update st.spheres 1 { (st.spheres 1) with x := (st.spheres 1).x + 2 } }
      { st with
        spheres := Function.update st.spheres 2 { (st.spheres 2) with x := (st.spheres 2).x - 2 } }
    | 5 => init_torus st
    | 6 =>
      let st := { st with
        cylinders := Function.update st.cylinders 0 { (st.cylinders 0) with h := 4.0 } }
      { st with
        cylinders := Function.update st.cylinders 0 { (st.cylinders 0) with r := 0.7 } }
    | 7 =>
      let st := { st with
        spheres := Function.update st.spheres 0 { (st.spheres 0) with z := -10 } }
      let st := { st with
        spheres := Function.update st.spheres 4 { (st.spheres 4) with z := -12 } }
      { st with planes := Function.update st.planes 1 { (st.planes 1) with color := 0x00FF00 } }
    | 8 =>
      let st := { st with
        planes := Function.update st.planes 0 { (st.planes 0) with color := 0x000000 } }
      (List.range NUM_SPHERES).foldl
        (fun st i =>
          let st := { st with
            spheres := Function.update st.spheres i { (st.spheres i) with r := 0.4 } }
          { st with
            spheres := Function.update st.spheres i { (st.spheres i) with color := 0xFFFFFF } })
        st
    | 9 =>
      let st := { st with
        spheres := Function.update st.spheres 0 { (st.spheres 0) with z := -1.5 } }
      let st := { st with
        spheres := Function.update st.spheres 1 { (st.spheres 1) with z := -2.0 } }
      init_torus st
    | _ => st
  { st with light_dir := normalize_light st.light_dir }

/-! ## Shading and the frame loop -/

/-- Lane `i` is active when `a + i < b`. -/
def svwhilelt_b32 {W : Nat} (a b : Nat) : svbool_t W := fun i => decide (a + i.val < b)

/-- Lane `i` holds `base + i * step`. -/
def svindex_s32 {W : Nat} (base step : Int) : Fin W → Int := fun i => base + i.val * step

/-- Integer to float conversion; the `_x` form leaves the inactive lanes
unspecified, here they are converted too. -/
def svcvt_f32_s32_x {W : Nat} (_pg : svbool_t W) (a : Fin W → Int) : svfloat32_t W F :=
  fun i => ((a i : Int) : F)

/-- Store of the active lanes of `v` to the array `tmp`. -/
def svst1 {W : Nat} (pg : svbool_t W) (tmp : Nat → F) (v : svfloat32_t W F) : Nat → F :=
  fun k => if h : k < W then (if pg ⟨k, h⟩ then v ⟨k, h⟩ else tmp k) else tmp k

def AMBIENT : F := 0.1

/-- The function `apply_phong`; the normal is passed by value, `R`, `G`, `B` by pointer. -/
def apply_phong {W : Nat} (light_dir : Fin 3 → F) (pg : svbool_t W)
    (Nx Ny Nz : svfloat32_t W F) (hs : HitState W F) : HitState W F :=
  let lx := light_dir 0
  let ly := light_dir 1
  let lz := light_dir 2
  let len := sqrtf (lx * lx + ly * ly + lz * lz)
  let lx := lx / len
  let ly := ly / len
  let lz := lz / len
  let Lx : svfloat32_t W F := svdup_f32 lx
  let Ly : svfloat32_t W F := svdup_f32 ly
  let Lz : svfloat32_t W F := svdup_f32 lz
  let ndotl := svadd_f32_z pg
    (svadd_f32_z pg (svmul_f32_z pg Nx Lx) (svmul_f32_z pg Ny Ly)) (svmul_f32_z pg Nz Lz)
  let ndotl := svmax_f32_z pg ndotl (svdup_f32 0)
  let amb : svfloat32_t W F := svdup_f32 AMBIENT
  { hs with
    R := svmad_f32_z pg hs.R ndotl amb
    G := svmad_f32_z pg hs.G ndotl amb
    B := svmad_f32_z pg hs.B ndotl amb }

/-- The five intersector calls of `render_tile`, in the order of the source:
spheres, planes, cylinders, disks, triangles. -/
def intersect_all {W : Nat} (vsqrt : F → F) (st : Store F) (pg : svbool_t W)
    (Ox Oy Oz Dx Dy Dz : svfloat32_t W F) (hs : HitState W F) : HitState W F :=
  let hs := intersect_spheres vsqrt st.spheres pg Ox Oy Oz Dx Dy Dz hs
  let hs := intersect_planes st.planes pg Ox Oy Oz Dx Dy Dz hs
  let hs := intersect_cylinders vsqrt st.cylinders pg Ox Oy Oz Dx Dy Dz hs
  let hs := intersect_disks st.disks pg Ox Oy Oz Dx Dy Dz hs
  bvh_trace_packet_sve st.triangles st.num_triangles pg Ox Oy Oz Dx Dy Dz hs

/-- The conversion `(uint8_t) (fminf(fmaxf(c, 0), 1) * 255)`: truncation of a
value between 0 and 255. -/
def to_byte (c : F) : Nat := ⌊fminf (fmaxf c 0) 1 * 255⌋₊

/-- The body of the inner loop of `render_tile`: the packet of `W` lanes that
starts at column `x` of row `y`. -/
def render_tile_packet (vsqrt : F → F) (W : Nat) (y x : Nat) (st : Store F) : Store F :=
  let aspect : F := (WIDTH : F) / (HEIGHT : F)
  let v : F := 1.0 - 2.0 * (((y : F) + 0.5) / (HEIGHT : F))
  let pg : svbool_t W := svwhilelt_b32 x WIDTH
  let idx_i : Fin W → Int := svindex_s32 0 1
  let idx_f : svfloat32_t W F := svcvt_f32_s32_x pg idx_i
  let u := svadd_f32_z pg (svdup_f32 ((x : F) + 0.5)) idx_f
  let u := svmul_f32_z pg u (svdup_f32 (2.0 / (WIDTH : F)))
  let u := svsub_f32_z pg u (svdup_f32 1.0)
  let u := svmul_f32_z pg u (svdup_f32 aspect)
  let Dx := u
  let Dy : svfloat32_t W F := svdup_f32 v
  let Dz : svfloat32_t W F := svdup_f32 (-1.0)
  let Ox : svfloat32_t W F := svdup_f32 0
  let Oy : svfloat32_t W F := svdup_f32 0
  let Oz : svfloat32_t W F := svdup_f32 0
  let hs : HitState W F :=
    { bestT := svdup_f32 1000000000, R := svdup_f32 0, G := svdup_f32 0, B := svdup_f32 0,
      Nx := svdup_f32 0, Ny := svdup_f32 0, Nz := svdup_f32 1 }
  let hs := intersect_all vsqrt st pg Ox Oy Oz Dx Dy Dz hs
  let hs := apply_phong st.light_dir pg hs.Nx hs.Ny hs.Nz hs
  let lanes := W
  let tmp : Nat → F := fun _ => 0
  let tmp := svst1 pg tmp hs.R
  let fb := for_loop (fun i => decide (i < lanes) && decide (x + i < WIDTH)) (· + 1)
    (fun i fb =>
      let idx := (y * WIDTH + (x + i)) * 3
      Function.update fb idx (to_byte (tmp i)))
    lanes 0 st.framebuffer
  let tmp := svst1 pg tmp hs.G
  let fb := for_loop (fun i => decide (i < lanes) && decide (x + i < WIDTH)) (· + 1)
    (fun i fb =>
      let idx := (y * WIDTH + (x + i)) * 3
      Function.update fb (idx + 1) (to_byte (tmp i)))
    lanes 0 fb
  let tmp := svst1 pg tmp hs.B
  let fb := for_loop (fun i => decide (i < lanes) && decide (x + i < WIDTH)) (· + 1)
    (fun i fb =>
      let idx := (y * WIDTH + (x + i)) * 3
      Function.update fb (idx + 2) (to_byte (tmp i)))
    lanes 0 fb
  { st with framebuffer := fb }

/-- The function `render_tile`, on hardware whose `svcntw()` is `W`.  The column
loop `for (x = 0; x < WIDTH; x += svcntw())` is given `WIDTH` iterations. -/
def render_tile (vsqrt : F → F) (W : Nat) (st : Store F) : Store F :=
  (List.range HEIGHT).foldl
    (fun st y =>
      for_loop (fun x => decide (x < WIDTH)) (· + W)
        (fun x st => render_tile_packet vsqrt W y x st) WIDTH 0 st)
    st

/-- The rendering part of one iteration of the scene loop of `main`, for scene `s`:
`render_scene(s); init_torus(); build_bvh(); render_tile();`. -/
def main_scene (vsqrt : F → F) (W : Nat) (s : Nat) (st : Store F) : Store F :=
  let st := render_scene s st
  let st := init_torus st
  let st := build_bvh st
  render_tile vsqrt W st

end Program

/-! ## One lane at a time

The definitions below are not part of the program.  They describe what the
intersectors compute for a single lane, in scalar terms, and are what the
theorems compare the packet code with. -/

/-- The `HitState` of one lane. -/
structure Lane (F : Type) where
  bestT : F
  R : F
  G : F
  B : F
  Nx : F
  Ny : F
  Nz : F

/-- The ray of one lane: origin and direction. -/
structure Ray (F : Type) where
  Ox : F
  Oy : F
  Oz : F
  Dx : F
  Dy : F
  Dz : F

/-- What a primitive offers to a lane: `ok` collects the tests the code makes
on the hit other than the comparison with `bestT`, `t` is the hit parameter,
`R G B` the colour and `normal` the normal written on update, `none` when the
pass writes no normal. -/
structure Cand (F : Type) where
  ok : Bool
  t : F
  R : F
  G : F
  B : F
  normal : Option (F × F × F)

section LaneView

variable {F : Type} [LinearOrderedField F] {W : Nat}

/-- Lane `i` of a packet `HitState`. -/
def HitState.lane (hs : HitState W F) (i : Fin W) : Lane F :=
  { bestT := hs.bestT i, R := hs.R i, G := hs.G i, B := hs.B i,
    Nx := hs.Nx i, Ny := hs.Ny i, Nz := hs.Nz i }

/-- Lane `i` of a ray packet. -/
def ray_at (Ox Oy Oz Dx Dy Dz : svfloat32_t W F) (i : Fin W) : Ray F :=
  { Ox := Ox i, Oy := Oy i, Oz := Oz i, Dx := Dx i, Dy := Dy i, Dz := Dz i }

/-- The lane after the candidate `c` has been written to it. -/
def Lane.write (l : Lane F) (c : Cand F) : Lane F :=
  { bestT := c.t, R := c.R, G := c.G, B := c.B
    Nx := match c.normal with
      | some n => n.1
      | none => l.Nx
    Ny := match c.normal with
      | some n => n.2.1
      | none => l.Ny
    Nz := match c.normal with
      | some n => n.2.2
      | none => l.Nz }

/-- One primitive seen from one lane: the candidate is written when the lane
is active, the candidate passes its tests and is strictly closer. -/
def lane_step (active : Bool) (l : Lane F) (c : Cand F) : Lane F :=
  if active = true ∧ c.ok = true ∧ c.t < l.bestT then l.write c else l

/-! ### Spheres -/

def sphere_a (ray : Ray F) : F := ray.Dx * ray.Dx + ray.Dy * ray.Dy + ray.Dz * ray.Dz

def sphere_b (s : Sphere F) (ray : Ray F) : F :=
  (ray.Dx * (ray.Ox - s.x) + ray.Dy * (ray.Oy - s.y) + ray.Dz * (ray.Oz - s.z)) * 2

def sphere_c (s : Sphere F) (ray : Ray F) : F :=
  (ray.Ox - s.x) * (ray.Ox - s.x) + (ray.Oy - s.y) * (ray.Oy - s.y)
    + (ray.Oz - s.z) * (ray.Oz - s.z) - s.r * s.r

def sphere_disc (s : Sphere F) (ray : Ray F) : F :=
  sphere_b s ray * sphere_b s ray - 4 * (sphere_a ray * sphere_c s ray)

def sphere_t0 (vsqrt : F → F) (s : Sphere F) (ray : Ray F) : F :=
  (- sphere_b s ray - vsqrt (sphere_disc s ray)) / (sphere_a ray * 2)

def sphere_cand (vsqrt : F → F) (s : Sphere F) (ray : Ray F) : Cand F :=
  { ok := decide (0 < sphere_disc s ray) && decide (0 < sphere_t0 vsqrt s ray)
    t := sphere_t0 vsqrt s ray
    R := color_r s.color, G := color_g s.color, B := color_b s.color
    normal := some
      ((ray.Dx * sphere_t0 vsqrt s ray + ray.Ox - s.x) / s.r,
       (ray.Dy * sphere_t0 vsqrt s ray + ray.Oy - s.y) / s.r,
       (ray.Dz * sphere_t0 vsqrt s ray + ray.Oz - s.z) / s.r) }

/-! ### Planes -/

def plane_denom (p : Plane F) (ray : Ray F) : F :=
  ray.Dx * p.nx + ray.Dy * p.ny + ray.Dz * p.nz

def plane_t (p : Plane F) (ray : Ray F) : F :=
  (- p.d - (ray.Ox * p.nx + ray.Oy * p.ny + ray.Oz * p.nz)) / plane_denom p ray

def plane_cand (p : Plane F) (ray : Ray F) : Cand F :=
  { ok := decide (plane_denom p ray ≠ 0) && decide (0 < plane_t p ray)
    t := plane_t p ray
    R := color_r p.color, G := color_g p.color, B := color_b p.color
    normal := some (p.nx, p.ny, p.nz) }

/-! ### Cylinders -/

def cyl_a (ray : Ray F) : F := ray.Dx * ray.Dx + ray.Dz * ray.Dz

def cyl_b (cyl : Cylinder F) (ray : Ray F) : F :=
  (ray.Dx * (ray.Ox - cyl.cx) + ray.Dz * (ray.Oz - cyl.cz)) * 2

def cyl_c (cyl : Cylinder F) (ray : Ray F) : F :=
  (ray.Ox - cyl.cx) * (ray.Ox - cyl.cx) + (ray.Oz - cyl.cz) * (ray.Oz - cyl.cz)
    - cyl.r * cyl.r

def cyl_disc (cyl : Cylinder F) (ray : Ray F) : F :=
  cyl_b cyl ray * cyl_b cyl ray - 4 * (cyl_a ray * cyl_c cyl ray)

def cyl_t0 (vsqrt : F → F) (cyl : Cylinder F) (ray : Ray F) : F :=
  (- cyl_b cyl ray - vsqrt (cyl_disc cyl ray)) / (cyl_a ray * 2)

/-- The Y coordinate of the hit point on the cylinder. -/
def cyl_yhit (vsqrt : F → F) (cyl : Cylinder F) (ray : Ray F) : F :=
  ray.Dy * cyl_t0 vsqrt cyl ray + ray.Oy

/-- The candidate of a cylinder, as the code computes it: no test `0 < t0`,
and a normal that is the hit point divided by `r`. -/
def cyl_cand (vsqrt : F → F) (cyl : Cylinder F) (ray : Ray F) : Cand F :=
  { ok := decide (0 < cyl_disc cyl ray) && (decide (cyl.cy ≤ cyl_yhit vsqrt cyl ray)
      && decide (cyl_yhit vsqrt cyl ray ≤ cyl.cy + cyl.h))
    t := cyl_t0 vsqrt cyl ray
    R := color_r cyl.color, G := color_g cyl.color, B := color_b cyl.color
    normal := some
      ((ray.Dx * cyl_t0 vsqrt cyl ray + ray.Ox) / cyl.r, 0,
       (ray.Dz * cyl_t0 vsqrt cyl ray + ray.Oz) / cyl.r) }

/-! ### Disks -/

def disk_t (dk : Disk F) (ray : Ray F) : F := (dk.cy - ray.Oy) / ray.Dy

def disk_dist2 (dk : Disk F) (ray : Ray F) : F :=
  (ray.Dx * disk_t dk ray + ray.Ox - dk.cx) * (ray.Dx * disk_t dk ray + ray.Ox - dk.cx)
    + (ray.Dz * disk_t dk ray + ray.Oz - dk.cz) * (ray.Dz * disk_t dk ray + ray.Oz - dk.cz)

def disk_cand (dk : Disk F) (ray : Ray F) : Cand F :=
  { ok := decide (ray.Dy ≠ 0) && (decide (0 < disk_t dk ray)
      && decide (disk_dist2 dk ray ≤ dk.r * dk.r))
    t := disk_t dk ray
    R := color_r dk.color, G := color_g dk.color, B := color_b dk.color
    normal := some (0, 1, 0) }

/-! ### Triangles -/

def tri_px (t : Triangle F) (ray : Ray F) : F :=
  ray.Dy * (t.v2 2 - t.v0 2) - ray.Dz * (t.v2 1 - t.v0 1)

def tri_py (t : Triangle F) (ray : Ray F) : F :=
  ray.Dz * (t.v2 0 - t.v0 0) - ray.Dx * (t.v2 2 - t.v0 2)

def tri_pz (t : Triangle F) (ray : Ray F) : F :=
  ray.Dx * (t.v2 1 - t.v0 1) - ray.Dy * (t.v2 0 - t.v0 0)

def tri_det (t : Triangle F) (ray : Ray F) : F :=
  (t.v1 0 - t.v0 0) * tri_px t ray + (t.v1 1 - t.v0 1) * tri_py t ray
    + (t.v1 2 - t.v0 2) * tri_pz t ray

def tri_u (t : Triangle F) (ray : Ray F) : F :=
  ((ray.Ox - t.v0 0) * tri_px t ray + (ray.Oy - t.v0 1) * tri_py t ray
    + (ray.Oz - t.v0 2) * tri_pz t ray) * (1 / tri_det t ray)

def tri_qx (t : Triangle F) (ray : Ray F) : F :=
  (ray.Oy - t.v0 1) * (t.v1 2 - t.v0 2) - (ray.Oz - t.v0 2) * (t.v1 1 - t.v0 1)

def tri_qy (t : Triangle F) (ray : Ray F) : F :=
  (ray.Oz - t.v0 2) * (t.v1 0 - t.v0 0) - (ray.Ox - t.v0 0) * (t.v1 2 - t.v0 2)

def tri_qz (t : Triangle F) (ray : Ray F) : F :=
  (ray.Ox - t.v0 0) * (t.v1 1 - t.v0 1) - (ray.Oy - t.v0 1) * (t.v1 0 - t.v0 0)

def tri_v (t : Triangle F) (ray : Ray F) : F :=
  (ray.Dx * tri_qx t ray + ray.Dy * tri_qy t ray + ray.Dz * tri_qz t ray)
    * (1 / tri_det t ray)

def tri_t (t : Triangle F) (ray : Ray F) : F :=
  ((t.v2 0 - t.v0 0) * tri_qx t ray + (t.v2 1 - t.v0 1) * tri_qy t ray
    + (t.v2 2 - t.v0 2) * tri_qz t ray) * (1 / tri_det t ray)

/-- The candidate of a triangle, as the code computes it: no test `0 < t`,
no normal. -/
def tri_cand (t : Triangle F) (ray : Ray F) : Cand F :=
  { ok := decide (tri_det t ray ≠ 0) && (decide (0 ≤ tri_u t ray)
      && (decide (0 ≤ tri_v t ray) && decide (tri_u t ray + tri_v t ray ≤ 1)))
    t := tri_t t ray
    R := color_r t.color, G := color_g t.color, B := color_b t.color
    normal := none }

/-- The candidates a lane meets in the five passes, in evaluation order. -/
def scene_cands (vsqrt : F → F) (st : Store F) (ray : Ray F) : List (Cand F) :=
  (List.range NUM_SPHERES).map (fun k => sphere_cand vsqrt (st.spheres k) ray)
    ++ (List.range NUM_PLANES).map (fun k => plane_cand (st.planes k) ray)
    ++ (List.range NUM_CYLINDERS).map (fun k => cyl_cand vsqrt (st.cylinders k) ray)
    ++ (List.range NUM_DISKS).map (fun k => disk_cand (st.disks k) ray)
    ++ (List.range st.num_triangles).map (fun k => tri_cand (st.triangles k) ray)

/-- The one-lane register that holds lane `i` of `v`. -/
def single {α : Type} (v : Fin W → α) (i : Fin W) : Fin 1 → α := fun _ => v i

/-- The one-lane `HitState` that holds lane `i` of `hs`. -/
def HitState.single (hs : HitState W F) (i : Fin W) : HitState 1 F :=
  { bestT := Raytracer.single hs.bestT i, R := Raytracer.single hs.R i,
    G := Raytracer.single hs.G i, B := Raytracer.single hs.B i,
    Nx := Raytracer.single hs.Nx i, Ny := Raytracer.single hs.Ny i,
    Nz := Raytracer.single hs.Nz i }

end LaneView

/-! ## One pixel at a time

The image `render_tile` leaves, pixel by pixel, in scalar terms. -/

section PixelView

variable {F : Type} [LinearOrderedField F]

/-- The primary ray `render_tile` builds for the pixel in row `y`, column `col`. -/
def primary_ray (y col : Nat) : Ray F :=
  { Ox := 0, Oy := 0, Oz := 0
    Dx := (((col : F) + 0.5) * (2.0 / (WIDTH : F)) - 1.0) * ((WIDTH : F) / (HEIGHT : F))
    Dy := 1.0 - 2.0 * (((y : F) + 0.5) / (HEIGHT : F))
    Dz := -1.0 }

/-- The lane `render_tile` starts every ray with. -/
def lane_init : Lane F :=
  { bestT := 1000000000, R := 0, G := 0, B := 0, Nx := 0, Ny := 0, Nz := 1 }

/-- What `apply_phong` does to an active lane. -/
def shade (light_dir : Fin 3 → F) (l : Lane F) : Lane F :=
  let len := sqrtf (light_dir 0 * light_dir 0 + light_dir 1 * light_dir 1
    + light_dir 2 * light_dir 2)
  let ndotl := max (l.Nx * (light_dir 0 / len) + l.Ny * (light_dir 1 / len)
    + l.Nz * (light_dir 2 / len)) 0
  { l with
    R := l.R * ndotl + AMBIENT
    G := l.G * ndotl + AMBIENT
    B := l.B * ndotl + AMBIENT }

/-- The shaded lane of the pixel in row `y`, column `col`. -/
def pixel (vsqrt : F → F) (st : Store F) (y col : Nat) : Lane F :=
  shade st.light_dir
    ((scene_cands vsqrt st (primary_ray y col)).foldl (lane_step true) lane_init)

variable [FloorRing F]

/-- The byte of the rendered image at framebuffer index `idx`. -/
def pixel_byte (vsqrt : F → F) (st : Store F) (idx : Nat) : Nat :=
  let p := pixel vsqrt st (idx / 3 / WIDTH) (idx / 3 % WIDTH)
  to_byte (if idx % 3 = 0 then p.R else if idx % 3 = 1 then p.G else p.B)

/-- The store `st` with its framebuffer replaced by `fb`. -/
def Store.with_fb (st : Store F) (fb : Nat → Nat) : Store F := { st with framebuffer := fb }

/-- The framebuffer `fb` with the pixels `lo ≤ idx / 3 < hi` rendered. -/
def paint (vsqrt : F → F) (st : Store F) (lo hi : Nat) (fb : Nat → Nat) : Nat → Nat :=
  fun idx => if lo ≤ idx / 3 ∧ idx / 3 < hi then pixel_byte vsqrt st idx else fb idx

/-- The shaded `HitState` of the packet that starts at column `x` of row `y`:
the first half of the body of the inner loop of `render_tile`. -/
def packet_hits (vsqrt : F → F) (W : Nat) (y x : Nat) (st : Store F) : HitState W F :=
  let aspect : F := (WIDTH : F) / (HEIGHT : F)
  let v : F := 1.0 - 2.0 * (((y : F) + 0.5) / (HEIGHT : F))
  let pg : svbool_t W := svwhilelt_b32 x WIDTH
  let idx_i : Fin W → Int := svindex_s32 0 1
  let idx_f : svfloat32_t W F := svcvt_f32_s32_x pg idx_i
  let u := svadd_f32_z pg (svdup_f32 ((x : F) + 0.5)) idx_f
  let u := svmul_f32_z pg u (svdup_f32 (2.0 / (WIDTH : F)))
  let u := svsub_f32_z pg u (svdup_f32 1.0)
  let u := svmul_f32_z pg u (svdup_f32 aspect)
  let Dx := u
  let Dy : svfloat32_t W F := svdup_f32 v
  let Dz : svfloat32_t W F := svdup_f32 (-1.0)
  let Ox : svfloat32_t W F := svdup_f32 0
  let Oy : svfloat32_t W F := svdup_f32 0
  let Oz : svfloat32_t W F := svdup_f32 0
  let hs : HitState W F :=
    { bestT := svdup_f32 1000000000, R := svdup_f32 0, G := svdup_f32 0, B := svdup_f32 0,
      Nx := svdup_f32 0, Ny := svdup_f32 0, Nz := svdup_f32 1 }
  let hs := intersect_all vsqrt st pg Ox Oy Oz Dx Dy Dz hs
  apply_phong st.light_dir pg hs.Nx hs.Ny hs.Nz hs

end PixelView

/-! ## The packet and the torus, part by part -/

section PacketView

variable {F : Type} [LinearOrderedField F]

/-- The lane predicate of the packet that starts at column `x`, as `render_tile`
builds it. -/
def packet_pg (W x : Nat) : svbool_t W := svwhilelt_b32 x WIDTH

/-- The vector `Dx` of the packet that starts at column `x`, as `render_tile`
builds it. -/
def packet_Dx (W x : Nat) : svfloat32_t W F :=
  let aspect : F := (WIDTH : F) / (HEIGHT : F)
  let pg : svbool_t W := svwhilelt_b32 x WIDTH
  let idx_i : Fin W → Int := svindex_s32 0 1
  let idx_f : svfloat32_t W F := svcvt_f32_s32_x pg idx_i
  let u := svadd_f32_z pg (svdup_f32 ((x : F) + 0.5)) idx_f
  let u := svmul_f32_z pg u (svdup_f32 (2.0 / (WIDTH : F)))
  let u := svsub_f32_z pg u (svdup_f32 1.0)
  let u := svmul_f32_z pg u (svdup_f32 aspect)
  u

/-- The vector `Dy` of the packets of row `y`, as `render_tile` builds it. -/
def packet_Dy (W y : Nat) : svfloat32_t W F :=
  let v : F := 1.0 - 2.0 * (((y : F) + 0.5) / (HEIGHT : F))
  svdup_f32 v

/-- The `HitState` `render_tile` starts every packet with. -/
def packet_init (W : Nat) : HitState W F :=
  { bestT := svdup_f32 1000000000, R := svdup_f32 0, G := svdup_f32 0, B := svdup_f32 0,
    Nx := svdup_f32 0, Ny := svdup_f32 0, Nz := svdup_f32 1 }

end PacketView

section TorusView

variable {F : Type} [LinearOrderedField F] [FloorRing F]

/-- The grid angle `k / seg * 6.28318` of `init_torus`, with `seg = 8`. -/
def torus_angle (k : Nat) : F := (k : F) / ((8 : Nat) : F) * 6.28318

/-- The vertex `init_torus` computes at toroidal angle `t` and poloidal angle `p`,
with `R = 1.5` and `r = 0.5`. -/
def torus_vertex (t p : F) : Fin 3 → F :=
  ![(1.5 + 0.5 * my_cosf p) * my_cosf t, 0.5 * my_sinf p, -(1.5 + 0.5 * my_cosf p) * my_sinf t]

/-- The first triangle `(v0, v1, v2)` of grid cell `(i, j)`. -/
def torus_first (i j : Nat) : Triangle F :=
  { v0 := torus_vertex (torus_angle i) (torus_angle j)
    v1 := torus_vertex (torus_angle i) (torus_angle (j + 1))
    v2 := torus_vertex (torus_angle (i + 1)) (torus_angle j)
    color := 0xFF8800 }

/-- The second triangle `(v2, v1, v3)` of grid cell `(i, j)`. -/
def torus_second (i j : Nat) : Triangle F :=
  { v0 := torus_vertex (torus_angle (i + 1)) (torus_angle j)
    v1 := torus_vertex (torus_angle i) (torus_angle (j + 1))
    v2 := torus_vertex (torus_angle (i + 1)) (torus_angle (j + 1))
    color := 0xFF8800 }

/-- The triangle list while `init_torus` runs, after `c` grid cells: `2 c`
triangles, cell `m` in slots `2 m` and `2 m + 1`, nothing written from slot 128 on. -/
def TorusInv (st0 : Store F) (c : Nat) (s : Store F) : Prop :=
  s.num_triangles = 2 * c ∧
  (∀ m < c, s.triangles (2 * m) = torus_first (m / 8) (m % 8)
    ∧ s.triangles (2 * m + 1) = torus_second (m / 8) (m % 8)) ∧
  (∀ k, 128 ≤ k → s.triangles k = st0.triangles k)

end TorusView

/-! ## The regression harness -/

/-- The loop of `validate_framebuffer` from index `i` on, given `fuel` iterations:
0 at the first mismatch, 1 when the loop runs to its end. -/
def validate_loop (fb ref : Nat → Nat) : Nat → Nat → Nat
  | 0, _ => 1
  | fuel + 1, i =>
    if i < IMG_SIZE then
      if fb i ≠ ref i then 0 else validate_loop fb ref fuel (i + 1)
    else 1

section Harness

variable {F : Type} [LinearOrderedField F] [FloorRing F]

/-- The function `validate_framebuffer`.  The table `reference_images` comes from
the generated header `reference_images.h` and is a parameter here. -/
def validate_framebuffer (reference_images : Nat → Nat → Nat) (sid : Nat) (st : Store F) :
    Nat :=
  validate_loop st.framebuffer (reference_images sid) IMG_SIZE 0

/-- The scene loop of `main` in the regression build: `none` when a scene fails
validation (the program prints `TEST FAIL` and hangs in `while (1)`), the final
store when the loop reaches `TEST PASS`. -/
def main_validate (reference_images : Nat → Nat → Nat) (vsqrt : F → F) (W : Nat)
    (st : Store F) : Option (Store F) :=
  (List.range NUM_SCENES).foldl
    (fun o s => o.bind (fun st =>
      let st := main_scene vsqrt W s st
      if validate_framebuffer reference_images s st = 0 then none else some st))
    (some st)

/-- The scene loop of `main` in the build with `GENERATE_GOLDEN`: the
framebuffers handed to `save_ppm`, in scene order, and the final store. -/
def main_generate (vsqrt : F → F) (W : Nat) (st : Store F) : List (Nat → Nat) × Store F :=
  (List.range NUM_SCENES).foldl
    (fun acc s =>
      let st := main_scene vsqrt W s acc.2
      (acc.1 ++ [st.framebuffer], st))
    ([], st)

end Harness

/-! ## The stores of `render_tile`, as a record

The loops of `render_tile` once more, with every assignment
`framebuffer[idx] = ...` replaced by a record of `idx`. -/

/-- The framebuffer indices the three store loops of one packet of `render_tile`
write, appended to `log` in the order of the writes. -/
def render_tile_packet_writes (W : Nat) (y x : Nat) (log : List Nat) : List Nat :=
  let lanes := W
  let log := for_loop (fun i => decide (i < lanes) && decide (x + i < WIDTH)) (· + 1)
    (fun i log =>
      let idx := (y * WIDTH + (x + i)) * 3
      log ++ [idx])
    lanes 0 log
  let log := for_loop (fun i => decide (i < lanes) && decide (x + i < WIDTH)) (· + 1)
    (fun i log =>
      let idx := (y * WIDTH + (x + i)) * 3
      log ++ [idx + 1])
    lanes 0 log
  let log := for_loop (fun i => decide (i < lanes) && decide (x + i < WIDTH)) (· + 1)
    (fun i log =>
      let idx := (y * WIDTH + (x + i)) * 3
      log ++ [idx + 2])
    lanes 0 log
  log

/-- The framebuffer indices one call of `render_tile` writes, in the order of
the writes, on hardware whose `svcntw()` is `W`. -/
def render_tile_writes (W : Nat) : List Nat :=
  (List.range HEIGHT).foldl
    (fun log y =>
      for_loop (fun x => decide (x < WIDTH)) (· + W)
        (fun x log => render_tile_packet_writes W y x log) WIDTH 0 log)
    []

/-- One when the pixel that byte `k` belongs to has an index in `lo .. hi - 1`,
zero otherwise. -/
def covered (lo hi k : Nat) : Nat := if lo ≤ k / 3 ∧ k / 3 < hi then 1 else 0

/-! ## Comparing stores -/

section StoreRelations

variable {F : Type}

/-- Two stores hold the same scene objects and light. -/
def SameObjects (st1 st2 : Store F) : Prop :=
  (∀ k < NUM_SPHERES, st1.spheres k = st2.spheres k) ∧
  (∀ k < NUM_PLANES, st1.planes k = st2.planes k) ∧
  (∀ k < NUM_CYLINDERS, st1.cylinders k = st2.cylinders k) ∧
  (∀ k < NUM_DISKS, st1.disks k = st2.disks k) ∧
  st1.light_dir = st2.light_dir

/-- Two stores hold the same triangle list. -/
def SameTriangles (st1 st2 : Store F) : Prop :=
  st1.num_triangles = st2.num_triangles ∧
  ∀ k < st1.num_triangles, st1.triangles k = st2.triangles k

/-- The fields other than the triangle list are the same in both stores. -/
def SameRest (st1 st2 : Store F) : Prop :=
  st1.spheres = st2.spheres ∧ st1.planes = st2.planes ∧ st1.cylinders = st2.cylinders ∧
  st1.disks = st2.disks ∧ st1.light_dir = st2.light_dir ∧ st1.framebuffer = st2.framebuffer

end StoreRelations

/-! ## Concrete inputs

Inputs over `ℚ` on which the program is evaluated in examples. -/

/-- A square root on `ℚ`, exact on the squares of rationals. -/
def qsqrt (x : ℚ) : ℚ := (Nat.sqrt (x.num.toNat * x.den) : ℚ) / x.den

/-- The predicate of a one-lane packet whose lane is active. -/
def lane1 : svbool_t 1 := fun _ => true

/-- The `HitState` `render_tile` starts every packet with, one lane wide. -/
def hit_init : HitState 1 ℚ :=
  { bestT := svdup_f32 1000000000, R := svdup_f32 0, G := svdup_f32 0, B := svdup_f32 0,
    Nx := svdup_f32 0, Ny := svdup_f32 0, Nz := svdup_f32 1 }

/-- Zero-initialised globals. -/
def zero_store : Store ℚ :=
  { spheres := fun _ => ⟨0, 0, 0, 0, 0⟩
    planes := fun _ => ⟨0, 0, 0, 0, 0⟩
    cylinders := fun _ => ⟨0, 0, 0, 0, 0, 0⟩
    disks := fun _ => ⟨0, 0, 0, 0, 0⟩
    triangles := fun _ => ⟨fun _ => 0, fun _ => 0, fun _ => 0, 0⟩
    num_triangles := 0
    light_dir := fun _ => 0
    framebuffer := fun _ => 0 }

/-- Two coincident planes `z = -6` of different colour, nothing else to hit. -/
def tie_store : Store ℚ :=
  { zero_store with
    planes := fun k => if k = 0 then ⟨0, 0, 1, 6, 0xAAAAAA⟩ else ⟨0, 0, 1, 6, 0xCCCCCC⟩ }

/-- A triangle in the plane `z = 1`, behind a ray that leaves the origin along `-z`. -/
def tri_behind : Triangle ℚ :=
  { v0 := ![-1, -1, 1], v1 := ![3, -1, 1], v2 := ![-1, 3, 1], color := 0xFF8800 }

/-- A unit sphere in front of the camera. -/
def front_sphere : Sphere ℚ := ⟨0, 0, -3, 1, 0xFF0000⟩

/-- A lit white lane that faces `+z`. -/
def white_hit : HitState 1 ℚ :=
  { bestT := svdup_f32 1, R := svdup_f32 1, G := svdup_f32 1, B := svdup_f32 1,
    Nx := svdup_f32 0, Ny := svdup_f32 0, Nz := svdup_f32 1 }

/-- Zero-initialised globals but for a triangle count of 1. -/
def stale_store : Store ℚ := { zero_store with num_triangles := 1 }

/-- A unit sphere around the camera. -/
def around_sphere : Sphere ℚ := ⟨0, 0, 0, 1, 0xFF0000⟩

/-- Zero-initialised globals over any field. -/
def blank_store (F : Type) [Zero F] : Store F :=
  { spheres := fun _ => ⟨0, 0, 0, 0, 0⟩
    planes := fun _ => ⟨0, 0, 0, 0, 0⟩
    cylinders := fun _ => ⟨0, 0, 0, 0, 0, 0⟩
    disks := fun _ => ⟨0, 0, 0, 0, 0⟩
    triangles := fun _ => ⟨fun _ => 0, fun _ => 0, fun _ => 0, 0⟩
    num_triangles := 0
    light_dir := fun _ => 0
    framebuffer := fun _ => 0 }

/-- The globals of `main.c` as the program starts: the arrays zero-initialised, no
triangle, `light_dir = { 1, 1, -1 }`. -/
def initial_store (F : Type) [Zero F] [One F] [Neg F] : Store F :=
  { blank_store F with light_dir := ![1, 1, -1] }

/-! ## Theorems -/

section LaneLemmas

variable {F : Type} [LinearOrderedField F] {W : Nat}

theorem svptest_any_false {pg p : svbool_t W} (h : svptest_any pg p = false) (i : Fin W) :
    (pg i && p i) = false := by
  unfold svptest_any at h
  rw [List.any_eq_false] at h
  simpa using h i (List.mem_finRange i)

theorem lane_step_inactive (l : Lane F) (c : Cand F) : lane_step false l c = l := by
  simp [lane_step]

omit [LinearOrderedField F] in
theorem UPDATE_HIT_lane (closer : svbool_t W) (t nx ny nz r g b : svfloat32_t W F)
    (hs : HitState W F) (i : Fin W) :
    (UPDATE_HIT closer t nx ny nz r g b hs).lane i =
      if closer i = true then
        { bestT := t i, R := r i, G := g i, B := b i, Nx := nx i, Ny := ny i, Nz := nz i }
      else hs.lane i := by
  by_cases h : closer i = true <;> simp [UPDATE_HIT, HitState.lane, svsel, h]

omit [LinearOrderedField F] in
theorem color_update_lane (closer : svbool_t W) (t r g b : svfloat32_t W F)
    (hs : HitState W F) (i : Fin W) :
    ({ hs with
        bestT := svsel closer t hs.bestT
        R := svsel closer r hs.R
        G := svsel closer g hs.G
        B := svsel closer b hs.B } : HitState W F).lane i =
      if closer i = true then
        { bestT := t i, R := r i, G := g i, B := b i,
          Nx := hs.Nx i, Ny := hs.Ny i, Nz := hs.Nz i }
      else hs.lane i := by
  by_cases h : closer i = true <;> simp [HitState.lane, svsel, h]

theorem intersect_spheres_body_lane (vsqrt : F → F) (s : Sphere F) (pg : svbool_t W)
    (Ox Oy Oz Dx Dy Dz : svfloat32_t W F) (hs : HitState W F) (i : Fin W) :
    (intersect_spheres_body vsqrt s pg Ox Oy Oz Dx Dy Dz hs).lane i =
      lane_step (pg i) (hs.lane i) (sphere_cand vsqrt s (ray_at Ox Oy Oz Dx Dy Dz i)) := by
  unfold intersect_spheres_body lane_step
  simp only [sphere_cand, Bool.and_eq_true, decide_eq_true_eq]
  split_ifs with h1 hc h2 hc hc
  · exfalso
    have := svptest_any_false (by simpa using h1) i
    simp only [svcmpgt, svsub_f32_z, svmul_f32_z, svadd_f32_z, svdup_f32, hc.1, if_true,
      Bool.true_and, Bool.and_self, decide_eq_false_iff_not, gt_iff_lt] at this
    exact this hc.2.1.1
  · rfl
  · exfalso
    have := svptest_any_false (by simpa using h2) i
    obtain ⟨hp, ⟨hd, hpos⟩, hlt⟩ := hc
    simp only [sphere_t0, sphere_disc, sphere_a, sphere_b, sphere_c, ray_at, HitState.lane]
      at hd hlt hpos
    simp only [svcmpgt, svcmplt, svand_z, svsub_f32_z, svmul_f32_z, svadd_f32_z, svdup_f32,
      svdiv_f32_z, svneg_f32_z, svsqrt_f32_z, hp, hd, hlt, hpos, if_true, decide_True,
      Bool.true_and, Bool.and_self, decide_eq_false_iff_not, gt_iff_lt] at this
    exact Bool.noConfusion this
  · rfl
  · obtain ⟨hp, ⟨hd, hpos⟩, hlt⟩ := hc
    simp only [sphere_t0, sphere_disc, sphere_a, sphere_b, sphere_c, ray_at, HitState.lane,
      Lane.write] at hd hlt hpos ⊢
    simp only [UPDATE_HIT, svsel, svmad_f32_z,
      svcmpgt, svcmplt, svand_z, svsub_f32_z, svmul_f32_z, svadd_f32_z, svdup_f32, svdiv_f32_z,
      svneg_f32_z, svsqrt_f32_z, hp, hd, hlt, hpos, if_true, decide_True,
      Bool.true_and, Bool.and_self, decide_eq_false_iff_not, gt_iff_lt]
  · rw [UPDATE_HIT_lane, if_neg]
    · intro hcl
      apply hc
      simp only [svand_z, svcmpgt, svcmplt, Bool.and_eq_true, decide_eq_true_eq] at hcl
      obtain ⟨hp, ⟨-, hd⟩, -, ⟨-, hlt⟩, -, hpos⟩ := hcl
      have hd2 := hd
      simp only [svcmpgt, svsub_f32_z, svmul_f32_z, svadd_f32_z, svdup_f32,
        svdiv_f32_z, svneg_f32_z, svsqrt_f32_z, hp, if_true, gt_iff_lt] at hd2
      simp only [svcmpgt, svsub_f32_z, svmul_f32_z, svadd_f32_z, svdup_f32,
        svdiv_f32_z, svneg_f32_z, svsqrt_f32_z, hp, hd2, if_true, gt_iff_lt, decide_True,
        Bool.true_and, Bool.and_self] at hlt hpos
      simp only [sphere_t0, sphere_disc, sphere_a, sphere_b, sphere_c, ray_at, HitState.lane]
      exact ⟨hp, ⟨hd2, hpos⟩, hlt⟩

theorem intersect_planes_body_lane (p : Plane F) (pg : svbool_t W)
    (Ox Oy Oz Dx Dy Dz : svfloat32_t W F) (hs : HitState W F) (i : Fin W) :
    (intersect_planes_body p pg Ox Oy Oz Dx Dy Dz hs).lane i =
      lane_step (pg i) (hs.lane i) (plane_cand p (ray_at Ox Oy Oz Dx Dy Dz i)) := by
  unfold intersect_planes_body lane_step
  simp only [plane_cand, Bool.and_eq_true, decide_eq_true_eq]
  split_ifs with h2 hc hc
  · exfalso
    have := svptest_any_false (by simpa using h2) i
    obtain ⟨hp, ⟨hd, hpos⟩, hlt⟩ := hc
    simp only [plane_t, plane_denom, ray_at, HitState.lane] at hd hlt hpos
    simp only [svcmpgt, svcmplt, svcmpne, svand_z, svsub_f32_z, svmul_f32_z, svadd_f32_z,
      svdup_f32, svdiv_f32_z, hp, hd, hlt, hpos, if_true, decide_True, ne_eq, not_false_eq_true,
      Bool.true_and, Bool.and_self, gt_iff_lt] at this
    exact Bool.noConfusion this
  · rfl
  · obtain ⟨hp, ⟨hd, hpos⟩, hlt⟩ := hc
    simp only [plane_t, plane_denom, ray_at, HitState.lane, Lane.write] at hd hlt hpos ⊢
    simp only [UPDATE_HIT, svsel, svcmpgt, svcmplt, svcmpne, svand_z, svsub_f32_z, svmul_f32_z,
      svadd_f32_z, svdup_f32, svdiv_f32_z, hp, hd, hlt, hpos, if_true, decide_True, ne_eq,
      not_false_eq_true, Bool.true_and, Bool.and_self, gt_iff_lt]
  · rw [UPDATE_HIT_lane, if_neg]
    intro hcl
    apply hc
    simp only [svand_z, svcmpgt, svcmplt, svcmpne, Bool.and_eq_true, decide_eq_true_eq] at hcl
    obtain ⟨hp, ⟨-, hd⟩, -, ⟨-, hlt⟩, -, hpos⟩ := hcl
    have hd2 := hd
    simp only [svsub_f32_z, svmul_f32_z, svadd_f32_z, svdup_f32, svdiv_f32_z, hp, if_true,
      ne_eq] at hd2
    simp only [svcmpne, svsub_f32_z, svmul_f32_z, svadd_f32_z, svdup_f32, svdiv_f32_z, hp, hd2,
      if_true, gt_iff_lt, decide_True, ne_eq, not_false_eq_true, Bool.true_and, Bool.and_self]
      at hlt hpos
    simp only [plane_t, plane_denom, ray_at, HitState.lane]
    exact ⟨hp, ⟨hd2, hpos⟩, hlt⟩

theorem intersect_disks_body_lane (dk : Disk F) (pg : svbool_t W)
    (Ox Oy Oz Dx Dy Dz : svfloat32_t W F) (hs : HitState W F) (i : Fin W) :
    (intersect_disks_body dk pg Ox Oy Oz Dx Dy Dz hs).lane i =
      lane_step (pg i) (hs.lane i) (disk_cand dk (ray_at Ox Oy Oz Dx Dy Dz i)) := by
  unfold intersect_disks_body lane_step
  simp only [disk_cand, Bool.and_eq_true, decide_eq_true_eq]
  split_ifs with h1 hc h2 hc hc
  · exfalso
    have := svptest_any_false (by simpa using h1) i
    obtain ⟨hp, ⟨hd, hpos, -⟩, hlt⟩ := hc
    simp only [disk_t, ray_at, HitState.lane] at hd hlt hpos
    simp only [svcmpgt, svcmplt, svcmpne, svand_z, svsub_f32_z, svdup_f32, svdiv_f32_z, hp, hd,
      hlt, hpos, if_true, decide_True, ne_eq, not_false_eq_true, Bool.true_and, Bool.and_self,
      gt_iff_lt] at this
    exact Bool.noConfusion this
  · rfl
  · exfalso
    have := svptest_any_false (by simpa using h2) i
    obtain ⟨hp, ⟨hd, hpos, hin⟩, hlt⟩ := hc
    simp only [disk_dist2, disk_t, ray_at, HitState.lane] at hd hlt hpos hin
    simp only [svcmpgt, svcmplt, svcmpne, svcmple, svand_z, svsub_f32_z, svmul_f32_z,
      svadd_f32_z, svmad_f32_z, svdup_f32, svdiv_f32_z, hp, hd, hlt, hpos, hin, if_true,
      decide_True, ne_eq, not_false_eq_true, Bool.true_and, Bool.and_self, gt_iff_lt] at this
    exact Bool.noConfusion this
  · rfl
  · obtain ⟨hp, ⟨hd, hpos, hin⟩, hlt⟩ := hc
    simp only [disk_dist2, disk_t, ray_at, HitState.lane, Lane.write] at hd hlt hpos hin ⊢
    simp only [UPDATE_HIT, svsel, svcmpgt, svcmplt, svcmpne, svcmple, svand_z, svsub_f32_z,
      svmul_f32_z, svadd_f32_z, svmad_f32_z, svdup_f32, svdiv_f32_z, hp, hd, hlt, hpos, hin,
      if_true, decide_True, ne_eq, not_false_eq_true, Bool.true_and, Bool.and_self, gt_iff_lt]
  · rw [UPDATE_HIT_lane, if_neg]
    intro hcl
    apply hc
    simp only [svand_z, svcmpgt, svcmplt, svcmpne, svcmple, Bool.and_eq_true,
      decide_eq_true_eq] at hcl
    obtain ⟨hp, ⟨-, ⟨-, hd⟩, -, ⟨-, hlt⟩, -, hpos⟩, -, hin⟩ := hcl
    have hd2 := hd
    simp only [svdup_f32, ne_eq] at hd2
    simp only [svcmpne, svsub_f32_z, svdup_f32, svdiv_f32_z, hp, hd2, if_true, gt_iff_lt,
      decide_True, ne_eq, not_false_eq_true, Bool.true_and, Bool.and_self] at hlt hpos
    simp only [svcmpgt, svcmplt, svcmpne, svand_z, svsub_f32_z, svmul_f32_z, svadd_f32_z,
      svmad_f32_z, svdup_f32, svdiv_f32_z, hp, hd2, hlt, hpos, if_true, gt_iff_lt, decide_True,
      ne_eq, not_false_eq_true, Bool.true_and, Bool.and_self] at hin
    simp only [disk_dist2, disk_t, ray_at, HitState.lane]
    exact ⟨hp, ⟨hd2, hpos, hin⟩, hlt⟩

theorem intersect_cylinders_body_lane (vsqrt : F → F) (cyl : Cylinder F) (pg : svbool_t W)
    (Ox Oy Oz Dx Dy Dz : svfloat32_t W F) (hs : HitState W F) (i : Fin W) :
    (intersect_cylinders_body vsqrt cyl pg Ox Oy Oz Dx Dy Dz hs).lane i =
      lane_step (pg i) (hs.lane i) (cyl_cand vsqrt cyl (ray_at Ox Oy Oz Dx Dy Dz i)) := by
  unfold intersect_cylinders_body lane_step
  simp only [cyl_cand, Bool.and_eq_true, decide_eq_true_eq]
  split_ifs with h1 hc h2 hc h3 hc hc
  · exfalso
    have := svptest_any_false (by simpa using h1) i
    simp only [svcmpgt, svsub_f32_z, svmul_f32_z, svadd_f32_z, svdup_f32, hc.1, if_true,
      Bool.true_and, Bool.and_self, decide_eq_false_iff_not, gt_iff_lt] at this
    exact this hc.2.1.1
  · rfl
  · exfalso
    have := svptest_any_false (by simpa using h2) i
    obtain ⟨hp, ⟨hd, -, -⟩, hlt⟩ := hc
    simp only [cyl_t0, cyl_disc, cyl_a, cyl_b, cyl_c, ray_at, HitState.lane] at hd hlt
    simp only [svcmpgt, svcmplt, svand_z, svsub_f32_z, svmul_f32_z, svadd_f32_z, svdup_f32,
      svdiv_f32_z, svneg_f32_z, svsqrt_f32_z, hp, hd, hlt, if_true, decide_True,
      Bool.true_and, Bool.and_self, gt_iff_lt] at this
    exact Bool.noConfusion this
  · rfl
  · exfalso
    have := svptest_any_false (by simpa using h3) i
    obtain ⟨hp, ⟨hd, hge, hle⟩, hlt⟩ := hc
    simp only [cyl_yhit, cyl_t0, cyl_disc, cyl_a, cyl_b, cyl_c, ray_at, HitState.lane]
      at hd hlt hge hle
    simp only [svcmpgt, svcmplt, svcmpge, svcmple, svand_z, svsub_f32_z, svmul_f32_z,
      svadd_f32_z, svmad_f32_z, svdup_f32, svdiv_f32_z, svneg_f32_z, svsqrt_f32_z, hp, hd, hlt,
      hge, hle, if_true, decide_True, Bool.true_and, Bool.and_self, gt_iff_lt, ge_iff_le]
      at this
    exact Bool.noConfusion this
  · rfl
  · obtain ⟨hp, ⟨hd, hge, hle⟩, hlt⟩ := hc
    simp only [cyl_yhit, cyl_t0, cyl_disc, cyl_a, cyl_b, cyl_c, ray_at, HitState.lane,
      Lane.write] at hd hlt hge hle ⊢
    simp only [UPDATE_HIT, svsel, svcmpgt, svcmplt, svcmpge, svcmple, svand_z, svsub_f32_z,
      svmul_f32_z, svadd_f32_z, svmad_f32_z, svdup_f32, svdiv_f32_z, svneg_f32_z, svsqrt_f32_z,
      hp, hd, hlt, hge, hle, if_true, decide_True, Bool.true_and, Bool.and_self, gt_iff_lt,
      ge_iff_le]
  · rw [UPDATE_HIT_lane, if_neg]
    intro hcl
    apply hc
    simp only [svand_z, svcmpgt, svcmplt, svcmpge, svcmple, Bool.and_eq_true,
      decide_eq_true_eq] at hcl
    obtain ⟨hp, ⟨-, ⟨-, ⟨-, hd⟩, -, hlt⟩, -, hge⟩, -, hle⟩ := hcl
    have hd2 := hd
    simp only [svsub_f32_z, svmul_f32_z, svadd_f32_z, svdup_f32, hp, if_true, gt_iff_lt]
      at hd2
    simp only [svcmpgt, svsub_f32_z, svmul_f32_z, svadd_f32_z, svdup_f32, svdiv_f32_z,
      svneg_f32_z, svsqrt_f32_z, hp, hd2, if_true, gt_iff_lt, decide_True, Bool.true_and,
      Bool.and_self] at hlt
    simp only [svcmpgt, svcmplt, svand_z, svsub_f32_z, svmul_f32_z, svadd_f32_z, svmad_f32_z,
      svdup_f32, svdiv_f32_z, svneg_f32_z, svsqrt_f32_z, hp, hd2, hlt, if_true, gt_iff_lt,
      ge_iff_le, decide_True, Bool.true_and, Bool.and_self] at hge hle
    simp only [cyl_yhit, cyl_t0, cyl_disc, cyl_a, cyl_b, cyl_c, ray_at, HitState.lane]
    exact ⟨hp, ⟨hd2, hge, hle⟩, hlt⟩

theorem bvh_trace_packet_sve_body_lane (t : Triangle F) (pg : svbool_t W)
    (Ox Oy Oz Dx Dy Dz : svfloat32_t W F) (hs : HitState W F) (i : Fin W) :
    (bvh_trace_packet_sve_body t pg Ox Oy Oz Dx Dy Dz hs).lane i =
      lane_step (pg i) (hs.lane i) (tri_cand t (ray_at Ox Oy Oz Dx Dy Dz i)) := by
  unfold bvh_trace_packet_sve_body lane_step
  simp only [tri_cand, Bool.and_eq_true, decide_eq_true_eq]
  split_ifs with h1 hc h2 hc h3 hc hc
  · exfalso
    have := svptest_any_false (by simpa using h1) i
    obtain ⟨hp, ⟨hd, -⟩, -⟩ := hc
    simp only [tri_det, tri_px, tri_py, tri_pz, ray_at] at hd
    simp only [svcmpne, svsub_f32_z, svmul_f32_z, svadd_f32_z, svdup_f32, hp, hd, if_true,
      Bool.true_and, Bool.and_self, ne_eq, not_false_eq_true, decide_True] at this
    exact Bool.noConfusion this
  · rfl
  · exfalso
    have := svptest_any_false (by simpa using h2) i
    obtain ⟨hp, ⟨hd, hu, hv, huv⟩, -⟩ := hc
    simp only [tri_u, tri_v, tri_qx, tri_qy, tri_qz, tri_det, tri_px, tri_py, tri_pz, ray_at]
      at hd hu hv huv
    simp only [svcmpne, svcmpge, svcmple, svand_z, svsub_f32_z, svmul_f32_z, svadd_f32_z,
      svdiv_f32_z, svdup_f32, hp, hd, hu, hv, huv, if_true, Bool.true_and, Bool.and_self, ne_eq,
      not_false_eq_true, decide_True, ge_iff_le] at this
    exact Bool.noConfusion this
  · rfl
  · exfalso
    have := svptest_any_false (by simpa using h3) i
    obtain ⟨hp, ⟨hd, hu, hv, huv⟩, hlt⟩ := hc
    simp only [tri_t, tri_u, tri_v, tri_qx, tri_qy, tri_qz, tri_det, tri_px, tri_py, tri_pz,
      ray_at, HitState.lane] at hd hu hv huv hlt
    simp only [svcmpne, svcmpge, svcmple, svcmplt, svand_z, svsub_f32_z, svmul_f32_z,
      svadd_f32_z, svdiv_f32_z, svdup_f32, hp, hd, hu, hv, huv, hlt, if_true, Bool.true_and,
      Bool.and_self, ne_eq, not_false_eq_true, decide_True, ge_iff_le] at this
    exact Bool.noConfusion this
  · rfl
  · obtain ⟨hp, ⟨hd, hu, hv, huv⟩, hlt⟩ := hc
    simp only [tri_t, tri_u, tri_v, tri_qx, tri_qy, tri_qz, tri_det, tri_px, tri_py, tri_pz,
      ray_at, HitState.lane, Lane.write] at hd hu hv huv hlt ⊢
    simp only [svsel, svcmpne, svcmpge, svcmple, svcmplt, svand_z, svsub_f32_z, svmul_f32_z,
      svadd_f32_z, svdiv_f32_z, svdup_f32, hp, hd, hu, hv, huv, hlt, if_true, Bool.true_and,
      Bool.and_self, ne_eq, not_false_eq_true, decide_True, ge_iff_le]
  · rw [color_update_lane, if_neg]
    intro hcl
    apply hc
    simp only [svand_z, svcmpne, svcmpge, svcmple, svcmplt, Bool.and_eq_true,
      decide_eq_true_eq] at hcl
    obtain ⟨hp, ⟨-, ⟨-, hd⟩, -, ⟨-, hu⟩, -, ⟨-, hv⟩, -, huv⟩, -, hlt⟩ := hcl
    have hd2 := hd
    simp only [svsub_f32_z, svmul_f32_z, svadd_f32_z, svdup_f32, hp, if_true, ne_eq] at hd2
    simp only [svcmpne, svsub_f32_z, svmul_f32_z, svadd_f32_z, svdiv_f32_z, svdup_f32, hp, hd2,
      if_true, ge_iff_le, decide_True, ne_eq, not_false_eq_true, Bool.true_and, Bool.and_self]
      at hu hv huv
    simp only [svcmpne, svcmpge, svcmple, svand_z, svsub_f32_z, svmul_f32_z, svadd_f32_z,
      svdiv_f32_z, svdup_f32, hp, hd2, hu, hv, huv, if_true, ge_iff_le, decide_True, ne_eq,
      not_false_eq_true, Bool.true_and, Bool.and_self] at hlt
    simp only [tri_t, tri_u, tri_v, tri_qx, tri_qy, tri_qz, tri_det, tri_px, tri_py, tri_pz,
      ray_at, HitState.lane]
    exact ⟨hp, ⟨hd2, hu, hv, huv⟩, hlt⟩

omit [LinearOrderedField F] in
/-- A loop over primitives acts on one lane as the fold of its lane steps. -/
theorem foldl_lane {α : Type} (f : HitState W F → α → HitState W F)
    (g : Lane F → α → Lane F)
    (i : Fin W) (h : ∀ hs a, (f hs a).lane i = g (hs.lane i) a) (l : List α)
    (hs : HitState W F) : (l.foldl f hs).lane i = l.foldl g (hs.lane i) := by
  induction l generalizing hs with
  | nil => rfl
  | cons a l ih => simp only [List.foldl_cons, ih, h]

theorem intersect_spheres_lane (vsqrt : F → F) (spheres : Nat → Sphere F) (pg : svbool_t W)
    (Ox Oy Oz Dx Dy Dz : svfloat32_t W F) (hs : HitState W F) (i : Fin W) :
    (intersect_spheres vsqrt spheres pg Ox Oy Oz Dx Dy Dz hs).lane i =
      ((List.range NUM_SPHERES).map
        (fun k => sphere_cand vsqrt (spheres k) (ray_at Ox Oy Oz Dx Dy Dz i))).foldl
        (lane_step (pg i)) (hs.lane i) := by
  unfold intersect_spheres
  rw [List.foldl_map]
  exact foldl_lane _ _ i (fun hs k => intersect_spheres_body_lane vsqrt _ pg _ _ _ _ _ _ hs i) _ _

theorem intersect_planes_lane (planes : Nat → Plane F) (pg : svbool_t W)
    (Ox Oy Oz Dx Dy Dz : svfloat32_t W F) (hs : HitState W F) (i : Fin W) :
    (intersect_planes planes pg Ox Oy Oz Dx Dy Dz hs).lane i =
      ((List.range NUM_PLANES).map
        (fun k => plane_cand (planes k) (ray_at Ox Oy Oz Dx Dy Dz i))).foldl
        (lane_step (pg i)) (hs.lane i) := by
  unfold intersect_planes
  rw [List.foldl_map]
  exact foldl_lane _ _ i (fun hs k => intersect_planes_body_lane _ pg _ _ _ _ _ _ hs i) _ _

theorem intersect_cylinders_lane (vsqrt : F → F) (cylinders : Nat → Cylinder F)
    (pg : svbool_t W) (Ox Oy Oz Dx Dy Dz : svfloat32_t W F) (hs : HitState W F) (i : Fin W) :
    (intersect_cylinders vsqrt cylinders pg Ox Oy Oz Dx Dy Dz hs).lane i =
      ((List.range NUM_CYLINDERS).map
        (fun k => cyl_cand vsqrt (cylinders k) (ray_at Ox Oy Oz Dx Dy Dz i))).foldl
        (lane_step (pg i)) (hs.lane i) := by
  unfold intersect_cylinders
  rw [List.foldl_map]
  exact foldl_lane _ _ i
    (fun hs k => intersect_cylinders_body_lane vsqrt _ pg _ _ _ _ _ _ hs i) _ _

theorem intersect_disks_lane (disks : Nat → Disk F) (pg : svbool_t W)
    (Ox Oy Oz Dx Dy Dz : svfloat32_t W F) (hs : HitState W F) (i : Fin W) :
    (intersect_disks disks pg Ox Oy Oz Dx Dy Dz hs).lane i =
      ((List.range NUM_DISKS).map
        (fun k => disk_cand (disks k) (ray_at Ox Oy Oz Dx Dy Dz i))).foldl
        (lane_step (pg i)) (hs.lane i) := by
  unfold intersect_disks
  rw [List.foldl_map]
  exact foldl_lane _ _ i (fun hs k => intersect_disks_body_lane _ pg _ _ _ _ _ _ hs i) _ _

theorem bvh_trace_packet_sve_lane (triangles : Nat → Triangle F) (num_triangles : Nat)
    (pg : svbool_t W) (Ox Oy Oz Dx Dy Dz : svfloat32_t W F) (hs : HitState W F) (i : Fin W) :
    (bvh_trace_packet_sve triangles num_triangles pg Ox Oy Oz Dx Dy Dz hs).lane i =
      ((List.range num_triangles).map
        (fun k => tri_cand (triangles k) (ray_at Ox Oy Oz Dx Dy Dz i))).foldl
        (lane_step (pg i)) (hs.lane i) := by
  unfold bvh_trace_packet_sve
  rw [List.foldl_map]
  exact foldl_lane _ _ i (fun hs k => bvh_trace_packet_sve_body_lane _ pg _ _ _ _ _ _ hs i) _ _

/-- The five passes act on one lane as the fold of `lane_step` over the
candidates of the scene, in evaluation order. -/
theorem intersect_all_lane (vsqrt : F → F) (st : Store F) (pg : svbool_t W)
    (Ox Oy Oz Dx Dy Dz : svfloat32_t W F) (hs : HitState W F) (i : Fin W) :
    (intersect_all vsqrt st pg Ox Oy Oz Dx Dy Dz hs).lane i =
      (scene_cands vsqrt st (ray_at Ox Oy Oz Dx Dy Dz i)).foldl
        (lane_step (pg i)) (hs.lane i) := by
  unfold intersect_all scene_cands
  simp only [List.foldl_append, bvh_trace_packet_sve_lane, intersect_disks_lane,
    intersect_cylinders_lane, intersect_planes_lane, intersect_spheres_lane]

/-! ### Facts about `lane_step` -/

theorem lane_step_same_or_closer (active : Bool) (l : Lane F) (c : Cand F) :
    lane_step active l c = l ∨ (lane_step active l c).bestT < l.bestT := by
  unfold lane_step
  split_ifs with h
  · right; exact h.2.2
  · left; rfl

theorem foldl_lane_step_same_or_closer (active : Bool) (cs : List (Cand F)) (l : Lane F) :
    cs.foldl (lane_step active) l = l ∨ (cs.foldl (lane_step active) l).bestT < l.bestT := by
  induction cs generalizing l with
  | nil => left; rfl
  | cons c cs ih =>
    simp only [List.foldl_cons]
    rcases ih (lane_step active l c) with h1 | h1 <;>
      rcases lane_step_same_or_closer active l c with h2 | h2
    · left; rw [h1, h2]
    · right; rw [h1]; exact h2
    · right; rw [h2] at h1 ⊢; exact h1
    · right; exact lt_trans h1 h2

theorem foldl_lane_step_le (active : Bool) (cs : List (Cand F)) (l : Lane F) :
    (cs.foldl (lane_step active) l).bestT ≤ l.bestT := by
  rcases foldl_lane_step_same_or_closer active cs l with h | h
  · rw [h]
  · exact le_of_lt h

/-- After the fold, `bestT` is at most the `t` of every accepted candidate. -/
theorem foldl_lane_step_le_cand (cs : List (Cand F)) (l : Lane F) (c : Cand F)
    (hc : c ∈ cs) (hok : c.ok = true) : (cs.foldl (lane_step true) l).bestT ≤ c.t := by
  induction cs generalizing l with
  | nil => cases hc
  | cons d cs ih =>
    simp only [List.foldl_cons]
    rcases List.mem_cons.1 hc with h | h
    · subst h
      refine le_trans (foldl_lane_step_le true cs _) ?_
      unfold lane_step
      split_ifs with h1
      · exact le_refl _
      · simp only [true_and, not_and, not_lt] at h1
        exact h1 hok
    · exact ih _ h

/-- After the fold, `bestT` is the initial one or the `t` of a candidate. -/
theorem foldl_lane_step_bestT_mem (active : Bool) (cs : List (Cand F)) (l : Lane F) :
    (cs.foldl (lane_step active) l).bestT = l.bestT ∨
      ∃ c ∈ cs, (cs.foldl (lane_step active) l).bestT = c.t := by
  induction cs generalizing l with
  | nil => left; rfl
  | cons d cs ih =>
    simp only [List.foldl_cons]
    rcases ih (lane_step active l d) with h | ⟨c, hc, h⟩
    · rw [h]
      unfold lane_step
      split_ifs with h1
      · right; exact ⟨d, List.mem_cons_self _ _, rfl⟩
      · left; rfl
    · right; exact ⟨c, List.mem_cons_of_mem _ hc, h⟩

end LaneLemmas

section Helpers

variable {F : Type} [LinearOrderedField F] {W : Nat}

/-- Candidates none of which is strictly closer leave the lane as it is. -/
theorem foldl_lane_step_no_closer (active : Bool) (cs : List (Cand F)) (l : Lane F)
    (h : ∀ c ∈ cs, c.ok = true → l.bestT ≤ c.t) : cs.foldl (lane_step active) l = l := by
  induction cs with
  | nil => rfl
  | cons d cs ih =>
    have hd : lane_step active l d = l := by
      unfold lane_step
      rw [if_neg]
      rintro ⟨-, hok, hlt⟩
      exact absurd hlt (not_lt.2 (h d (List.mem_cons_self _ _) hok))
    rw [List.foldl_cons, hd]
    exact ih (fun c hc => h c (List.mem_cons_of_mem _ hc))

/-- Membership in the candidate list of a scene, by kind of primitive. -/
theorem mem_scene_cands (vsqrt : F → F) (st : Store F) (ray : Ray F) (c : Cand F) :
    c ∈ scene_cands vsqrt st ray ↔
      (∃ k < NUM_SPHERES, c = sphere_cand vsqrt (st.spheres k) ray) ∨
      (∃ k < NUM_PLANES, c = plane_cand (st.planes k) ray) ∨
      (∃ k < NUM_CYLINDERS, c = cyl_cand vsqrt (st.cylinders k) ray) ∨
      (∃ k < NUM_DISKS, c = disk_cand (st.disks k) ray) ∨
      (∃ k < st.num_triangles, c = tri_cand (st.triangles k) ray) := by
  simp only [scene_cands, List.mem_append, List.mem_map, List.mem_range, or_assoc, eq_comm]

omit [LinearOrderedField F] in
theorem single_lane (hs : HitState W F) (i : Fin W) (j : Fin 1) :
    (hs.single i).lane j = hs.lane i := rfl

omit [LinearOrderedField F] in
theorem single_ray (Ox Oy Oz Dx Dy Dz : svfloat32_t W F) (i : Fin W) (j : Fin 1) :
    ray_at (single Ox i) (single Oy i) (single Oz i) (single Dx i) (single Dy i)
      (single Dz i) j = ray_at Ox Oy Oz Dx Dy Dz i := rfl

end Helpers

theorem qsqrt_four : qsqrt 4 = 2 := by
  have h : Nat.sqrt 4 = 2 := Nat.sqrt_eq 2
  simp [qsqrt, h]

theorem render_scene_cylinder (sid : Nat) (st : Store ℚ) (h : sid = 0) :
    (render_scene sid st).cylinders 0 = ⟨0, -1, -5, 1, 2, 0x00FFFF⟩ := by
  subst h
  simp [render_scene, NUM_SPHERES, List.range_succ]
  norm_num

theorem tie_store_spheres_lane (l : Lane ℚ) :
    ((List.range NUM_SPHERES).map (fun k => sphere_cand qsqrt (tie_store.spheres k)
      { Ox := 0, Oy := 0, Oz := 0, Dx := 0, Dy := 0, Dz := -1 })).foldl (lane_step true) l
      = l := by
  apply foldl_lane_step_no_closer
  intro c hc hok
  simp only [List.mem_map] at hc
  obtain ⟨k, -, rfl⟩ := hc
  norm_num [sphere_cand, sphere_disc, sphere_a, sphere_b, sphere_c, tie_store, zero_store]
    at hok


/-! ### Range reduction -/

section TrigLemmas

variable {F : Type} [LinearOrderedField F]

/-- With `x ≤ 3.14159 + 6.28318 * fuel` the first range-reduction loop leaves
through its test: the result is at most `3.14159`. -/
theorem reduce_above_le (fuel : Nat) (x : F) (h : x ≤ 3.14159 + 6.28318 * (fuel : F)) :
    reduce_above fuel x ≤ 3.14159 := by
  induction fuel generalizing x with
  | zero =>
    simp only [reduce_above]
    simpa using h
  | succ n ih =>
    simp only [reduce_above]
    split_ifs with hx
    · apply ih
      push_cast at h
      linarith
    · exact not_lt.1 hx

/-- With `-3.14159 - 6.28318 * fuel ≤ x` the second range-reduction loop leaves
through its test: the result is at least `-3.14159`. -/
theorem reduce_below_ge (fuel : Nat) (x : F) (h : -3.14159 - 6.28318 * (fuel : F) ≤ x) :
    -3.14159 ≤ reduce_below fuel x := by
  induction fuel generalizing x with
  | zero =>
    simp only [reduce_below]
    simpa using h
  | succ n ih =>
    simp only [reduce_below]
    split_ifs with hx
    · apply ih
      push_cast at h
      linarith
    · exact not_lt.1 hx

variable [FloorRing F]

/-- The fuel `reduce_fuel x` is enough for both loops started at `x`. -/
theorem reduce_fuel_enough (x : F) :
    reduce_above (reduce_fuel x) x ≤ 3.14159 ∧ -3.14159 ≤ reduce_below (reduce_fuel x) x := by
  have h1 : |x| ≤ (reduce_fuel x : F) := Nat.le_ceil _
  have h2 : (0 : F) ≤ (reduce_fuel x : F) := Nat.cast_nonneg _
  have h3 := abs_le.1 h1
  constructor
  · apply reduce_above_le
    norm_num at *
    nlinarith [h3.2]
  · apply reduce_below_ge
    norm_num at *
    nlinarith [h3.1]

end TrigLemmas

/-! ### The frame loop -/

section FrameLemmas

variable {F : Type} [LinearOrderedField F] {W : Nat}

theorem apply_phong_lane (light_dir : Fin 3 → F) (pg : svbool_t W) (hs : HitState W F)
    (i : Fin W) (h : pg i = true) :
    (apply_phong light_dir pg hs.Nx hs.Ny hs.Nz hs).lane i = shade light_dir (hs.lane i) := by
  simp only [apply_phong, shade, HitState.lane, svmad_f32_z, svmax_f32_z, svadd_f32_z,
    svmul_f32_z, svdup_f32, h, if_true]

/-- The three store loops of `render_tile`: channel `ch` of the lanes of the packet. -/
theorem write_loop (W x y ch : Nat) (val : Nat → Nat) (hch : ch < 3) :
    ∀ (fuel i0 : Nat) (fb : Nat → Nat), W ≤ i0 + fuel →
    for_loop (fun i => decide (i < W) && decide (x + i < WIDTH)) (· + 1)
      (fun i fb => Function.update fb ((y * WIDTH + (x + i)) * 3 + ch) (val i)) fuel i0 fb
    = fun idx => if idx % 3 = ch ∧ y * WIDTH + x + i0 ≤ idx / 3 ∧ idx / 3 < y * WIDTH + x + W
        ∧ idx / 3 < y * WIDTH + WIDTH then val (idx / 3 - (y * WIDTH + x)) else fb idx := by
  intro fuel
  induction fuel with
  | zero =>
    intro i0 fb h
    funext idx
    simp only [for_loop]
    rw [if_neg]
    omega
  | succ n ih =>
    intro i0 fb h
    funext idx
    simp only [for_loop]
    simp only [Bool.and_eq_true, decide_eq_true_eq]
    split_ifs with hc hr hr
    · rw [ih (i0 + 1) _ (by omega)]
      simp only [Function.update_apply]
      split_ifs with h1 h2
      · rfl
      · subst h2
        congr 1
        simp only [WIDTH] at *
        omega
      · exfalso
        simp only [WIDTH] at *
        omega
    · rw [ih (i0 + 1) _ (by omega)]
      simp only [Function.update_apply]
      split_ifs with h1 h2
      · exfalso
        simp only [WIDTH] at *
        omega
      · exfalso
        simp only [WIDTH] at *
        omega
      · rfl
    · exfalso
      simp only [WIDTH] at *
      omega
    · rfl

variable [FloorRing F]

theorem store_R (W x y : Nat) (tmp : Nat → F) (fb : Nat → Nat) :
    for_loop (fun i => decide (i < W) && decide (x + i < WIDTH)) (· + 1)
      (fun i fb => Function.update fb ((y * WIDTH + (x + i)) * 3) (to_byte (tmp i))) W 0 fb
    = fun idx => if idx % 3 = 0 ∧ y * WIDTH + x + 0 ≤ idx / 3 ∧ idx / 3 < y * WIDTH + x + W
        ∧ idx / 3 < y * WIDTH + WIDTH then to_byte (tmp (idx / 3 - (y * WIDTH + x)))
        else fb idx :=
  write_loop W x y 0 (fun i => to_byte (tmp i)) (by decide) W 0 fb (by omega)

theorem store_G (W x y : Nat) (tmp : Nat → F) (fb : Nat → Nat) :
    for_loop (fun i => decide (i < W) && decide (x + i < WIDTH)) (· + 1)
      (fun i fb => Function.update fb ((y * WIDTH + (x + i)) * 3 + 1) (to_byte (tmp i)))
      W 0 fb
    = fun idx => if idx % 3 = 1 ∧ y * WIDTH + x + 0 ≤ idx / 3 ∧ idx / 3 < y * WIDTH + x + W
        ∧ idx / 3 < y * WIDTH + WIDTH then to_byte (tmp (idx / 3 - (y * WIDTH + x)))
        else fb idx :=
  write_loop W x y 1 (fun i => to_byte (tmp i)) (by decide) W 0 fb (by omega)

theorem store_B (W x y : Nat) (tmp : Nat → F) (fb : Nat → Nat) :
    for_loop (fun i => decide (i < W) && decide (x + i < WIDTH)) (· + 1)
      (fun i fb => Function.update fb ((y * WIDTH + (x + i)) * 3 + 2) (to_byte (tmp i)))
      W 0 fb
    = fun idx => if idx % 3 = 2 ∧ y * WIDTH + x + 0 ≤ idx / 3 ∧ idx / 3 < y * WIDTH + x + W
        ∧ idx / 3 < y * WIDTH + WIDTH then to_byte (tmp (idx / 3 - (y * WIDTH + x)))
        else fb idx :=
  write_loop W x y 2 (fun i => to_byte (tmp i)) (by decide) W 0 fb (by omega)

omit [LinearOrderedField F] [FloorRing F] in
theorem svst1_active (pg : svbool_t W) (tmp : Nat → F) (v : svfloat32_t W F) (i : Nat)
    (h : i < W) (hp : pg ⟨i, h⟩ = true) : svst1 pg tmp v i = v ⟨i, h⟩ := by
  simp only [svst1, h, dite_true, hp, if_true]

omit [FloorRing F] in
theorem packet_hits_lane (vsqrt : F → F) (W : Nat) (y x : Nat) (st : Store F) (i : Fin W)
    (h : x + i.val < WIDTH) :
    (packet_hits vsqrt W y x st).lane i = pixel vsqrt st y (x + i.val) := by
  have hp : (svwhilelt_b32 x WIDTH : svbool_t W) i = true := by
    simp only [svwhilelt_b32, decide_eq_true_eq]; exact h
  unfold packet_hits pixel
  simp only []
  rw [apply_phong_lane _ _ _ _ hp, intersect_all_lane, hp]
  congr 2
  simp only [ray_at, primary_ray, svmul_f32_z, svsub_f32_z, svadd_f32_z, svdup_f32,
    svcvt_f32_s32_x, svindex_s32, hp, if_true, Ray.mk.injEq, true_and, and_true]
  push_cast
  ring_nf

theorem render_tile_packet_eq (vsqrt : F → F) (W : Nat) (y x : Nat) (st : Store F) :
    render_tile_packet vsqrt W y x st =
      st.with_fb (paint vsqrt st (y * WIDTH + x) (y * WIDTH + min (x + W) WIDTH)
        st.framebuffer) := by
  have hdef : render_tile_packet vsqrt W y x st =
      st.with_fb (for_loop (fun i => decide (i < W) && decide (x + i < WIDTH)) (· + 1)
          (fun i fb => Function.update fb ((y * WIDTH + (x + i)) * 3 + 2)
            (to_byte (svst1 (svwhilelt_b32 x WIDTH)
              (svst1 (svwhilelt_b32 x WIDTH)
                (svst1 (svwhilelt_b32 x WIDTH) (fun _ => 0) (packet_hits vsqrt W y x st).R)
                (packet_hits vsqrt W y x st).G)
              (packet_hits vsqrt W y x st).B i))) W 0
        (for_loop (fun i => decide (i < W) && decide (x + i < WIDTH)) (· + 1)
          (fun i fb => Function.update fb ((y * WIDTH + (x + i)) * 3 + 1)
            (to_byte (svst1 (svwhilelt_b32 x WIDTH)
                (svst1 (svwhilelt_b32 x WIDTH) (fun _ => 0) (packet_hits vsqrt W y x st).R)
                (packet_hits vsqrt W y x st).G i))) W 0
        (for_loop (fun i => decide (i < W) && decide (x + i < WIDTH)) (· + 1)
          (fun i fb => Function.update fb ((y * WIDTH + (x + i)) * 3)
            (to_byte (svst1 (svwhilelt_b32 x WIDTH) (fun _ => 0)
              (packet_hits vsqrt W y x st).R i))) W 0 st.framebuffer))) := rfl
  rw [hdef, store_R, store_G, store_B]
  congr 1
  funext idx
  have hval : ∀ (i : Nat) (hi : i < W), x + i < WIDTH →
      (packet_hits vsqrt W y x st).lane ⟨i, hi⟩ = pixel vsqrt st y (x + i) :=
    fun i hi h => packet_hits_lane vsqrt W y x st ⟨i, hi⟩ h
  have hact : ∀ (i : Nat) (hi : i < W), x + i < WIDTH →
      (svwhilelt_b32 x WIDTH : svbool_t W) ⟨i, hi⟩ = true := by
    intro i hi h
    simp only [svwhilelt_b32, decide_eq_true_eq]; exact h
  simp only [paint]
  by_cases hr : y * WIDTH + x ≤ idx / 3 ∧ idx / 3 < y * WIDTH + min (x + W) WIDTH
  · rw [if_pos hr]
    have hi : idx / 3 - (y * WIDTH + x) < W := by omega
    have hx : x + (idx / 3 - (y * WIDTH + x)) < WIDTH := by omega
    have hrow : idx / 3 / WIDTH = y := by
      simp only [WIDTH] at *
      omega
    have hcol : idx / 3 % WIDTH = x + (idx / 3 - (y * WIDTH + x)) := by
      simp only [WIDTH] at *
      omega
    have hv := hval _ hi hx
    simp only [pixel_byte, hrow, hcol, ← hv, HitState.lane]
    have h3 : idx % 3 = 0 ∨ idx % 3 = 1 ∨ idx % 3 = 2 := by omega
    have hrange : y * WIDTH + x + 0 ≤ idx / 3 ∧ idx / 3 < y * WIDTH + x + W
        ∧ idx / 3 < y * WIDTH + WIDTH := by omega
    rcases h3 with h | h | h
    · simp only [h, hrange, and_self, true_and, if_true, svst1_active _ _ _ _ hi (hact _ hi hx)]
      simp
    · simp only [h, hrange, and_self, true_and, if_true, svst1_active _ _ _ _ hi (hact _ hi hx)]
      simp
    · simp only [h, hrange, and_self, true_and, if_true, svst1_active _ _ _ _ hi (hact _ hi hx)]
      simp
  · rw [if_neg hr]
    have hrange : ¬ (y * WIDTH + x + 0 ≤ idx / 3 ∧ idx / 3 < y * WIDTH + x + W
        ∧ idx / 3 < y * WIDTH + WIDTH) := by omega
    simp only [hrange, and_false, if_false]

omit [LinearOrderedField F] [FloorRing F] in
theorem with_fb_with_fb (st : Store F) (a b : Nat → Nat) :
    (st.with_fb a).with_fb b = st.with_fb b := rfl

omit [LinearOrderedField F] [FloorRing F] in
theorem with_fb_self (st : Store F) : st.with_fb st.framebuffer = st := rfl

theorem paint_with_fb (vsqrt : F → F) (st : Store F) (a : Nat → Nat) :
    paint vsqrt (st.with_fb a) = paint vsqrt st := rfl

theorem paint_empty (vsqrt : F → F) (st : Store F) (lo hi : Nat) (fb : Nat → Nat)
    (h : hi ≤ lo) : paint vsqrt st lo hi fb = fb := by
  funext idx
  simp only [paint]
  rw [if_neg]
  omega

theorem paint_paint (vsqrt : F → F) (st : Store F) (lo mid hi : Nat) (fb : Nat → Nat)
    (h1 : lo ≤ mid) (h2 : mid ≤ hi) :
    paint vsqrt st mid hi (paint vsqrt st lo mid fb) = paint vsqrt st lo hi fb := by
  funext idx
  simp only [paint]
  split_ifs <;> first | rfl | (exfalso; omega)

/-- The column loop of `render_tile` for row `y`, from column `x` on. -/
theorem render_tile_row (vsqrt : F → F) (W : Nat) (y : Nat) (hW : 1 ≤ W) :
    ∀ (fuel x : Nat) (st : Store F), WIDTH ≤ x + fuel * W →
    for_loop (fun x => decide (x < WIDTH)) (· + W)
      (fun x st => render_tile_packet vsqrt W y x st) fuel x st
    = st.with_fb (paint vsqrt st (y * WIDTH + min x WIDTH) (y * WIDTH + WIDTH)
        st.framebuffer) := by
  intro fuel
  induction fuel with
  | zero =>
    intro x st h
    simp only [for_loop]
    rw [paint_empty _ _ _ _ _ (by omega), with_fb_self]
  | succ n ih =>
    intro x st h
    simp only [for_loop, decide_eq_true_eq]
    split_ifs with hx
    · rw [ih (x + W) _ (by rw [Nat.succ_mul] at h; omega), render_tile_packet_eq,
        with_fb_with_fb, paint_with_fb]
      congr 1
      have e1 : y * WIDTH + min (x + W) WIDTH = y * WIDTH + min (x + W) WIDTH := rfl
      have e2 : y * WIDTH + min x WIDTH = y * WIDTH + x := by omega
      rw [e2]
      exact paint_paint vsqrt st _ _ _ _ (by omega) (by omega)
    · rw [paint_empty _ _ _ _ _ (by omega), with_fb_self]

/-- What `render_tile` leaves: every pixel of the image rendered, whatever the
lane width `W ≥ 1`. -/
theorem render_tile_eq (vsqrt : F → F) (W : Nat) (hW : 1 ≤ W) (st : Store F) :
    render_tile vsqrt W st
      = st.with_fb (paint vsqrt st 0 (HEIGHT * WIDTH) st.framebuffer) := by
  have hrows : ∀ n : Nat, (List.range n).foldl
      (fun st y => for_loop (fun x => decide (x < WIDTH)) (· + W)
        (fun x st => render_tile_packet vsqrt W y x st) WIDTH 0 st) st
      = st.with_fb (paint vsqrt st 0 (n * WIDTH) st.framebuffer) := by
    intro n
    induction n with
    | zero =>
      simp only [List.range_zero, List.foldl_nil]
      rw [paint_empty _ _ _ _ _ (by omega), with_fb_self]
    | succ n ih =>
      rw [List.range_succ, List.foldl_append, ih]
      simp only [List.foldl_cons, List.foldl_nil]
      rw [render_tile_row vsqrt W n hW WIDTH 0 _
        (by rw [Nat.zero_add]; exact Nat.le_mul_of_pos_right WIDTH hW),
        with_fb_with_fb, paint_with_fb]
      congr 1
      have e : n * WIDTH + min 0 WIDTH = n * WIDTH := by omega
      rw [e, Nat.succ_mul]
      exact paint_paint vsqrt st _ _ _ _ (by omega) (by omega)
  exact hrows HEIGHT

end FrameLemmas

/-! ### Scene set-up -/

section SceneLemmas

variable {F : Type} [LinearOrderedField F]

omit [LinearOrderedField F] in
theorem add_triangle_objects (v0 v1 v2 : Fin 3 → F) (color : Nat) (st : Store F) :
    (add_triangle v0 v1 v2 color st).spheres = st.spheres ∧
    (add_triangle v0 v1 v2 color st).planes = st.planes ∧
    (add_triangle v0 v1 v2 color st).cylinders = st.cylinders ∧
    (add_triangle v0 v1 v2 color st).disks = st.disks ∧
    (add_triangle v0 v1 v2 color st).light_dir = st.light_dir ∧
    (add_triangle v0 v1 v2 color st).framebuffer = st.framebuffer := by
  unfold add_triangle
  split_ifs <;> simp

omit [LinearOrderedField F] in
/-- The component loop of `add_triangle` copies the three vertices whole. -/
theorem copy_vertices (v0 v1 v2 : Fin 3 → F) (t : Triangle F) :
    (List.finRange 3).foldl
      (fun t i => { t with
        v0 := Function.update t.v0 i (v0 i)
        v1 := Function.update t.v1 i (v1 i)
        v2 := Function.update t.v2 i (v2 i) }) t
    = { v0 := v0, v1 := v1, v2 := v2, color := t.color } := by
  have h3 : List.finRange 3 = [0, 1, 2] := rfl
  rw [h3]
  simp only [List.foldl_cons, List.foldl_nil, Triangle.mk.injEq, and_true]
  refine ⟨?_, ?_, ?_⟩ <;> funext i <;> fin_cases i <;> simp [Function.update]

omit [LinearOrderedField F] in
/-- A call of `add_triangle` on a list that is not full. -/
theorem add_triangle_of_lt (v0 v1 v2 : Fin 3 → F) (color : Nat) (st : Store F)
    (h : st.num_triangles < MAX_TRIANGLES) :
    add_triangle v0 v1 v2 color st =
      { st with
        num_triangles := st.num_triangles + 1
        triangles := Function.update st.triangles st.num_triangles
          { v0 := v0, v1 := v1, v2 := v2, color := color } } := by
  unfold add_triangle
  rw [if_neg (by omega)]
  simp only [copy_vertices]

omit [LinearOrderedField F] in
/-- A call of `add_triangle` on a full list. -/
theorem add_triangle_of_ge (v0 v1 v2 : Fin 3 → F) (color : Nat) (st : Store F)
    (h : MAX_TRIANGLES ≤ st.num_triangles) : add_triangle v0 v1 v2 color st = st := by
  unfold add_triangle
  rw [if_pos h]

omit [LinearOrderedField F] in
theorem add_triangle_same (v0 v1 v2 : Fin 3 → F) (color : Nat) (st1 st2 : Store F)
    (h : SameTriangles st1 st2) :
    SameTriangles (add_triangle v0 v1 v2 color st1) (add_triangle v0 v1 v2 color st2) := by
  obtain ⟨hn, ht⟩ := h
  by_cases hfull : MAX_TRIANGLES ≤ st1.num_triangles
  · rw [add_triangle_of_ge _ _ _ _ _ hfull, add_triangle_of_ge _ _ _ _ _ (hn ▸ hfull)]
    exact ⟨hn, ht⟩
  · rw [add_triangle_of_lt _ _ _ _ _ (by omega), add_triangle_of_lt _ _ _ _ _ (by omega)]
    refine ⟨by simp only [hn], ?_⟩
    intro k hk
    simp only at hk
    simp only [Function.update_apply, ← hn]
    split_ifs with hkn
    · rfl
    · exact ht k (by omega)

/-- A relation kept by every step of a loop is kept by the loop. -/
theorem foldl_rel {σ α : Type} (R : σ → σ → Prop) (f : σ → α → σ)
    (h : ∀ s1 s2 a, R s1 s2 → R (f s1 a) (f s2 a)) (l : List α) :
    ∀ s1 s2, R s1 s2 → R (l.foldl f s1) (l.foldl f s2) := by
  induction l with
  | nil => intro s1 s2 hr; exact hr
  | cons a l ih => intro s1 s2 hr; exact ih _ _ (h _ _ a hr)

/-- A property kept by every step of a loop is kept by the loop. -/
theorem foldl_inv {σ α : Type} (P : σ → Prop) (f : σ → α → σ)
    (h : ∀ s a, P s → P (f s a)) (l : List α) : ∀ s, P s → P (l.foldl f s) := by
  induction l with
  | nil => intro s hs; exact hs
  | cons a l ih => intro s hs; exact ih _ (h _ a hs)

variable [FloorRing F]

theorem init_torus_cell_rest (R r : F) (seg i j : Nat) (st0 st : Store F)
    (h : SameRest st st0) : SameRest (init_torus_cell R r seg i j st) st0 := by
  unfold init_torus_cell
  simp only []
  obtain ⟨h1, h2, h3, h4, h5, h6⟩ := h
  refine ⟨?_, ?_, ?_, ?_, ?_, ?_⟩ <;>
    simp only [add_triangle_objects, h1, h2, h3, h4, h5, h6]

/-- The function `init_torus` changes the triangle list only. -/
theorem init_torus_rest (st : Store F) : SameRest (init_torus st) st := by
  unfold init_torus
  simp only []
  apply foldl_inv (fun s => SameRest s st)
  · intro s i hs
    apply foldl_inv (fun s => SameRest s st) _ _ _ _ hs
    intro s j hs
    exact init_torus_cell_rest _ _ _ _ _ _ _ hs
  · exact ⟨rfl, rfl, rfl, rfl, rfl, rfl⟩

theorem init_torus_cell_same (R r : F) (seg i j : Nat) (st1 st2 : Store F)
    (h : SameTriangles st1 st2) :
    SameTriangles (init_torus_cell R r seg i j st1) (init_torus_cell R r seg i j st2) := by
  unfold init_torus_cell
  simp only []
  exact add_triangle_same _ _ _ _ _ _ (add_triangle_same _ _ _ _ _ _ h)

/-- The function `init_torus` builds the same triangle list whatever the list held
before. -/
theorem init_torus_same (st1 st2 : Store F) :
    SameTriangles (init_torus st1) (init_torus st2) := by
  unfold init_torus
  simp only []
  apply foldl_rel SameTriangles
  · intro s1 s2 i hr
    apply foldl_rel SameTriangles _ _ _ _ _ hr
    intro s1 s2 j hr
    exact init_torus_cell_same _ _ _ _ _ _ _ hr
  · exact ⟨rfl, fun k hk => absurd hk (Nat.not_lt_zero k)⟩

theorem render_scene_objects (sid : Nat) (st1 st2 : Store F) :
    SameObjects (render_scene sid st1) (render_scene sid st2) := by
  have t1 : ∀ st : Store F, (init_torus st).spheres = st.spheres :=
    fun st => (init_torus_rest st).1
  have t2 : ∀ st : Store F, (init_torus st).planes = st.planes :=
    fun st => (init_torus_rest st).2.1
  have t3 : ∀ st : Store F, (init_torus st).cylinders = st.cylinders :=
    fun st => (init_torus_rest st).2.2.1
  have t4 : ∀ st : Store F, (init_torus st).disks = st.disks :=
    fun st => (init_torus_rest st).2.2.2.1
  have t5 : ∀ st : Store F, (init_torus st).light_dir = st.light_dir :=
    fun st => (init_torus_rest st).2.2.2.2.1
  have hl : ∀ (a b c : F) (v1 v2 : Fin 3 → F),
      Function.update (Function.update (Function.update v1 0 a) 1 b) 2 c
        = Function.update (Function.update (Function.update v2 0 a) 1 b) 2 c := by
    intro a b c v1 v2
    funext i
    fin_cases i <;> simp [Function.update]
  unfold SameObjects
  match sid with
  | 0 | 1 | 2 | 3 | 4 | 5 | 6 | 7 | 8 | 9 | _ + 10 =>
    simp only [render_scene, NUM_SPHERES, NUM_PLANES, NUM_CYLINDERS, NUM_DISKS, List.range_succ,
      List.range_zero, List.nil_append, List.cons_append, List.foldl_cons, List.foldl_nil,
      hl _ _ _ st1.light_dir st2.light_dir, t1, t2, t3, t4, t5]
    refine ⟨?_, ?_, ?_, ?_, ?_⟩
    · intro k hk
      interval_cases k <;> simp [Function.update]
    · intro k hk
      interval_cases k <;> simp [Function.update]
    · intro k hk
      interval_cases k
      simp [Function.update]
    · intro k hk
      interval_cases k
      simp [Function.update]
    · trivial

omit [FloorRing F] in
/-- The candidates of a lane depend on the scene objects and the triangle list only. -/
theorem scene_cands_congr (vsqrt : F → F) (st1 st2 : Store F) (ray : Ray F)
    (ho : SameObjects st1 st2) (ht : SameTriangles st1 st2) :
    scene_cands vsqrt st1 ray = scene_cands vsqrt st2 ray := by
  obtain ⟨h1, h2, h3, h4, -⟩ := ho
  obtain ⟨hn, ht⟩ := ht
  unfold scene_cands
  rw [← hn]
  congr 1
  · congr 1
    · congr 1
      · congr 1
        · exact List.map_congr_left (fun k hk => by rw [h1 k (List.mem_range.1 hk)])
        · exact List.map_congr_left (fun k hk => by rw [h2 k (List.mem_range.1 hk)])
      · exact List.map_congr_left (fun k hk => by rw [h3 k (List.mem_range.1 hk)])
    · exact List.map_congr_left (fun k hk => by rw [h4 k (List.mem_range.1 hk)])
  · exact List.map_congr_left (fun k hk => by rw [ht k (List.mem_range.1 hk)])

end SceneLemmas

section SceneLemmas

variable {F : Type} [LinearOrderedField F] [FloorRing F]

/-- The rendered byte depends on the scene objects, the light and the triangle
list only. -/
theorem pixel_byte_congr (vsqrt : F → F) (st1 st2 : Store F) (idx : Nat)
    (ho : SameObjects st1 st2) (ht : SameTriangles st1 st2) :
    pixel_byte vsqrt st1 idx = pixel_byte vsqrt st2 idx := by
  unfold pixel_byte pixel
  simp only [scene_cands_congr vsqrt st1 st2 _ ho ht, ho.2.2.2.2]

/-- The store a scene is rendered from holds the same objects and triangles
whatever the store was before `render_scene` and `init_torus`. -/
theorem scene_setup_same (s : Nat) (st1 st2 : Store F) :
    SameObjects (init_torus (render_scene s st1)) (init_torus (render_scene s st2)) ∧
    SameTriangles (init_torus (render_scene s st1)) (init_torus (render_scene s st2)) := by
  refine ⟨?_, init_torus_same _ _⟩
  obtain ⟨a1, a2, a3, a4, a5, -⟩ := init_torus_rest (render_scene s st1)
  obtain ⟨b1, b2, b3, b4, b5, -⟩ := init_torus_rest (render_scene s st2)
  obtain ⟨h1, h2, h3, h4, h5⟩ := render_scene_objects s st1 st2
  unfold SameObjects
  rw [a1, a2, a3, a4, a5, b1, b2, b3, b4, b5]
  exact ⟨h1, h2, h3, h4, h5⟩

end SceneLemmas

/-! ### Triangle list and torus -/

section ListLemmas

variable {F : Type}

/-- A run of `add_triangle` calls on a list holding `m ≤ 128` triangles: the
count saturates at 128, the slots below `m` and from the new count on keep their
content, the slots between take the inserted triangles in order. -/
theorem add_triangles_from (calls : List (Triangle F)) :
    ∀ (st : Store F), st.num_triangles ≤ MAX_TRIANGLES →
    (calls.foldl (fun s t => add_triangle t.v0 t.v1 t.v2 t.color s) st).num_triangles
      = min (st.num_triangles + calls.length) MAX_TRIANGLES ∧
    (∀ k, k < st.num_triangles ∨ min (st.num_triangles + calls.length) MAX_TRIANGLES ≤ k →
      (calls.foldl (fun s t => add_triangle t.v0 t.v1 t.v2 t.color s) st).triangles k
        = st.triangles k) ∧
    (∀ k, st.num_triangles ≤ k → k < min (st.num_triangles + calls.length) MAX_TRIANGLES →
      calls[k - st.num_triangles]?
        = some ((calls.foldl (fun s t => add_triangle t.v0 t.v1 t.v2 t.color s) st).triangles
            k)) := by
  induction calls with
  | nil =>
    intro st hst
    simp only [List.foldl_nil, List.length_nil, Nat.add_zero]
    refine ⟨by omega, fun k _ => trivial, fun k h1 h2 => ?_⟩
    omega
  | cons t calls ih =>
    intro st hst
    simp only [List.foldl_cons, List.length_cons]
    by_cases hfull : MAX_TRIANGLES ≤ st.num_triangles
    · rw [add_triangle_of_ge _ _ _ _ _ hfull]
      obtain ⟨h1, h2, h3⟩ := ih st hst
      refine ⟨by rw [h1]; omega, fun k hk => h2 k (by omega), fun k hk1 hk2 => ?_⟩
      omega
    · rw [add_triangle_of_lt _ _ _ _ _ (by omega)]
      obtain ⟨h1, h2, h3⟩ := ih
        { st with
          num_triangles := st.num_triangles + 1
          triangles := Function.update st.triangles st.num_triangles
            { v0 := t.v0, v1 := t.v1, v2 := t.v2, color := t.color } }
        (by simp only; omega)
      simp only at h1 h2 h3
      refine ⟨by rw [h1]; omega, ?_, ?_⟩
      · intro k hk
        rw [h2 k (by omega), Function.update_apply, if_neg (by omega)]
      · intro k hk1 hk2
        by_cases hk : k = st.num_triangles
        · subst hk
          rw [h2 _ (Or.inl (Nat.lt_succ_self _)), Function.update_apply, if_pos rfl]
          simp
        · have e : k - st.num_triangles = (k - (st.num_triangles + 1)) + 1 := by omega
          rw [e, List.getElem?_cons_succ]
          exact h3 k (by omega) (by omega)

end ListLemmas

section TorusLemmas

variable {F : Type} [LinearOrderedField F] [FloorRing F]

/-- An invariant indexed by the iteration count holds after a counted loop. -/
theorem foldl_range_inv {σ : Type} (P : Nat → σ → Prop) (f : σ → Nat → σ) (n : Nat)
    (h : ∀ k < n, ∀ s, P k s → P (k + 1) (f s k)) :
    ∀ s, P 0 s → P n ((List.range n).foldl f s) := by
  induction n with
  | zero => intro s hs; exact hs
  | succ n ih =>
    intro s hs
    rw [List.range_succ, List.foldl_append]
    exact h n (Nat.lt_succ_self n) _ (ih (fun k hk => h k (Nat.lt_succ_of_lt hk)) s hs)

theorem init_torus_cell_eq (i j : Nat) (st : Store F)
    (h : st.num_triangles + 1 < MAX_TRIANGLES) :
    init_torus_cell (1.5 : F) 0.5 8 i j st =
      { st with
        num_triangles := st.num_triangles + 2
        triangles := Function.update
          (Function.update st.triangles st.num_triangles (torus_first i j))
          (st.num_triangles + 1) (torus_second i j) } := by
  unfold init_torus_cell
  simp only []
  rw [add_triangle_of_lt _ _ _ _ st (by omega), add_triangle_of_lt _ _ _ _ _ (by simpa using h)]
  rfl

theorem init_torus_cell_inv (st0 : Store F) (i j : Nat) (hi : i < 8) (hj : j < 8)
    (s : Store F) (h : TorusInv st0 (8 * i + j) s) :
    TorusInv st0 (8 * i + j + 1) (init_torus_cell (1.5 : F) 0.5 8 i j s) := by
  obtain ⟨hn, ht, hout⟩ := h
  rw [init_torus_cell_eq i j s (by simp only [MAX_TRIANGLES]; omega)]
  refine ⟨by simp only [hn]; omega, ?_, ?_⟩
  · intro m hm
    simp only [Function.update_apply, hn]
    by_cases hlast : m = 8 * i + j
    · subst hlast
      have e1 : (8 * i + j) / 8 = i := by omega
      have e2 : (8 * i + j) % 8 = j := by omega
      simp [e1, e2]
    · have hlt : m < 8 * i + j := by omega
      obtain ⟨h1, h2⟩ := ht m hlt
      have n1 : 2 * m ≠ 2 * (8 * i + j) + 1 := by omega
      have n2 : 2 * m ≠ 2 * (8 * i + j) := by omega
      have n3 : 2 * m + 1 ≠ 2 * (8 * i + j) + 1 := by omega
      have n4 : 2 * m + 1 ≠ 2 * (8 * i + j) := by omega
      simp only [n1, n2, n3, n4, if_false, h1, h2, and_self]
  · intro k hk
    simp only [Function.update_apply, hn]
    have n1 : k ≠ 2 * (8 * i + j) + 1 := by omega
    have n2 : k ≠ 2 * (8 * i + j) := by omega
    simp only [n1, n2, if_false]
    exact hout k hk

/-- The triangle list `init_torus` leaves, from any prior state. -/
theorem init_torus_inv (st : Store F) : TorusInv st 64 (init_torus st) := by
  unfold init_torus
  simp only []
  refine foldl_range_inv (fun i s => TorusInv st (8 * i) s) _ 8 ?_ _ ?_
  · intro i hi s hs
    exact foldl_range_inv (fun j s => TorusInv st (8 * i + j) s) _ 8
      (fun j hj s hs => init_torus_cell_inv st i j hi hj s hs) s hs
  · exact ⟨rfl, fun m hm => absurd hm (Nat.not_lt_zero m), fun k _ => rfl⟩

end TorusLemmas

section MoreHelpers

variable {F : Type} [LinearOrderedField F] {W : Nat}

/-- A fold of triangle candidates leaves the normal of the lane as it was. -/
theorem foldl_lane_step_normal (active : Bool) (cs : List (Cand F)) (l : Lane F)
    (h : ∀ c ∈ cs, c.normal = none) :
    (cs.foldl (lane_step active) l).Nx = l.Nx ∧ (cs.foldl (lane_step active) l).Ny = l.Ny
      ∧ (cs.foldl (lane_step active) l).Nz = l.Nz := by
  induction cs generalizing l with
  | nil => exact ⟨rfl, rfl, rfl⟩
  | cons c cs ih =>
    simp only [List.foldl_cons]
    obtain ⟨h1, h2, h3⟩ :=
      ih (lane_step active l c) (fun d hd => h d (List.mem_cons_of_mem _ hd))
    have hc : c.normal = none := h c (List.mem_cons_self _ _)
    rw [h1, h2, h3]
    unfold lane_step
    split_ifs
    · simp only [Lane.write, hc, and_self]
    · exact ⟨rfl, rfl, rfl⟩

variable [FloorRing F]

/-- The byte conversion is the floor of 255 times the channel clamped to `[0, 1]`. -/
theorem to_byte_eq (c : F) : to_byte c = ⌊255 * min (max c 0) 1⌋₊ := by
  unfold to_byte fminf fmaxf
  congr 1
  rw [mul_comm]
  congr 1
  by_cases h0 : c > 0
  · rw [if_pos h0, max_eq_left (le_of_lt h0)]
    by_cases h1 : c < 1
    · rw [if_pos h1, min_eq_left (le_of_lt h1)]
    · rw [if_neg h1, min_eq_right (not_lt.1 h1)]
  · rw [if_neg h0, max_eq_right (not_lt.1 h0)]
    rw [if_pos (by norm_num), min_eq_left (by norm_num)]

theorem to_byte_le (c : F) : to_byte c ≤ 255 := by
  rw [to_byte_eq]
  apply Nat.floor_le_of_le
  have h : min (max c 0) 1 ≤ 1 := min_le_right _ _
  push_cast
  linarith

theorem to_byte_of_nonpos (c : F) (h : c ≤ 0) : to_byte c = 0 := by
  rw [to_byte_eq, max_eq_right h, min_eq_left (by norm_num)]
  simp

theorem to_byte_of_one_le (c : F) (h : 1 ≤ c) : to_byte c = 255 := by
  rw [to_byte_eq, max_eq_left (by linarith), min_eq_right h]
  simp

omit [LinearOrderedField F] [FloorRing F] in
/-- Two stores with the same fields are the same store. -/
theorem store_eq (a b : Store F) (h1 : a.spheres = b.spheres) (h2 : a.planes = b.planes)
    (h3 : a.cylinders = b.cylinders) (h4 : a.disks = b.disks)
    (h5 : a.triangles = b.triangles) (h6 : a.num_triangles = b.num_triangles)
    (h7 : a.light_dir = b.light_dir) (h8 : a.framebuffer = b.framebuffer) : a = b := by
  cases a
  cases b
  simp only at h1 h2 h3 h4 h5 h6 h7 h8
  simp only [Store.mk.injEq]
  exact ⟨h1, h2, h3, h4, h5, h6, h7, h8⟩

end MoreHelpers

/-! ### The centre pixel, the harness, the light, the write record -/

section ScenarioLemmas

variable {F : Type} [LinearOrderedField F]

theorem le_of_mul_self_le {a b : F} (ha : 0 ≤ a) (hb : 0 ≤ b) (h : a * a ≤ b * b) : a ≤ b :=
  (mul_self_le_mul_self_iff ha hb).2 h

/-- A non-negative number whose square is within a thousandth of `d`, relatively,
lies between two numbers whose squares bracket that. -/
theorem sqrt_bracket {s d : F} (lo hi : F) (hs : 0 ≤ s) (hd : |s * s - d| ≤ d / 1000)
    (hlo : 0 ≤ lo) (hhi : 0 ≤ hi) (h1 : lo * lo ≤ d - d / 1000) (h2 : d + d / 1000 ≤ hi * hi) :
    lo ≤ s ∧ s ≤ hi := by
  obtain ⟨ha, hb⟩ := abs_le.1 hd
  exact ⟨le_of_mul_self_le hlo hs (by linarith), le_of_mul_self_le hs hhi (by linarith)⟩

/-- The ray of the pixel in row 240, column 320. -/
theorem primary_ray_centre :
    (primary_ray 240 320 : Ray F) = ⟨0, 0, 0, 1 / 480, -1 / 480, -1⟩ := by
  norm_num [primary_ray, WIDTH, HEIGHT]

/-- The ray of an active lane of a packet is the primary ray of its pixel. -/
theorem packet_ray_lane (W x y : Nat) (i : Fin W) (h : x + i.val < WIDTH) :
    ray_at (svdup_f32 0) (svdup_f32 0) (svdup_f32 0)
      (packet_Dx W x) (packet_Dy W y) (svdup_f32 (-1.0)) i
      = (primary_ray y (x + i.val) : Ray F) := by
  have hq : (svwhilelt_b32 x WIDTH : svbool_t W) i = true := by
    simp only [svwhilelt_b32, decide_eq_true_eq]; exact h
  simp only [ray_at, primary_ray, packet_Dx, packet_Dy, svmul_f32_z, svsub_f32_z, svadd_f32_z,
    svdup_f32, svcvt_f32_s32_x, svindex_s32, hq, if_true, Ray.mk.injEq, true_and, and_true]
  push_cast
  ring_nf

theorem sqrtf_three : sqrtf (3 : F) = 1002978273411373057 / 579069776145402304 := by
  norm_num [sqrtf, List.range_succ]

theorem sqrtf_two : sqrtf (2 : F) = 886731088897 / 627013566048 := by
  norm_num [sqrtf, List.range_succ]

theorem normalize_light_apply (v : Fin 3 → F) (j : Fin 3) :
    normalize_light v j = v j / sqrtf (v 0 * v 0 + v 1 * v 1 + v 2 * v 2) := by
  unfold normalize_light
  fin_cases j <;> simp [Function.update]

variable [FloorRing F]

/-- The baseline scene: what `render_scene(0)` leaves in the object arrays. -/
theorem render_scene_zero (st : Store F) :
    (render_scene 0 st).spheres 0 = ⟨-2, -1, -3, 0.8, 0xFF0000⟩ ∧
    (render_scene 0 st).spheres 1 = ⟨0, -1, -4, 1, 0x0FF000⟩ ∧
    (render_scene 0 st).spheres 2 = ⟨2, -1, -5, 0.8, 0x00FF00⟩ ∧
    (render_scene 0 st).spheres 3 = ⟨-2, 0, -6, 1, 0x000FF0⟩ ∧
    (render_scene 0 st).spheres 4 = ⟨0, 0, -7, 0.8, 0x0000FF⟩ ∧
    (render_scene 0 st).planes 0 = ⟨0, 1, 0, -1, 0xAAAAAA⟩ ∧
    (render_scene 0 st).planes 1 = ⟨0, 0, 1, 6, 0xCCCCCC⟩ ∧
    (render_scene 0 st).cylinders 0 = ⟨0, -1, -5, 1, 2, 0x00FFFF⟩ ∧
    (render_scene 0 st).disks 0 = ⟨2, -1, -4, 1.5, 0xFFFF00⟩ ∧
    (render_scene 0 st).num_triangles = st.num_triangles := by
  have c1 : 0xFF0000 >>> 4 = 0x0FF000 := by decide
  have c2 : 0xFF0000 >>> 8 = 0x00FF00 := by decide
  have c3 : 0xFF0000 >>> 12 = 0x000FF0 := by decide
  have c4 : 0xFF0000 >>> 16 = 0x0000FF := by decide
  simp [render_scene, NUM_SPHERES, List.range_succ]
  norm_num [c1, c2, c3, c4]

/-- The light `render_scene` leaves is the normalised raw direction of the scene. -/
theorem render_scene_light (sid : Nat) (st : Store F) (h : sid < 10) :
    (render_scene sid st).light_dir
      = normalize_light (if sid = 1 then ![-1, 1, -1] else if sid = 4 then ![0, -1, -1]
          else ![1, 1, -1]) := by
  have hup : ∀ (v : Fin 3 → F) (a b c : F),
      Function.update (Function.update (Function.update v 0 a) 1 b) 2 c = ![a, b, c] := by
    intro v a b c
    funext j
    fin_cases j <;> simp [Function.update]
  have e1 : Function.update (![1, 1, -1] : Fin 3 → F) 0 (-1) = ![-1, 1, -1] := by
    funext j
    fin_cases j <;> simp [Function.update]
  have e4 : Function.update (Function.update (![1, 1, -1] : Fin 3 → F) 0 0) 1 (-1)
      = ![0, -1, -1] := by
    funext j
    fin_cases j <;> simp [Function.update]
  interval_cases sid
  · simp [render_scene, NUM_SPHERES, List.range_succ, hup]
  · simp [render_scene, NUM_SPHERES, List.range_succ, hup, e1]
  · simp [render_scene, NUM_SPHERES, List.range_succ, hup]
  · simp [render_scene, NUM_SPHERES, List.range_succ, hup]
  · simp [render_scene, NUM_SPHERES, List.range_succ, hup, e4]
  · simp only [render_scene]
    rw [(init_torus_rest _).2.2.2.2.1]
    simp [NUM_SPHERES, List.range_succ, hup]
  · simp [render_scene, NUM_SPHERES, List.range_succ, hup]
  · simp [render_scene, NUM_SPHERES, List.range_succ, hup]
  · simp [render_scene, NUM_SPHERES, List.range_succ, hup]
  · simp only [render_scene]
    rw [(init_torus_rest _).2.2.2.2.1]
    simp [NUM_SPHERES, List.range_succ, hup]

/-- Inside the image `render_tile` leaves the rendered byte, whatever was there. -/
theorem render_tile_framebuffer (vsqrt : F → F) (W : Nat) (hW : 1 ≤ W) (st : Store F)
    (idx : Nat) (h : idx < IMG_SIZE) :
    (render_tile vsqrt W st).framebuffer idx = pixel_byte vsqrt st idx := by
  have hr : 0 ≤ idx / 3 ∧ idx / 3 < HEIGHT * WIDTH := by
    simp only [IMG_SIZE, HEIGHT, WIDTH] at *
    omega
  rw [render_tile_eq vsqrt W hW]
  simp only [Store.with_fb, paint, if_pos hr]

/-- The framebuffer a scene leaves does not depend on the store before it nor
on the lane width. -/
theorem main_scene_framebuffer (vsqrt : F → F) (s : Nat) (st1 st2 : Store F) (W1 W2 : Nat)
    (h1 : 1 ≤ W1) (h2 : 1 ≤ W2) (idx : Nat) (hidx : idx < IMG_SIZE) :
    (main_scene vsqrt W1 s st1).framebuffer idx
      = (main_scene vsqrt W2 s st2).framebuffer idx := by
  have hr : 0 ≤ idx / 3 ∧ idx / 3 < HEIGHT * WIDTH := by
    simp only [IMG_SIZE, HEIGHT, WIDTH] at *
    omega
  obtain ⟨ho, ht⟩ := scene_setup_same s st1 st2
  unfold main_scene build_bvh
  simp only [render_tile_eq vsqrt W1 h1, render_tile_eq vsqrt W2 h2, Store.with_fb, paint,
    if_pos hr]
  exact pixel_byte_congr vsqrt _ _ idx ho ht

end ScenarioLemmas

theorem validate_loop_eq_one (fb ref : Nat → Nat) :
    ∀ fuel i, validate_loop fb ref fuel i = 1 ↔
      ∀ k, i ≤ k → k < i + fuel → k < IMG_SIZE → fb k = ref k := by
  intro fuel
  induction fuel with
  | zero =>
    intro i
    simp only [validate_loop, true_iff]
    intro k h1 h2
    omega
  | succ n ih =>
    intro i
    simp only [validate_loop]
    split_ifs with h1 h2
    · simp only [zero_ne_one, false_iff, not_forall]
      exact ⟨i, le_refl i, by omega, h1, h2⟩
    · rw [ih (i + 1)]
      simp only [ne_eq, not_not] at h2
      constructor
      · intro h k hk1 hk2 hk3
        rcases Nat.eq_or_lt_of_le hk1 with e | e
        · rw [← e]; exact h2
        · exact h k e (by omega) hk3
      · intro h k hk1 hk2 hk3
        exact h k (by omega) (by omega) hk3
    · simp only [true_iff]
      intro k hk1 _ hk3
      omega

theorem validate_loop_zero_or_one (fb ref : Nat → Nat) :
    ∀ fuel i, validate_loop fb ref fuel i = 0 ∨ validate_loop fb ref fuel i = 1 := by
  intro fuel
  induction fuel with
  | zero => intro i; right; rfl
  | succ n ih =>
    intro i
    simp only [validate_loop]
    split_ifs
    · left; rfl
    · exact ih (i + 1)
    · right; rfl

section HarnessLemmas

variable {F : Type} [LinearOrderedField F] [FloorRing F]

omit [LinearOrderedField F] [FloorRing F] in
theorem validate_framebuffer_eq_one (reference_images : Nat → Nat → Nat) (sid : Nat)
    (st : Store F) :
    validate_framebuffer reference_images sid st = 1 ↔
      ∀ i < IMG_SIZE, st.framebuffer i = reference_images sid i := by
  unfold validate_framebuffer
  rw [validate_loop_eq_one]
  constructor
  · intro h i hi
    exact h i (Nat.zero_le i) (by omega) hi
  · intro h k _ _ hk
    exact h k hk

/-- The images of the golden build: one per scene, each the framebuffer of that
scene. -/
theorem main_generate_images (vsqrt : F → F) (W : Nat) (st : Store F) (hW : 1 ≤ W) :
    (main_generate vsqrt W st).1.length = NUM_SCENES ∧
    ∀ s < NUM_SCENES, ∀ idx < IMG_SIZE,
      (main_generate vsqrt W st).1.getD s (fun _ => 0) idx
        = (main_scene vsqrt W s st).framebuffer idx := by
  unfold main_generate
  refine foldl_range_inv
    (fun k (acc : List (Nat → Nat) × Store F) => acc.1.length = k ∧
      ∀ s < k, ∀ idx < IMG_SIZE,
        acc.1.getD s (fun _ => 0) idx = (main_scene vsqrt W s st).framebuffer idx)
    _ NUM_SCENES ?_ _ ?_
  · rintro k - acc ⟨hl, hacc⟩
    refine ⟨by simp [hl], ?_⟩
    intro s hs idx hidx
    rcases Nat.eq_or_lt_of_le (Nat.le_of_lt_succ hs) with e | e
    · subst e
      simp only [List.getD_eq_getElem?_getD]
      rw [List.getElem?_append_right (by omega)]
      simp only [hl, Nat.sub_self, List.getElem?_cons_zero, Option.getD_some]
      exact main_scene_framebuffer vsqrt s _ _ W W hW hW idx hidx
    · have := hacc s e idx hidx
      simp only [List.getD_eq_getElem?_getD] at this ⊢
      rw [List.getElem?_append_left (by omega)]
      exact this
  · exact ⟨rfl, fun s hs => absurd hs (Nat.not_lt_zero s)⟩

end HarnessLemmas

/-! ### The sphere quadratic -/

section SphereLemmas

variable {F : Type} [LinearOrderedField F]

/-- The point at parameter `t` of a ray, measured against a sphere: its squared
distance from the centre minus `r²` is the sphere quadratic at `t`. -/
theorem sphere_point (s : Sphere F) (ray : Ray F) (t : F) :
    (ray.Ox + t * ray.Dx - s.x) ^ 2 + (ray.Oy + t * ray.Dy - s.y) ^ 2
      + (ray.Oz + t * ray.Dz - s.z) ^ 2 - s.r ^ 2
      = sphere_a ray * t ^ 2 + sphere_b s ray * t + sphere_c s ray := by
  simp only [sphere_a, sphere_b, sphere_c]
  ring

theorem sphere_a_nonneg (ray : Ray F) : 0 ≤ sphere_a ray := by
  unfold sphere_a
  nlinarith [mul_self_nonneg ray.Dx, mul_self_nonneg ray.Dy, mul_self_nonneg ray.Dz]

/-- A positive discriminant needs a direction other than zero. -/
theorem sphere_a_ne_zero (s : Sphere F) (ray : Ray F) (hd : 0 < sphere_disc s ray) :
    sphere_a ray ≠ 0 := by
  intro h0
  have hx : ray.Dx = 0 := by
    unfold sphere_a at h0
    nlinarith [mul_self_nonneg ray.Dx, mul_self_nonneg ray.Dy, mul_self_nonneg ray.Dz]
  have hy : ray.Dy = 0 := by
    unfold sphere_a at h0
    nlinarith [mul_self_nonneg ray.Dx, mul_self_nonneg ray.Dy, mul_self_nonneg ray.Dz]
  have hz : ray.Dz = 0 := by
    unfold sphere_a at h0
    nlinarith [mul_self_nonneg ray.Dx, mul_self_nonneg ray.Dy, mul_self_nonneg ray.Dz]
  have : sphere_disc s ray = 0 := by
    simp only [sphere_disc, sphere_b, sphere_a, hx, hy, hz]
    ring
  rw [this] at hd
  exact lt_irrefl _ hd

/-- With an exact square root `q` of the discriminant, `(-b - q) / (2a)` and
`(-b + q) / (2a)` solve the sphere quadratic. -/
theorem sphere_roots (s : Sphere F) (ray : Ray F) (q : F) (ha : sphere_a ray ≠ 0)
    (hq : q * q = sphere_disc s ray) :
    sphere_a ray * ((- sphere_b s ray - q) / (sphere_a ray * 2)) ^ 2
      + sphere_b s ray * ((- sphere_b s ray - q) / (sphere_a ray * 2)) + sphere_c s ray = 0 ∧
    sphere_a ray * ((- sphere_b s ray + q) / (2 * sphere_a ray)) ^ 2
      + sphere_b s ray * ((- sphere_b s ray + q) / (2 * sphere_a ray)) + sphere_c s ray = 0 := by
  have hq2 : q ^ 2 = sphere_b s ray * sphere_b s ray - 4 * (sphere_a ray * sphere_c s ray) := by
    rw [sq, hq]
    rfl
  constructor
  · field_simp
    ring_nf
    rw [hq2]
    ring
  · field_simp
    ring_nf
    rw [hq2]
    ring

/-- A ray that starts strictly inside a sphere: the discriminant is positive and,
with an exact square root of it, the near root is negative and the far root
positive. -/
theorem sphere_inside_roots (vsqrt : F → F) (s : Sphere F) (ray : Ray F)
    (hD : ray.Dx ≠ 0 ∨ ray.Dy ≠ 0 ∨ ray.Dz ≠ 0)
    (hin : (ray.Ox - s.x) ^ 2 + (ray.Oy - s.y) ^ 2 + (ray.Oz - s.z) ^ 2 < s.r ^ 2)
    (hv0 : 0 ≤ vsqrt (sphere_disc s ray))
    (hv : vsqrt (sphere_disc s ray) * vsqrt (sphere_disc s ray) = sphere_disc s ray) :
    0 < sphere_disc s ray ∧ sphere_t0 vsqrt s ray < 0 ∧
      0 < (- sphere_b s ray + vsqrt (sphere_disc s ray)) / (2 * sphere_a ray) := by
  have ha : 0 < sphere_a ray := by
    unfold sphere_a
    rcases hD with h | h | h
    · nlinarith [mul_self_pos.2 h, mul_self_nonneg ray.Dy, mul_self_nonneg ray.Dz]
    · nlinarith [mul_self_pos.2 h, mul_self_nonneg ray.Dx, mul_self_nonneg ray.Dz]
    · nlinarith [mul_self_pos.2 h, mul_self_nonneg ray.Dx, mul_self_nonneg ray.Dy]
  have hc : sphere_c s ray < 0 := by
    unfold sphere_c
    nlinarith
  have hac : sphere_a ray * sphere_c s ray < 0 := mul_neg_of_pos_of_neg ha hc
  have hbd : sphere_b s ray * sphere_b s ray < sphere_disc s ray := by
    unfold sphere_disc
    linarith
  have hd : 0 < sphere_disc s ray := lt_of_le_of_lt (mul_self_nonneg _) hbd
  have h1 : sphere_b s ray < vsqrt (sphere_disc s ray) := by
    by_contra hcon
    have := mul_self_le_mul_self hv0 (not_lt.1 hcon)
    linarith
  have h2 : - sphere_b s ray < vsqrt (sphere_disc s ray) := by
    by_contra hcon
    have := mul_self_le_mul_self hv0 (not_lt.1 hcon)
    nlinarith
  refine ⟨hd, ?_, ?_⟩
  · unfold sphere_t0
    exact div_neg_of_neg_of_pos (by linarith) (by linarith)
  · exact div_pos (by linarith) (by linarith)

end SphereLemmas

theorem around_sphere_disc :
    sphere_disc around_sphere (ray_at (svdup_f32 0) (svdup_f32 0) (svdup_f32 0)
      (svdup_f32 0) (svdup_f32 0) (svdup_f32 (-1)) (0 : Fin 1)) = 4 := by
  norm_num [sphere_disc, sphere_a, sphere_b, sphere_c, around_sphere, ray_at, svdup_f32]

theorem front_sphere_disc :
    sphere_disc front_sphere (ray_at (svdup_f32 0) (svdup_f32 0) (svdup_f32 0)
      (svdup_f32 0) (svdup_f32 0) (svdup_f32 (-1)) (0 : Fin 1)) = 4 := by
  norm_num [sphere_disc, sphere_a, sphere_b, sphere_c, front_sphere, ray_at, svdup_f32]

theorem front_sphere_t0 :
    sphere_t0 qsqrt front_sphere (ray_at (svdup_f32 0) (svdup_f32 0) (svdup_f32 0)
      (svdup_f32 0) (svdup_f32 0) (svdup_f32 (-1)) (0 : Fin 1)) = 2 := by
  rw [sphere_t0, front_sphere_disc, qsqrt_four]
  norm_num [sphere_a, sphere_b, front_sphere, ray_at, svdup_f32]

/-! ### The record of stores -/

theorem covered_add (lo mid hi k : Nat) (h1 : lo ≤ mid) (h2 : mid ≤ hi) :
    covered lo mid k + covered mid hi k = covered lo hi k := by
  unfold covered
  split_ifs <;> first | rfl | (exfalso; omega)

theorem covered_empty (lo hi k : Nat) (h : hi ≤ lo) : covered lo hi k = 0 := by
  unfold covered
  rw [if_neg]
  omega

/-- One of the three store loops of a packet, as a record of indices. -/
theorem log_loop (W x y ch : Nat) (hch : ch < 3) (k : Nat) :
    ∀ (fuel i0 : Nat) (log : List Nat), W ≤ i0 + fuel →
    (for_loop (fun i => decide (i < W) && decide (x + i < WIDTH)) (· + 1)
      (fun i log => log ++ [(y * WIDTH + (x + i)) * 3 + ch]) fuel i0 log).count k
    = log.count k + (if k % 3 = ch ∧ y * WIDTH + x + i0 ≤ k / 3 ∧ k / 3 < y * WIDTH + x + W
        ∧ k / 3 < y * WIDTH + WIDTH then 1 else 0) := by
  intro fuel
  induction fuel with
  | zero =>
    intro i0 log h
    simp only [for_loop]
    rw [if_neg, Nat.add_zero]
    omega
  | succ n ih =>
    intro i0 log h
    simp only [for_loop]
    simp only [Bool.and_eq_true, decide_eq_true_eq]
    have hk : ((y * WIDTH + (x + i0)) * 3 + ch == k) = true
        ↔ (y * WIDTH + (x + i0)) * 3 + ch = k := beq_iff_eq
    by_cases hc : i0 < W ∧ x + i0 < WIDTH
    · rw [if_pos hc, ih (i0 + 1) _ (by omega), List.count_append, List.count_singleton]
      by_cases e : (y * WIDTH + (x + i0)) * 3 + ch = k
      · rw [if_pos (hk.2 e), if_neg, if_pos]
        all_goals (simp only [WIDTH] at *; omega)
      · rw [if_neg (fun h => e (hk.1 h))]
        by_cases hr : k % 3 = ch ∧ y * WIDTH + x + i0 ≤ k / 3 ∧ k / 3 < y * WIDTH + x + W
            ∧ k / 3 < y * WIDTH + WIDTH
        · rw [if_pos hr, if_pos]
          all_goals (simp only [WIDTH] at *; omega)
        · rw [if_neg hr, if_neg]
          all_goals (simp only [WIDTH] at *; omega)
    · rw [if_neg hc, if_neg]
      all_goals (simp only [WIDTH] at *; omega)

/-- The writes of one packet: once each byte of the pixels of the packet that
lie in the row. -/
theorem render_tile_packet_writes_count (W y x k : Nat) (log : List Nat) :
    (render_tile_packet_writes W y x log).count k
      = log.count k + covered (y * WIDTH + x) (y * WIDTH + min (x + W) WIDTH) k := by
  have h0 := log_loop W x y 0 (by decide) k W 0 log (by omega)
  have h1 := fun l => log_loop W x y 1 (by decide) k W 0 l (by omega)
  have h2 := fun l => log_loop W x y 2 (by decide) k W 0 l (by omega)
  have hdef : render_tile_packet_writes W y x log =
      for_loop (fun i => decide (i < W) && decide (x + i < WIDTH)) (· + 1)
        (fun i log => log ++ [(y * WIDTH + (x + i)) * 3 + 2]) W 0
        (for_loop (fun i => decide (i < W) && decide (x + i < WIDTH)) (· + 1)
          (fun i log => log ++ [(y * WIDTH + (x + i)) * 3 + 1]) W 0
          (for_loop (fun i => decide (i < W) && decide (x + i < WIDTH)) (· + 1)
            (fun i log => log ++ [(y * WIDTH + (x + i)) * 3 + 0]) W 0 log)) := rfl
  rw [hdef, h2, h1, h0]
  unfold covered
  have h3 : k % 3 = 0 ∨ k % 3 = 1 ∨ k % 3 = 2 := by omega
  split_ifs <;> omega

/-- The column loop of `render_tile` for row `y`, from column `x` on, as a record
of indices. -/
theorem render_tile_row_writes (W y k : Nat) (hW : 1 ≤ W) :
    ∀ (fuel x : Nat) (log : List Nat), WIDTH ≤ x + fuel * W →
    (for_loop (fun x => decide (x < WIDTH)) (· + W)
      (fun x log => render_tile_packet_writes W y x log) fuel x log).count k
    = log.count k + covered (y * WIDTH + min x WIDTH) (y * WIDTH + WIDTH) k := by
  intro fuel
  induction fuel with
  | zero =>
    intro x log h
    simp only [for_loop]
    rw [covered_empty _ _ _ (by omega)]
    rfl
  | succ n ih =>
    intro x log h
    simp only [for_loop, decide_eq_true_eq]
    split_ifs with hx
    · rw [ih (x + W) _ (by rw [Nat.succ_mul] at h; omega), render_tile_packet_writes_count,
        Nat.add_assoc]
      congr 1
      have e2 : y * WIDTH + min x WIDTH = y * WIDTH + x := by omega
      rw [e2]
      exact covered_add _ _ _ _ (by omega) (by omega)
    · rw [covered_empty _ _ _ (by omega)]
      rfl

/-- The writes of `render_tile`: once each byte of the image, nothing else. -/
theorem render_tile_writes_count (W k : Nat) (hW : 1 ≤ W) :
    (render_tile_writes W).count k = covered 0 (HEIGHT * WIDTH) k := by
  have hrows : ∀ n : Nat, ((List.range n).foldl
      (fun log y => for_loop (fun x => decide (x < WIDTH)) (· + W)
        (fun x log => render_tile_packet_writes W y x log) WIDTH 0 log) []).count k
      = covered 0 (n * WIDTH) k := by
    intro n
    induction n with
    | zero =>
      simp only [List.range_zero, List.foldl_nil, List.count_nil]
      rw [covered_empty _ _ _ (by omega)]
    | succ n ih =>
      rw [List.range_succ, List.foldl_append]
      simp only [List.foldl_cons, List.foldl_nil]
      rw [render_tile_row_writes W n k hW WIDTH 0 _
        (by rw [Nat.zero_add]; exact Nat.le_mul_of_pos_right WIDTH hW), ih]
      have e : n * WIDTH + min 0 WIDTH = n * WIDTH := by omega
      rw [e, Nat.succ_mul]
      exact covered_add _ _ _ _ (by omega) (by omega)
  exact hrows HEIGHT

/-- Stores replayed from a record of indices: a byte is the stored one when its
index is in the record and the old one otherwise. -/
theorem replay_apply (v : Nat → Nat) (l : List Nat) (fb : Nat → Nat) (k : Nat) :
    (l.foldl (fun fb idx => Function.update fb idx (v idx)) fb) k
      = if k ∈ l then v k else fb k := by
  induction l generalizing fb with
  | nil => simp
  | cons a l ih =>
    rw [List.foldl_cons, ih]
    by_cases h1 : k ∈ l
    · simp [h1]
    · by_cases h2 : k = a
      · subst h2
        simp [h1]
      · simp [h1, h2]

/-! ### Sine and cosine -/

/-- The exponential series of `z` cut after the term of degree 5. -/
theorem exp_series_six (z : ℂ) :
    ∑ m ∈ Finset.range 6, z ^ m / (m.factorial : ℂ)
      = 1 + z + z ^ 2 / 2 + z ^ 3 / 6 + z ^ 4 / 24 + z ^ 5 / 120 := by
  simp only [Finset.sum_range_succ, Finset.sum_range_zero, Nat.factorial]
  push_cast
  ring

/-- The remainder of the exponential series after degree 5, on the unit disc. -/
theorem exp_remainder_six (z : ℂ) (hz : Complex.abs z ≤ 1) :
    Complex.abs (Complex.exp z - (1 + z + z ^ 2 / 2 + z ^ 3 / 6 + z ^ 4 / 24 + z ^ 5 / 120))
      ≤ Complex.abs z ^ 6 * (7 / 4320) := by
  have h := @Complex.exp_bound z hz 6 (by norm_num)
  have hb : (Nat.succ 6 : ℝ) * ((Nat.factorial 6 : ℝ) * (6 : ℕ))⁻¹ = 7 / 4320 := by
    norm_num [Nat.factorial]
  rw [hb, exp_series_six] at h
  exact h

/-- The cosine and its Taylor polynomial of degree 4, for `|x| ≤ 1`. -/
theorem cos_taylor (x : ℝ) (hx : |x| ≤ 1) :
    |Real.cos x - (1 - x ^ 2 / 2 + x ^ 4 / 24)| ≤ |x| ^ 6 * (7 / 4320) := by
  have h1 := exp_remainder_six (x * Complex.I) (by simpa using hx)
  have h2 := exp_remainder_six (-x * Complex.I) (by simpa using hx)
  have a1 : Complex.abs (x * Complex.I) = |x| := by simp
  have a2 : Complex.abs (-x * Complex.I) = |x| := by simp
  rw [a1] at h1
  rw [a2] at h2
  have i2 : Complex.I ^ 2 = -1 := Complex.I_sq
  have i3 : Complex.I ^ 3 = -Complex.I := by rw [pow_succ, i2]; ring
  have i4 : Complex.I ^ 4 = 1 := Complex.I_pow_four
  have i5 : Complex.I ^ 5 = Complex.I := by rw [pow_succ, i4]; ring
  have key : ((Real.cos x - (1 - x ^ 2 / 2 + x ^ 4 / 24) : ℝ) : ℂ)
      = ((Complex.exp (x * Complex.I) - (1 + x * Complex.I + (x * Complex.I) ^ 2 / 2
            + (x * Complex.I) ^ 3 / 6 + (x * Complex.I) ^ 4 / 24 + (x * Complex.I) ^ 5 / 120))
        + (Complex.exp (-x * Complex.I) - (1 + -x * Complex.I + (-x * Complex.I) ^ 2 / 2
            + (-x * Complex.I) ^ 3 / 6 + (-x * Complex.I) ^ 4 / 24
            + (-x * Complex.I) ^ 5 / 120))) / 2 := by
    have hc : Complex.cos (x : ℂ)
        = (Complex.exp (x * Complex.I) + Complex.exp (-x * Complex.I)) / 2 := by
      rw [Complex.cos, neg_mul]
    push_cast
    rw [hc]
    ring_nf
    simp only [i2, i3, i4, i5]
    ring
  rw [← Complex.abs_ofReal, key, map_div₀]
  have t := Complex.abs.add_le
    (Complex.exp (x * Complex.I) - (1 + x * Complex.I + (x * Complex.I) ^ 2 / 2
      + (x * Complex.I) ^ 3 / 6 + (x * Complex.I) ^ 4 / 24 + (x * Complex.I) ^ 5 / 120))
    (Complex.exp (-x * Complex.I) - (1 + -x * Complex.I + (-x * Complex.I) ^ 2 / 2
      + (-x * Complex.I) ^ 3 / 6 + (-x * Complex.I) ^ 4 / 24 + (-x * Complex.I) ^ 5 / 120))
  have e2 : Complex.abs 2 = 2 := by simp
  rw [e2, div_le_iff₀ (by norm_num)]
  linarith

/-- The sine and its Taylor polynomial of degree 5, for `|x| ≤ 1`. -/
theorem sin_taylor (x : ℝ) (hx : |x| ≤ 1) :
    |Real.sin x - (x - x ^ 3 / 6 + x ^ 5 / 120)| ≤ |x| ^ 6 * (7 / 4320) := by
  have h1 := exp_remainder_six (x * Complex.I) (by simpa using hx)
  have h2 := exp_remainder_six (-x * Complex.I) (by simpa using hx)
  have a1 : Complex.abs (x * Complex.I) = |x| := by simp
  have a2 : Complex.abs (-x * Complex.I) = |x| := by simp
  rw [a1] at h1
  rw [a2] at h2
  have i2 : Complex.I ^ 2 = -1 := Complex.I_sq
  have i3 : Complex.I ^ 3 = -Complex.I := by rw [pow_succ, i2]; ring
  have i4 : Complex.I ^ 4 = 1 := Complex.I_pow_four
  have i5 : Complex.I ^ 5 = Complex.I := by rw [pow_succ, i4]; ring
  have i6 : Complex.I ^ 6 = -1 := by rw [pow_succ, i5, ← sq, i2]
  have key : ((Real.sin x - (x - x ^ 3 / 6 + x ^ 5 / 120) : ℝ) : ℂ)
      = ((Complex.exp (-x * Complex.I) - (1 + -x * Complex.I + (-x * Complex.I) ^ 2 / 2
            + (-x * Complex.I) ^ 3 / 6 + (-x * Complex.I) ^ 4 / 24
            + (-x * Complex.I) ^ 5 / 120))
        - (Complex.exp (x * Complex.I) - (1 + x * Complex.I + (x * Complex.I) ^ 2 / 2
            + (x * Complex.I) ^ 3 / 6 + (x * Complex.I) ^ 4 / 24
            + (x * Complex.I) ^ 5 / 120))) * Complex.I / 2 := by
    have hc : Complex.sin (x : ℂ)
        = (Complex.exp (-x * Complex.I) - Complex.exp (x * Complex.I)) * Complex.I / 2 := by
      rw [Complex.sin, neg_mul]
    push_cast
    rw [hc]
    ring_nf
    simp only [i2, i3, i4, i5, i6]
    ring
  rw [← Complex.abs_ofReal, key, map_div₀, map_mul]
  have t := Complex.abs.sub_le
    (Complex.exp (-x * Complex.I) - (1 + -x * Complex.I + (-x * Complex.I) ^ 2 / 2
      + (-x * Complex.I) ^ 3 / 6 + (-x * Complex.I) ^ 4 / 24 + (-x * Complex.I) ^ 5 / 120)) 0
    (Complex.exp (x * Complex.I) - (1 + x * Complex.I + (x * Complex.I) ^ 2 / 2
      + (x * Complex.I) ^ 3 / 6 + (x * Complex.I) ^ 4 / 24 + (x * Complex.I) ^ 5 / 120))
  simp only [sub_zero, zero_sub, map_neg_eq_map] at t
  have e2 : Complex.abs 2 = 2 := by simp
  have e1 : Complex.abs Complex.I = 1 := Complex.abs_I
  rw [e2, e1, mul_one, div_le_iff₀ (by norm_num)]
  linarith

section PolyLemmas

variable {F : Type} [LinearOrderedField F]

theorem reduce_above_of_le (fuel : Nat) (x : F) (h : x ≤ 3.14159) :
    reduce_above fuel x = x := by
  cases fuel with
  | zero => rfl
  | succ n => rw [reduce_above, if_neg (not_lt.2 h)]

theorem reduce_below_of_ge (fuel : Nat) (x : F) (h : -3.14159 ≤ x) :
    reduce_below fuel x = x := by
  cases fuel with
  | zero => rfl
  | succ n => rw [reduce_below, if_neg (not_lt.2 h)]

variable [FloorRing F]

/-- Without range reduction `my_sinf` is the polynomial `x - x³/6 + x⁵/120`. -/
theorem my_sinf_eq (x : F) (h : |x| ≤ 3.14159) :
    my_sinf x = x * (1 - x ^ 2 / 6 + x ^ 4 / 120) := by
  obtain ⟨h1, h2⟩ := abs_le.1 h
  unfold my_sinf
  simp only [reduce_above_of_le _ x h2, reduce_below_of_ge _ x h1]
  ring

/-- Without range reduction `my_cosf` is the polynomial `1 - x²/2 + x⁴/24`. -/
theorem my_cosf_eq (x : F) (h : |x| ≤ 3.14159) :
    my_cosf x = 1 - x ^ 2 / 2 + x ^ 4 / 24 := by
  obtain ⟨h1, h2⟩ := abs_le.1 h
  unfold my_cosf
  simp only [reduce_above_of_le _ x h2, reduce_below_of_ge _ x h1]
  ring

end PolyLemmas

/-- Below 1 in absolute value the sine is at least `0.75 |x|` in absolute value. -/
theorem abs_sin_lower (x : ℝ) (hx : |x| ≤ 1) : |x| * (1 - |x| ^ 2 / 4) ≤ |Real.sin x| := by
  have hpos : ∀ y : ℝ, 0 < y → y ≤ 1 → y * (1 - y ^ 2 / 4) ≤ Real.sin y := by
    intro y h0 h1
    have := Real.sin_gt_sub_cube h0 h1
    nlinarith
  rcases lt_trichotomy x 0 with h | h | h
  · have hy : |x| = -x := abs_of_neg h
    have h1 : -x ≤ 1 := by rw [← hy]; exact hx
    have := hpos (-x) (by linarith) h1
    rw [Real.sin_neg] at this
    rw [hy]
    exact le_trans this (neg_le_abs _)
  · subst h
    simp
  · have hy : |x| = x := abs_of_pos h
    have h1 : x ≤ 1 := by rw [← hy]; exact hx
    rw [hy]
    exact le_trans (hpos x h h1) (le_abs_self _)

/-! ### The scenes `main` renders -/

section SceneLemmas

variable {F : Type} [LinearOrderedField F] [FloorRing F]

/-- One range reduction: for `3.14159 < x ≤ 3.14159 + 6.28318` the loops of
`my_sinf` and `my_cosf` leave `x - 6.28318`. -/
theorem reduce_once (x : F) (h1 : 3.14159 < x) (h2 : x ≤ 3.14159 + 6.28318) :
    reduce_below (reduce_fuel (reduce_above (reduce_fuel x) x))
      (reduce_above (reduce_fuel x) x) = x - 6.28318 := by
  have hx : 0 < |x| := abs_pos.2 (ne_of_gt (lt_trans (by norm_num) h1))
  have hf : 0 < reduce_fuel x := Nat.ceil_pos.2 hx
  obtain ⟨n, hn⟩ := Nat.exists_eq_succ_of_ne_zero (Nat.pos_iff_ne_zero.1 hf)
  have ha : reduce_above (reduce_fuel x) x = x - 6.28318 := by
    rw [hn, reduce_above, if_pos h1, reduce_above_of_le _ _ (by linarith)]
  rw [ha, reduce_below_of_ge _ _ (by linarith)]

theorem my_sinf_once (x : F) (h1 : 3.14159 < x) (h2 : x ≤ 3.14159 + 6.28318) :
    my_sinf x = (x - 6.28318) * (1 - (x - 6.28318) ^ 2 / 6 + (x - 6.28318) ^ 4 / 120) := by
  unfold my_sinf
  simp only [reduce_once x h1 h2]
  ring

theorem my_cosf_once (x : F) (h1 : 3.14159 < x) (h2 : x ≤ 3.14159 + 6.28318) :
    my_cosf x = 1 - (x - 6.28318) ^ 2 / 2 + (x - 6.28318) ^ 4 / 24 := by
  unfold my_cosf
  simp only [reduce_once x h1 h2]
  ring

/-- The cosine and sine `init_torus` uses at the grid angles 4 and 5. -/
theorem torus_trig_four_five :
    my_cosf (torus_angle 4 : F) = 297370918546211952961 / 2400000000000000000000 ∧
    my_sinf (torus_angle 4 : F)
      = 628852301541825080930274799 / 1200000000000000000000000000 ∧
    my_cosf (torus_angle 5 : F)
      = -100684595947372277270053 / 204800000000000000000000 ∧
    my_sinf (torus_angle 5 : F)
      = -319992840229794676155352258719 / 409600000000000000000000000000 := by
  have e4 : (torus_angle 4 : F) = 3.14159 := by norm_num [torus_angle]
  have e5 : (torus_angle 5 : F) = 3.9269875 := by norm_num [torus_angle]
  refine ⟨?_, ?_, ?_, ?_⟩
  · rw [e4, my_cosf_eq _ (by norm_num [abs_le])]
    norm_num
  · rw [e4, my_sinf_eq _ (by norm_num [abs_le])]
    norm_num
  · rw [e5, my_cosf_once _ (by norm_num) (by norm_num)]
    norm_num
  · rw [e5, my_sinf_once _ (by norm_num) (by norm_num)]
    norm_num

/-- Triangle 72 of the torus, the first triangle of grid cell `(4, 4)`, and the ray
of the pixel in column 320 of row 240: a valid hit at `t` about 0.3774. -/
theorem torus_triangle_centre :
    (tri_cand (torus_first 4 4 : Triangle F) ⟨0, 0, 0, 1 / 480, -1 / 480, -1⟩).ok = true ∧
    0.3764 ≤ (tri_cand (torus_first 4 4 : Triangle F) ⟨0, 0, 0, 1 / 480, -1 / 480, -1⟩).t ∧
    (tri_cand (torus_first 4 4 : Triangle F) ⟨0, 0, 0, 1 / 480, -1 / 480, -1⟩).t ≤ 0.3784 := by
  obtain ⟨c4, s4, c5, s5⟩ := (torus_trig_four_five : _ ∧ _ ∧ _ ∧
    my_sinf (torus_angle 5 : F) = _)
  simp only [tri_cand, Bool.and_eq_true, decide_eq_true_eq]
  simp only [tri_t, tri_u, tri_v, tri_det, tri_px, tri_py, tri_pz, tri_qx, tri_qy, tri_qz,
    torus_first, torus_vertex, Nat.reduceAdd, c4, s4, c5, s5, Matrix.cons_val_zero,
    Matrix.cons_val_one, Matrix.head_cons, Matrix.cons_val_two, Matrix.tail_cons]
  norm_num

omit [FloorRing F] in
/-- A fold of candidates of one colour leaves the lane as it was or leaves that
colour. -/
theorem foldl_lane_step_colour (active : Bool) (cs : List (Cand F)) (l : Lane F) (r g b : F)
    (h : ∀ c ∈ cs, c.R = r ∧ c.G = g ∧ c.B = b) :
    cs.foldl (lane_step active) l = l ∨
      ((cs.foldl (lane_step active) l).R = r ∧ (cs.foldl (lane_step active) l).G = g
        ∧ (cs.foldl (lane_step active) l).B = b) := by
  induction cs generalizing l with
  | nil => left; rfl
  | cons c cs ih =>
    simp only [List.foldl_cons]
    obtain ⟨hr, hg, hb⟩ := h c (List.mem_cons_self _ _)
    rcases ih (lane_step active l c) (fun d hd => h d (List.mem_cons_of_mem _ hd)) with h1 | h1
    · rw [h1]
      unfold lane_step
      split_ifs
      · right; exact ⟨hr, hg, hb⟩
      · left; rfl
    · right; exact h1

/-- Every triangle `init_torus` stores has the colour `0xFF8800`. -/
theorem init_torus_colour (st : Store F) (k : Nat) (hk : k < 128) :
    ((init_torus st).triangles k).color = 0xFF8800 := by
  obtain ⟨-, h2, -⟩ := init_torus_inv st
  rcases Nat.even_or_odd' k with ⟨m, rfl | rfl⟩
  · rw [(h2 m (by omega)).1]
    rfl
  · rw [(h2 m (by omega)).2]
    rfl

end SceneLemmas

section Claims

variable {F : Type} [LinearOrderedField F] {W : Nat}

/-- C1. Nearest-hit resolution: in an active lane that starts at the sentinel
`bestT = 1e9`, the `bestT` left by the five passes is at most the hit parameter
of every primitive of the scene with a valid hit at a positive parameter, and it
is the sentinel or the hit parameter of one of the primitives. -/
theorem nearest_hit_resolution (vsqrt : F → F) (st : Store F) (pg : svbool_t W)
    (Ox Oy Oz Dx Dy Dz : svfloat32_t W F) (hs : HitState W F) (i : Fin W)
    (hact : pg i = true) (hinit : hs.bestT i = 1000000000) :
    (∀ k < NUM_SPHERES,
      0 < sphere_disc (st.spheres k) (ray_at Ox Oy Oz Dx Dy Dz i) →
      0 < sphere_t0 vsqrt (st.spheres k) (ray_at Ox Oy Oz Dx Dy Dz i) →
      (intersect_all vsqrt st pg Ox Oy Oz Dx Dy Dz hs).bestT i
        ≤ sphere_t0 vsqrt (st.spheres k) (ray_at Ox Oy Oz Dx Dy Dz i)) ∧
    (∀ k < NUM_PLANES,
      plane_denom (st.planes k) (ray_at Ox Oy Oz Dx Dy Dz i) ≠ 0 →
      0 < plane_t (st.planes k) (ray_at Ox Oy Oz Dx Dy Dz i) →
      (intersect_all vsqrt st pg Ox Oy Oz Dx Dy Dz hs).bestT i
        ≤ plane_t (st.planes k) (ray_at Ox Oy Oz Dx Dy Dz i)) ∧
    (∀ k < NUM_CYLINDERS,
      0 < cyl_disc (st.cylinders k) (ray_at Ox Oy Oz Dx Dy Dz i) →
      (st.cylinders k).cy ≤ cyl_yhit vsqrt (st.cylinders k) (ray_at Ox Oy Oz Dx Dy Dz i) →
      cyl_yhit vsqrt (st.cylinders k) (ray_at Ox Oy Oz Dx Dy Dz i)
        ≤ (st.cylinders k).cy + (st.cylinders k).h →
      0 < cyl_t0 vsqrt (st.cylinders k) (ray_at Ox Oy Oz Dx Dy Dz i) →
      (intersect_all vsqrt st pg Ox Oy Oz Dx Dy Dz hs).bestT i
        ≤ cyl_t0 vsqrt (st.cylinders k) (ray_at Ox Oy Oz Dx Dy Dz i)) ∧
    (∀ k < NUM_DISKS,
      Dy i ≠ 0 →
      disk_dist2 (st.disks k) (ray_at Ox Oy Oz Dx Dy Dz i)
        ≤ (st.disks k).r * (st.disks k).r →
      0 < disk_t (st.disks k) (ray_at Ox Oy Oz Dx Dy Dz i) →
      (intersect_all vsqrt st pg Ox Oy Oz Dx Dy Dz hs).bestT i
        ≤ disk_t (st.disks k) (ray_at Ox Oy Oz Dx Dy Dz i)) ∧
    (∀ k < st.num_triangles,
      tri_det (st.triangles k) (ray_at Ox Oy Oz Dx Dy Dz i) ≠ 0 →
      0 ≤ tri_u (st.triangles k) (ray_at Ox Oy Oz Dx Dy Dz i) →
      0 ≤ tri_v (st.triangles k) (ray_at Ox Oy Oz Dx Dy Dz i) →
      tri_u (st.triangles k) (ray_at Ox Oy Oz Dx Dy Dz i)
        + tri_v (st.triangles k) (ray_at Ox Oy Oz Dx Dy Dz i) ≤ 1 →
      0 < tri_t (st.triangles k) (ray_at Ox Oy Oz Dx Dy Dz i) →
      (intersect_all vsqrt st pg Ox Oy Oz Dx Dy Dz hs).bestT i
        ≤ tri_t (st.triangles k) (ray_at Ox Oy Oz Dx Dy Dz i)) ∧
    ((intersect_all vsqrt st pg Ox Oy Oz Dx Dy Dz hs).bestT i = 1000000000 ∨
      (∃ k < NUM_SPHERES, (intersect_all vsqrt st pg Ox Oy Oz Dx Dy Dz hs).bestT i
        = sphere_t0 vsqrt (st.spheres k) (ray_at Ox Oy Oz Dx Dy Dz i)) ∨
      (∃ k < NUM_PLANES, (intersect_all vsqrt st pg Ox Oy Oz Dx Dy Dz hs).bestT i
        = plane_t (st.planes k) (ray_at Ox Oy Oz Dx Dy Dz i)) ∨
      (∃ k < NUM_CYLINDERS, (intersect_all vsqrt st pg Ox Oy Oz Dx Dy Dz hs).bestT i
        = cyl_t0 vsqrt (st.cylinders k) (ray_at Ox Oy Oz Dx Dy Dz i)) ∨
      (∃ k < NUM_DISKS, (intersect_all vsqrt st pg Ox Oy Oz Dx Dy Dz hs).bestT i
        = disk_t (st.disks k) (ray_at Ox Oy Oz Dx Dy Dz i)) ∨
      (∃ k < st.num_triangles, (intersect_all vsqrt st pg Ox Oy Oz Dx Dy Dz hs).bestT i
        = tri_t (st.triangles k) (ray_at Ox Oy Oz Dx Dy Dz i))) := by
  have hl : (intersect_all vsqrt st pg Ox Oy Oz Dx Dy Dz hs).bestT i =
      ((scene_cands vsqrt st (ray_at Ox Oy Oz Dx Dy Dz i)).foldl
        (lane_step true) (hs.lane i)).bestT := by
    rw [← hact, ← intersect_all_lane]; rfl
  have key : ∀ c ∈ scene_cands vsqrt st (ray_at Ox Oy Oz Dx Dy Dz i), c.ok = true →
      (intersect_all vsqrt st pg Ox Oy Oz Dx Dy Dz hs).bestT i ≤ c.t := by
    intro c hc hok
    rw [hl]
    exact foldl_lane_step_le_cand _ _ c hc hok
  refine ⟨?_, ?_, ?_, ?_, ?_, ?_⟩
  · intro k hk hd ht
    exact key (sphere_cand vsqrt (st.spheres k) _)
      ((mem_scene_cands _ _ _ _).2 (Or.inl ⟨k, hk, rfl⟩)) (by simp [sphere_cand, hd, ht])
  · intro k hk hd ht
    exact key (plane_cand (st.planes k) _)
      ((mem_scene_cands _ _ _ _).2 (Or.inr (Or.inl ⟨k, hk, rfl⟩)))
      (by simp [plane_cand, hd, ht])
  · intro k hk hd h1 h2 _
    exact key (cyl_cand vsqrt (st.cylinders k) _)
      ((mem_scene_cands _ _ _ _).2 (Or.inr (Or.inr (Or.inl ⟨k, hk, rfl⟩))))
      (by simp [cyl_cand, hd, h1, h2])
  · intro k hk hd h1 ht
    exact key (disk_cand (st.disks k) _)
      ((mem_scene_cands _ _ _ _).2 (Or.inr (Or.inr (Or.inr (Or.inl ⟨k, hk, rfl⟩)))))
      (by
        have hd2 : (ray_at Ox Oy Oz Dx Dy Dz i).Dy ≠ 0 := hd
        simp [disk_cand, hd2, h1, ht])
  · intro k hk hd hu hv huv _
    exact key (tri_cand (st.triangles k) _)
      ((mem_scene_cands _ _ _ _).2 (Or.inr (Or.inr (Or.inr (Or.inr ⟨k, hk, rfl⟩)))))
      (by simp [tri_cand, hd, hu, hv, huv])
  · rcases foldl_lane_step_bestT_mem true
      (scene_cands vsqrt st (ray_at Ox Oy Oz Dx Dy Dz i)) (hs.lane i) with h | ⟨c, hc, h⟩
    · left
      rw [hl, h]
      exact hinit
    · right
      rw [← hl] at h
      rcases (mem_scene_cands _ _ _ _).1 hc with
        ⟨k, hk, rfl⟩ | ⟨k, hk, rfl⟩ | ⟨k, hk, rfl⟩ | ⟨k, hk, rfl⟩ | ⟨k, hk, rfl⟩
      · exact Or.inl ⟨k, hk, h⟩
      · exact Or.inr (Or.inl ⟨k, hk, h⟩)
      · exact Or.inr (Or.inr (Or.inl ⟨k, hk, h⟩))
      · exact Or.inr (Or.inr (Or.inr (Or.inl ⟨k, hk, h⟩)))
      · exact Or.inr (Or.inr (Or.inr (Or.inr ⟨k, hk, h⟩)))

end Claims

/-- Witness for C1: the two-plane scene, one active lane, the ray along `-z`;
the second plane is a valid hit at `t = 6`. -/
theorem nearest_hit_resolution_witness :
    lane1 0 = true ∧ hit_init.bestT 0 = 1000000000 ∧
    (intersect_all qsqrt tie_store lane1 (svdup_f32 0) (svdup_f32 0) (svdup_f32 0)
      (svdup_f32 0) (svdup_f32 0) (svdup_f32 (-1)) hit_init).bestT 0
      ≤ plane_t (tie_store.planes 1) (ray_at (svdup_f32 0) (svdup_f32 0) (svdup_f32 0)
          (svdup_f32 0) (svdup_f32 0) (svdup_f32 (-1)) (0 : Fin 1)) :=
  ⟨rfl, rfl,
    (nearest_hit_resolution qsqrt tie_store lane1 (svdup_f32 0) (svdup_f32 0) (svdup_f32 0)
      (svdup_f32 0) (svdup_f32 0) (svdup_f32 (-1)) hit_init 0 rfl rfl).2.1 1
      (by norm_num [NUM_PLANES])
      (by norm_num [plane_denom, tie_store, ray_at, svdup_f32])
      (by norm_num [plane_t, plane_denom, tie_store, ray_at, svdup_f32])⟩

section Claims

variable {F : Type} [LinearOrderedField F] [FloorRing F]

end Claims

/-- C3, at a failing input: a triangle behind the ray, `t = -1`; the lane takes
`bestT = -1` and the colour of the triangle: there is no test `0 < t`. -/
theorem triangle_negative_t :
    (bvh_trace_packet_sve (fun _ => tri_behind) 1 lane1
      (svdup_f32 0) (svdup_f32 0) (svdup_f32 0)
      (svdup_f32 0) (svdup_f32 0) (svdup_f32 (-1)) hit_init).lane 0 =
    { bestT := -1, R := 1, G := 8 / 15, B := 0, Nx := 0, Ny := 0, Nz := 1 } := by
  have h1 : (0xFF8800 >>> 16 &&& 0xFF : ℕ) = 255 := by decide
  have h2 : (0xFF8800 >>> 8 &&& 0xFF : ℕ) = 136 := by decide
  have h3 : (0xFF8800 &&& 0xFF : ℕ) = 0 := by decide
  rw [bvh_trace_packet_sve_lane]
  simp only [List.range_succ, List.range_zero, List.nil_append, List.map_cons,
    List.map_nil, List.foldl_cons, List.foldl_nil]
  norm_num [lane_step, tri_cand, tri_det, tri_px, tri_py, tri_pz, tri_qx, tri_qy, tri_qz,
    tri_u, tri_v, tri_t, tri_behind,
    ray_at, svdup_f32, hit_init, HitState.lane, Lane.write, color_r, color_g, color_b, lane1,
    h1, h2, h3]

section Claims

variable {F : Type} [LinearOrderedField F] {W : Nat}

/-- C4, as the code has it: when two primitives have valid hits at exactly the
same parameter, the earlier one in evaluation order was strictly closer than
`bestT` when it was evaluated, and no other primitive evaluated after it has a
valid hit at a smaller parameter, the lane ends with what the earlier primitive
wrote; the later one does not replace it. -/
theorem tie_break_earlier_wins (vsqrt : F → F) (st : Store F) (pg : svbool_t W)
    (Ox Oy Oz Dx Dy Dz : svfloat32_t W F) (hs : HitState W F) (i : Fin W)
    (pre mid rest : List (Cand F)) (p q : Cand F)
    (hact : pg i = true)
    (horder : scene_cands vsqrt st (ray_at Ox Oy Oz Dx Dy Dz i)
      = pre ++ p :: (mid ++ q :: rest))
    (hp : p.ok = true) (hq : q.ok = true) (htie : q.t = p.t)
    (hcloser : p.t < (pre.foldl (lane_step true) (hs.lane i)).bestT)
    (hothers : ∀ c ∈ mid ++ rest, c.ok = true → p.t ≤ c.t) :
    (intersect_all vsqrt st pg Ox Oy Oz Dx Dy Dz hs).lane i
      = (pre.foldl (lane_step true) (hs.lane i)).write p := by
  have _hq := hq
  rw [intersect_all_lane, horder, hact, List.foldl_append, List.foldl_cons]
  have hstep : lane_step true (pre.foldl (lane_step true) (hs.lane i)) p
      = (pre.foldl (lane_step true) (hs.lane i)).write p := by
    unfold lane_step
    rw [if_pos ⟨rfl, hp, hcloser⟩]
  rw [hstep]
  apply foldl_lane_step_no_closer
  intro c hc hok
  show p.t ≤ c.t
  rcases List.mem_append.1 hc with h | h
  · exact hothers c (List.mem_append.2 (Or.inl h)) hok
  · rcases List.mem_cons.1 h with h | h
    · rw [h, htie]
    · exact hothers c (List.mem_append.2 (Or.inr h)) hok

end Claims

/-- Witness for C4 as amended: the two coincident planes; the lane ends with what
the first plane wrote. -/
theorem tie_break_earlier_wins_witness :
    (plane_cand (tie_store.planes 0) ⟨0, 0, 0, 0, 0, -1⟩).ok = true ∧
    (plane_cand (tie_store.planes 1) ⟨0, 0, 0, 0, 0, -1⟩).ok = true ∧
    (plane_cand (tie_store.planes 1) ⟨0, 0, 0, 0, 0, -1⟩).t
      = (plane_cand (tie_store.planes 0) ⟨0, 0, 0, 0, 0, -1⟩).t ∧
    (intersect_all qsqrt tie_store lane1 (svdup_f32 0) (svdup_f32 0) (svdup_f32 0)
      (svdup_f32 0) (svdup_f32 0) (svdup_f32 (-1)) hit_init).lane 0
      = (((List.range NUM_SPHERES).map (fun k => sphere_cand qsqrt (tie_store.spheres k)
          ⟨0, 0, 0, 0, 0, -1⟩)).foldl (lane_step true) (hit_init.lane 0)).write
        (plane_cand (tie_store.planes 0) ⟨0, 0, 0, 0, 0, -1⟩) := by
  have hp : (plane_cand (tie_store.planes 0) ⟨0, 0, 0, 0, 0, -1⟩).ok = true := by
    norm_num [plane_cand, plane_denom, plane_t, tie_store]
  have hq : (plane_cand (tie_store.planes 1) ⟨0, 0, 0, 0, 0, -1⟩).ok = true := by
    norm_num [plane_cand, plane_denom, plane_t, tie_store]
  have htie : (plane_cand (tie_store.planes 1) ⟨0, 0, 0, 0, 0, -1⟩).t
      = (plane_cand (tie_store.planes 0) ⟨0, 0, 0, 0, 0, -1⟩).t := by
    norm_num [plane_cand, plane_denom, plane_t, tie_store]
  refine ⟨hp, hq, htie, ?_⟩
  refine tie_break_earlier_wins qsqrt tie_store lane1 (svdup_f32 0) (svdup_f32 0)
    (svdup_f32 0) (svdup_f32 0) (svdup_f32 0) (svdup_f32 (-1)) hit_init 0
    ((List.range NUM_SPHERES).map (fun k => sphere_cand qsqrt (tie_store.spheres k)
      ⟨0, 0, 0, 0, 0, -1⟩))
    []
    [cyl_cand qsqrt (tie_store.cylinders 0) ⟨0, 0, 0, 0, 0, -1⟩,
      disk_cand (tie_store.disks 0) ⟨0, 0, 0, 0, 0, -1⟩]
    (plane_cand (tie_store.planes 0) ⟨0, 0, 0, 0, 0, -1⟩)
    (plane_cand (tie_store.planes 1) ⟨0, 0, 0, 0, 0, -1⟩)
    rfl ?_ hp hq htie ?_ ?_
  · simp [scene_cands, NUM_PLANES, NUM_CYLINDERS, NUM_DISKS, List.range_succ, ray_at,
      svdup_f32, tie_store, zero_store]
  · rw [tie_store_spheres_lane]
    norm_num [plane_cand, plane_denom, plane_t, tie_store, hit_init, HitState.lane, svdup_f32]
  · intro c hc hok
    simp only [List.nil_append, List.mem_cons, List.mem_singleton, List.not_mem_nil,
      or_false] at hc
    rcases hc with rfl | rfl
    · norm_num [cyl_cand, cyl_disc, cyl_a, cyl_b, cyl_c, tie_store, zero_store] at hok
    · norm_num [disk_cand, tie_store, zero_store] at hok

/-- C4, counterexample: two coincident planes of different colour, a ray that
hits both at `t = 6`; the lane ends with the colour of the first plane. -/
theorem tie_break_later_loses :
    plane_denom (tie_store.planes 0) ⟨0, 0, 0, 0, 0, -1⟩ ≠ 0 ∧
    plane_denom (tie_store.planes 1) ⟨0, 0, 0, 0, 0, -1⟩ ≠ 0 ∧
    plane_t (tie_store.planes 0) ⟨0, 0, 0, 0, 0, -1⟩ = 6 ∧
    plane_t (tie_store.planes 1) ⟨0, 0, 0, 0, 0, -1⟩ = 6 ∧
    (intersect_spheres qsqrt tie_store.spheres lane1 (svdup_f32 0) (svdup_f32 0)
      (svdup_f32 0) (svdup_f32 0) (svdup_f32 0) (svdup_f32 (-1)) hit_init).bestT 0
      = 1000000000 ∧
    (intersect_all qsqrt tie_store lane1 (svdup_f32 0) (svdup_f32 0) (svdup_f32 0)
      (svdup_f32 0) (svdup_f32 0) (svdup_f32 (-1)) hit_init).lane 0
      = { bestT := 6, R := color_r (tie_store.planes 0).color,
          G := color_g (tie_store.planes 0).color, B := color_b (tie_store.planes 0).color,
          Nx := 0, Ny := 0, Nz := 1 } ∧
    color_r (tie_store.planes 0).color ≠ (color_r (tie_store.planes 1).color : ℚ) := by
  have h1 : (0xAAAAAA >>> 16 &&& 0xFF : ℕ) = 170 := by decide
  have h2 : (0xCCCCCC >>> 16 &&& 0xFF : ℕ) = 204 := by decide
  refine ⟨?_, ?_, ?_, ?_, ?_, ?_, ?_⟩
  · norm_num [plane_denom, tie_store]
  · norm_num [plane_denom, tie_store]
  · norm_num [plane_t, plane_denom, tie_store]
  · norm_num [plane_t, plane_denom, tie_store]
  · have h := intersect_spheres_lane qsqrt tie_store.spheres lane1 (svdup_f32 0) (svdup_f32 0)
      (svdup_f32 0) (svdup_f32 0) (svdup_f32 0) (svdup_f32 (-1)) hit_init 0
    have h' := congrArg Lane.bestT h
    simp only [ray_at, svdup_f32, lane1, tie_store_spheres_lane] at h'
    exact h'
  · rw [intersect_all_lane]
    simp only [scene_cands, List.foldl_append, ray_at, svdup_f32, lane1,
      tie_store_spheres_lane]
    simp only [NUM_PLANES, NUM_CYLINDERS, NUM_DISKS, List.range_succ, List.range_zero,
      List.nil_append, List.map_cons, List.map_nil, List.foldl_cons, List.foldl_nil,
      List.map_append, List.foldl_append]
    norm_num [lane_step, plane_cand, cyl_cand, disk_cand, plane_denom, plane_t, cyl_disc,
      cyl_a, cyl_b, cyl_c, cyl_t0, cyl_yhit, disk_t, disk_dist2, tie_store, zero_store,
      hit_init, svdup_f32, HitState.lane, Lane.write]
  · norm_num [color_r, tie_store, h1, h2]

section Claims

variable {F : Type} [LinearOrderedField F] {W : Nat}

/-- C5. Closest-hit monotonicity: after each of the five passes a lane holds
either exactly its previous `HitState` or a strictly smaller `bestT`. -/
theorem closest_hit_monotone (vsqrt : F → F) (spheres : Nat → Sphere F)
    (planes : Nat → Plane F) (cylinders : Nat → Cylinder F) (disks : Nat → Disk F)
    (triangles : Nat → Triangle F) (num_triangles : Nat) (pg : svbool_t W)
    (Ox Oy Oz Dx Dy Dz : svfloat32_t W F) (hs : HitState W F) (i : Fin W) :
    ((intersect_spheres vsqrt spheres pg Ox Oy Oz Dx Dy Dz hs).lane i = hs.lane i ∨
      (intersect_spheres vsqrt spheres pg Ox Oy Oz Dx Dy Dz hs).bestT i < hs.bestT i) ∧
    ((intersect_planes planes pg Ox Oy Oz Dx Dy Dz hs).lane i = hs.lane i ∨
      (intersect_planes planes pg Ox Oy Oz Dx Dy Dz hs).bestT i < hs.bestT i) ∧
    ((intersect_cylinders vsqrt cylinders pg Ox Oy Oz Dx Dy Dz hs).lane i = hs.lane i ∨
      (intersect_cylinders vsqrt cylinders pg Ox Oy Oz Dx Dy Dz hs).bestT i < hs.bestT i) ∧
    ((intersect_disks disks pg Ox Oy Oz Dx Dy Dz hs).lane i = hs.lane i ∨
      (intersect_disks disks pg Ox Oy Oz Dx Dy Dz hs).bestT i < hs.bestT i) ∧
    ((bvh_trace_packet_sve triangles num_triangles pg Ox Oy Oz Dx Dy Dz hs).lane i
        = hs.lane i ∨
      (bvh_trace_packet_sve triangles num_triangles pg Ox Oy Oz Dx Dy Dz hs).bestT i
        < hs.bestT i) := by
  refine ⟨?_, ?_, ?_, ?_, ?_⟩
  · have h := foldl_lane_step_same_or_closer (pg i)
      ((List.range NUM_SPHERES).map
        (fun k => sphere_cand vsqrt (spheres k) (ray_at Ox Oy Oz Dx Dy Dz i))) (hs.lane i)
    rw [← intersect_spheres_lane] at h
    exact h
  · have h := foldl_lane_step_same_or_closer (pg i)
      ((List.range NUM_PLANES).map
        (fun k => plane_cand (planes k) (ray_at Ox Oy Oz Dx Dy Dz i))) (hs.lane i)
    rw [← intersect_planes_lane] at h
    exact h
  · have h := foldl_lane_step_same_or_closer (pg i)
      ((List.range NUM_CYLINDERS).map
        (fun k => cyl_cand vsqrt (cylinders k) (ray_at Ox Oy Oz Dx Dy Dz i))) (hs.lane i)
    rw [← intersect_cylinders_lane] at h
    exact h
  · have h := foldl_lane_step_same_or_closer (pg i)
      ((List.range NUM_DISKS).map
        (fun k => disk_cand (disks k) (ray_at Ox Oy Oz Dx Dy Dz i))) (hs.lane i)
    rw [← intersect_disks_lane] at h
    exact h
  · have h := foldl_lane_step_same_or_closer (pg i)
      ((List.range num_triangles).map
        (fun k => tri_cand (triangles k) (ray_at Ox Oy Oz Dx Dy Dz i))) (hs.lane i)
    rw [← bvh_trace_packet_sve_lane] at h
    exact h

/-- C6. Mask exclusivity: in each of the five passes, what lane `i` of a packet
of any width ends with is what the same pass computes on the one-lane packet
that holds lane `i` alone. -/
theorem mask_exclusivity (vsqrt : F → F) (spheres : Nat → Sphere F)
    (planes : Nat → Plane F) (cylinders : Nat → Cylinder F) (disks : Nat → Disk F)
    (triangles : Nat → Triangle F) (num_triangles : Nat) (pg : svbool_t W)
    (Ox Oy Oz Dx Dy Dz : svfloat32_t W F) (hs : HitState W F) (i : Fin W) :
    (intersect_spheres vsqrt spheres pg Ox Oy Oz Dx Dy Dz hs).lane i =
      (intersect_spheres vsqrt spheres (single pg i) (single Ox i) (single Oy i)
        (single Oz i) (single Dx i) (single Dy i) (single Dz i) (hs.single i)).lane 0 ∧
    (intersect_planes planes pg Ox Oy Oz Dx Dy Dz hs).lane i =
      (intersect_planes planes (single pg i) (single Ox i) (single Oy i)
        (single Oz i) (single Dx i) (single Dy i) (single Dz i) (hs.single i)).lane 0 ∧
    (intersect_cylinders vsqrt cylinders pg Ox Oy Oz Dx Dy Dz hs).lane i =
      (intersect_cylinders vsqrt cylinders (single pg i) (single Ox i) (single Oy i)
        (single Oz i) (single Dx i) (single Dy i) (single Dz i) (hs.single i)).lane 0 ∧
    (intersect_disks disks pg Ox Oy Oz Dx Dy Dz hs).lane i =
      (intersect_disks disks (single pg i) (single Ox i) (single Oy i)
        (single Oz i) (single Dx i) (single Dy i) (single Dz i) (hs.single i)).lane 0 ∧
    (bvh_trace_packet_sve triangles num_triangles pg Ox Oy Oz Dx Dy Dz hs).lane i =
      (bvh_trace_packet_sve triangles num_triangles (single pg i) (single Ox i)
        (single Oy i) (single Oz i) (single Dx i) (single Dy i) (single Dz i)
        (hs.single i)).lane 0 := by
  simp only [intersect_spheres_lane, intersect_planes_lane, intersect_cylinders_lane,
    intersect_disks_lane, bvh_trace_packet_sve_lane, single_lane, single_ray]
  simp only [single, and_self]

end Claims

section Claims

variable {F : Type} [LinearOrderedField F] [FloorRing F]

/-- C7. Determinism: the framebuffer left by `render_scene(s); init_torus();
build_bvh(); render_tile();` is the same from any two prior states of the
globals and for any two lane widths `W1, W2 ≥ 1`. -/
theorem render_determinism (vsqrt : F → F) (s : Nat) (st1 st2 : Store F) (W1 W2 : Nat)
    (h1 : 1 ≤ W1) (h2 : 1 ≤ W2) (idx : Nat) (hidx : idx < IMG_SIZE) :
    (main_scene vsqrt W1 s st1).framebuffer idx
      = (main_scene vsqrt W2 s st2).framebuffer idx := by
  have hr : 0 ≤ idx / 3 ∧ idx / 3 < HEIGHT * WIDTH := by
    simp only [IMG_SIZE, HEIGHT, WIDTH] at *
    omega
  obtain ⟨ho, ht⟩ := scene_setup_same s st1 st2
  unfold main_scene build_bvh
  simp only [render_tile_eq vsqrt W1 h1, render_tile_eq vsqrt W2 h2, Store.with_fb, paint,
    if_pos hr]
  exact pixel_byte_congr vsqrt _ _ idx ho ht

end Claims

/-- Witness for C7: scene 0 rendered from two different prior stores with lane
widths 1 and 4 leaves the same first byte. -/
theorem render_determinism_witness :
    1 ≤ 1 ∧ 1 ≤ 4 ∧ 0 < IMG_SIZE ∧
    (main_scene qsqrt 1 0 zero_store).framebuffer 0
      = (main_scene qsqrt 4 0 tie_store).framebuffer 0 :=
  ⟨le_refl 1, by decide, by decide,
    render_determinism qsqrt 0 zero_store tie_store 1 4 (le_refl 1) (by decide) 0 (by decide)⟩

section Claims

variable {F : Type} [LinearOrderedField F] {W : Nat}

/-- C8. Sphere intersection: the iteration of `intersect_spheres` for a sphere
with `r ≠ 0` overwrites a lane exactly when the lane is active, the discriminant
`b² - 4ac` is positive and `t0 = (-b - sqrt disc) / (2a)` lies strictly between 0
and `bestT`; it then stores `t0`, the normal `(O + t0 D - C) / r` and the unpacked
colour, and otherwise leaves the lane as it was, in particular when the
discriminant is 0. -/
theorem sphere_intersection (vsqrt : F → F) (s : Sphere F) (pg : svbool_t W)
    (Ox Oy Oz Dx Dy Dz : svfloat32_t W F) (hs : HitState W F) (i : Fin W) (hr : s.r ≠ 0) :
    (sphere_a (ray_at Ox Oy Oz Dx Dy Dz i) = Dx i ^ 2 + Dy i ^ 2 + Dz i ^ 2 ∧
      sphere_b s (ray_at Ox Oy Oz Dx Dy Dz i)
        = 2 * (Dx i * (Ox i - s.x) + Dy i * (Oy i - s.y) + Dz i * (Oz i - s.z)) ∧
      sphere_c s (ray_at Ox Oy Oz Dx Dy Dz i)
        = (Ox i - s.x) ^ 2 + (Oy i - s.y) ^ 2 + (Oz i - s.z) ^ 2 - s.r ^ 2 ∧
      sphere_disc s (ray_at Ox Oy Oz Dx Dy Dz i)
        = sphere_b s (ray_at Ox Oy Oz Dx Dy Dz i) ^ 2
          - 4 * sphere_a (ray_at Ox Oy Oz Dx Dy Dz i) * sphere_c s (ray_at Ox Oy Oz Dx Dy Dz i) ∧
      sphere_t0 vsqrt s (ray_at Ox Oy Oz Dx Dy Dz i)
        = (- sphere_b s (ray_at Ox Oy Oz Dx Dy Dz i)
            - vsqrt (sphere_disc s (ray_at Ox Oy Oz Dx Dy Dz i)))
          / (2 * sphere_a (ray_at Ox Oy Oz Dx Dy Dz i))) ∧
    (pg i = true ∧ 0 < sphere_disc s (ray_at Ox Oy Oz Dx Dy Dz i)
        ∧ 0 < sphere_t0 vsqrt s (ray_at Ox Oy Oz Dx Dy Dz i)
        ∧ sphere_t0 vsqrt s (ray_at Ox Oy Oz Dx Dy Dz i) < hs.bestT i →
      (intersect_spheres_body vsqrt s pg Ox Oy Oz Dx Dy Dz hs).lane i =
        { bestT := sphere_t0 vsqrt s (ray_at Ox Oy Oz Dx Dy Dz i)
          Nx := (Ox i + sphere_t0 vsqrt s (ray_at Ox Oy Oz Dx Dy Dz i) * Dx i - s.x) / s.r
          Ny := (Oy i + sphere_t0 vsqrt s (ray_at Ox Oy Oz Dx Dy Dz i) * Dy i - s.y) / s.r
          Nz := (Oz i + sphere_t0 vsqrt s (ray_at Ox Oy Oz Dx Dy Dz i) * Dz i - s.z) / s.r
          R := color_r s.color, G := color_g s.color, B := color_b s.color }) ∧
    (¬ (pg i = true ∧ 0 < sphere_disc s (ray_at Ox Oy Oz Dx Dy Dz i)
        ∧ 0 < sphere_t0 vsqrt s (ray_at Ox Oy Oz Dx Dy Dz i)
        ∧ sphere_t0 vsqrt s (ray_at Ox Oy Oz Dx Dy Dz i) < hs.bestT i) →
      (intersect_spheres_body vsqrt s pg Ox Oy Oz Dx Dy Dz hs).lane i = hs.lane i) ∧
    (sphere_disc s (ray_at Ox Oy Oz Dx Dy Dz i) = 0 →
      (intersect_spheres_body vsqrt s pg Ox Oy Oz Dx Dy Dz hs).lane i = hs.lane i) := by
  have _ := hr
  have hstep : ∀ h : ¬ (pg i = true ∧ 0 < sphere_disc s (ray_at Ox Oy Oz Dx Dy Dz i)
        ∧ 0 < sphere_t0 vsqrt s (ray_at Ox Oy Oz Dx Dy Dz i)
        ∧ sphere_t0 vsqrt s (ray_at Ox Oy Oz Dx Dy Dz i) < hs.bestT i),
      (intersect_spheres_body vsqrt s pg Ox Oy Oz Dx Dy Dz hs).lane i = hs.lane i := by
    intro h
    rw [intersect_spheres_body_lane, lane_step, if_neg]
    rintro ⟨h1, h2, h3⟩
    simp only [sphere_cand, Bool.and_eq_true, decide_eq_true_eq] at h2
    exact h ⟨h1, h2.1, h2.2, h3⟩
  refine ⟨⟨?_, ?_, ?_, ?_, ?_⟩, ?_, hstep, ?_⟩
  · simp only [sphere_a, ray_at]; ring
  · simp only [sphere_b, ray_at]; ring
  · simp only [sphere_c, ray_at]; ring
  · simp only [sphere_disc]; ring
  · simp only [sphere_t0, mul_comm]
  · rintro ⟨h1, h2, h3, h4⟩
    rw [intersect_spheres_body_lane, lane_step, if_pos]
    · simp only [Lane.write, sphere_cand, ray_at, Lane.mk.injEq, true_and]
      refine ⟨?_, ?_, ?_⟩ <;> congr 1 <;> ring
    · exact ⟨h1, by simp [sphere_cand, h2, h3], h4⟩
  · intro h0
    apply hstep
    rintro ⟨-, h2, -⟩
    rw [h0] at h2
    exact lt_irrefl _ h2

end Claims

/-- Witness for C8: the unit sphere at `(0, 0, -3)` and the ray along `-z`, hit
at `t0 = 2` with normal `(0, 0, 1)`. -/
theorem sphere_intersection_witness :
    front_sphere.r ≠ 0 ∧
    (intersect_spheres_body qsqrt front_sphere lane1 (svdup_f32 0) (svdup_f32 0)
      (svdup_f32 0) (svdup_f32 0) (svdup_f32 0) (svdup_f32 (-1)) hit_init).lane 0
      = { bestT := 2, R := 1, G := 0, B := 0, Nx := 0, Ny := 0, Nz := 1 } := by
  have hr : front_sphere.r ≠ 0 := by norm_num [front_sphere]
  have h1 : (0xFF0000 >>> 16 &&& 0xFF : ℕ) = 255 := by decide
  have h2 : (0xFF0000 >>> 8 &&& 0xFF : ℕ) = 0 := by decide
  have h3 : (0xFF0000 &&& 0xFF : ℕ) = 0 := by decide
  have hd : sphere_disc front_sphere (ray_at (svdup_f32 0) (svdup_f32 0) (svdup_f32 0)
      (svdup_f32 0) (svdup_f32 0) (svdup_f32 (-1)) (0 : Fin 1)) = 4 := by
    norm_num [sphere_disc, sphere_a, sphere_b, sphere_c, front_sphere, ray_at, svdup_f32]
  have ht : sphere_t0 qsqrt front_sphere (ray_at (svdup_f32 0) (svdup_f32 0) (svdup_f32 0)
      (svdup_f32 0) (svdup_f32 0) (svdup_f32 (-1)) (0 : Fin 1)) = 2 := by
    rw [sphere_t0, hd, qsqrt_four]
    norm_num [sphere_a, sphere_b, front_sphere, ray_at, svdup_f32]
  have h := (sphere_intersection qsqrt front_sphere lane1 (svdup_f32 0) (svdup_f32 0)
    (svdup_f32 0) (svdup_f32 0) (svdup_f32 0) (svdup_f32 (-1)) hit_init 0 hr).2.1
    ⟨rfl, by rw [hd]; norm_num, by rw [ht]; norm_num,
      by rw [ht]; norm_num [hit_init, svdup_f32]⟩
  refine ⟨hr, ?_⟩
  rw [h, ht]
  norm_num [front_sphere, svdup_f32, color_r, color_g, color_b, h1, h2, h3]

section Claims

variable {F : Type} [LinearOrderedField F] {W : Nat}

/-- C9. Plane intersection: the iteration of `intersect_planes` for a plane
overwrites a lane exactly when the lane is active, `denom = D·N` is not 0 and
`t = -(O·N + d) / denom` lies strictly between 0 and `bestT`; it then stores `t`
and the normal `(nx, ny, nz)` exactly as stored.  A ray with `D·N = 0` never
updates the lane. -/
theorem plane_intersection (p : Plane F) (pg : svbool_t W)
    (Ox Oy Oz Dx Dy Dz : svfloat32_t W F) (hs : HitState W F) (i : Fin W) :
    (plane_denom p (ray_at Ox Oy Oz Dx Dy Dz i) = Dx i * p.nx + Dy i * p.ny + Dz i * p.nz ∧
      plane_t p (ray_at Ox Oy Oz Dx Dy Dz i)
        = - (Ox i * p.nx + Oy i * p.ny + Oz i * p.nz + p.d)
          / plane_denom p (ray_at Ox Oy Oz Dx Dy Dz i)) ∧
    (pg i = true ∧ plane_denom p (ray_at Ox Oy Oz Dx Dy Dz i) ≠ 0
        ∧ 0 < plane_t p (ray_at Ox Oy Oz Dx Dy Dz i)
        ∧ plane_t p (ray_at Ox Oy Oz Dx Dy Dz i) < hs.bestT i →
      (intersect_planes_body p pg Ox Oy Oz Dx Dy Dz hs).lane i =
        { bestT := plane_t p (ray_at Ox Oy Oz Dx Dy Dz i)
          Nx := p.nx, Ny := p.ny, Nz := p.nz
          R := color_r p.color, G := color_g p.color, B := color_b p.color }) ∧
    (¬ (pg i = true ∧ plane_denom p (ray_at Ox Oy Oz Dx Dy Dz i) ≠ 0
        ∧ 0 < plane_t p (ray_at Ox Oy Oz Dx Dy Dz i)
        ∧ plane_t p (ray_at Ox Oy Oz Dx Dy Dz i) < hs.bestT i) →
      (intersect_planes_body p pg Ox Oy Oz Dx Dy Dz hs).lane i = hs.lane i) ∧
    (plane_denom p (ray_at Ox Oy Oz Dx Dy Dz i) = 0 →
      (intersect_planes_body p pg Ox Oy Oz Dx Dy Dz hs).lane i = hs.lane i) := by
  have hstep : ∀ h : ¬ (pg i = true ∧ plane_denom p (ray_at Ox Oy Oz Dx Dy Dz i) ≠ 0
        ∧ 0 < plane_t p (ray_at Ox Oy Oz Dx Dy Dz i)
        ∧ plane_t p (ray_at Ox Oy Oz Dx Dy Dz i) < hs.bestT i),
      (intersect_planes_body p pg Ox Oy Oz Dx Dy Dz hs).lane i = hs.lane i := by
    intro h
    rw [intersect_planes_body_lane, lane_step, if_neg]
    rintro ⟨h1, h2, h3⟩
    simp only [plane_cand, Bool.and_eq_true, decide_eq_true_eq] at h2
    exact h ⟨h1, h2.1, h2.2, h3⟩
  refine ⟨⟨rfl, ?_⟩, ?_, hstep, ?_⟩
  · simp only [plane_t, ray_at]
    congr 1
    ring
  · rintro ⟨h1, h2, h3, h4⟩
    rw [intersect_planes_body_lane, lane_step, if_pos]
    · simp only [Lane.write, plane_cand]
    · exact ⟨h1, by simp [plane_cand, h2, h3], h4⟩
  · intro h0
    apply hstep
    rintro ⟨-, h2, -⟩
    exact h2 h0

end Claims

/-- C10, at a failing input: the cylinder of `render_scene` (centre `z = -5`,
radius 1) and the ray from the origin along `-z`, which hits it at `t0 = 4`, in
the point `(0, 0, -4)`.  The code stores the normal `(0, 0, -4)`, the hit point
over `r`; the centre is not subtracted, `(H.z - cz) / r` is `1`. -/
theorem cylinder_normal_value :
    (intersect_cylinders qsqrt (render_scene 0 zero_store).cylinders lane1
      (svdup_f32 0) (svdup_f32 0) (svdup_f32 0)
      (svdup_f32 0) (svdup_f32 0) (svdup_f32 (-1)) hit_init).lane 0 =
      { bestT := 4, R := 0, G := 1, B := 1, Nx := 0, Ny := 0, Nz := -4 } ∧
    ((0 : ℚ) + 4 * (-1) - ((render_scene 0 zero_store).cylinders 0).cz)
      / ((render_scene 0 zero_store).cylinders 0).r = 1 := by
  have h1 : (0x00FFFF >>> 16 &&& 0xFF : ℕ) = 0 := by decide
  have h2 : (0x00FFFF >>> 8 &&& 0xFF : ℕ) = 255 := by decide
  have h3 : (0x00FFFF &&& 0xFF : ℕ) = 255 := by decide
  constructor
  · rw [intersect_cylinders_lane]
    simp only [NUM_CYLINDERS, List.range_succ, List.range_zero, List.nil_append, List.map_cons,
      List.map_nil, List.foldl_cons, List.foldl_nil, render_scene_cylinder 0 zero_store rfl]
    norm_num [lane_step, cyl_cand, cyl_disc, cyl_a, cyl_b, cyl_c, cyl_t0, cyl_yhit,
      ray_at, svdup_f32, hit_init, HitState.lane, Lane.write, color_r, color_g, color_b, lane1,
      qsqrt_four, h1, h2, h3]
  · rw [render_scene_cylinder 0 zero_store rfl]
    norm_num

section Claims

variable {F : Type} [LinearOrderedField F] {W : Nat}

/-- C11. Disk intersection: the iteration of `intersect_disks` for a disk
overwrites a lane exactly when the lane is active, `Dy ≠ 0`, `t = (cy - Oy) / Dy`
lies strictly between 0 and `bestT` and the hit point is within `r` of the centre
in the plane (`dist² ≤ r²`); it then stores `t` and the normal `(0, 1, 0)`.  A ray
with `Dy = 0` never updates the lane, wherever its origin is. -/
theorem disk_intersection (dk : Disk F) (pg : svbool_t W)
    (Ox Oy Oz Dx Dy Dz : svfloat32_t W F) (hs : HitState W F) (i : Fin W) :
    (disk_t dk (ray_at Ox Oy Oz Dx Dy Dz i) = (dk.cy - Oy i) / Dy i ∧
      disk_dist2 dk (ray_at Ox Oy Oz Dx Dy Dz i)
        = (Ox i + disk_t dk (ray_at Ox Oy Oz Dx Dy Dz i) * Dx i - dk.cx) ^ 2
          + (Oz i + disk_t dk (ray_at Ox Oy Oz Dx Dy Dz i) * Dz i - dk.cz) ^ 2) ∧
    (pg i = true ∧ Dy i ≠ 0
        ∧ 0 < disk_t dk (ray_at Ox Oy Oz Dx Dy Dz i)
        ∧ disk_t dk (ray_at Ox Oy Oz Dx Dy Dz i) < hs.bestT i
        ∧ disk_dist2 dk (ray_at Ox Oy Oz Dx Dy Dz i) ≤ dk.r ^ 2 →
      (intersect_disks_body dk pg Ox Oy Oz Dx Dy Dz hs).lane i =
        { bestT := disk_t dk (ray_at Ox Oy Oz Dx Dy Dz i)
          Nx := 0, Ny := 1, Nz := 0
          R := color_r dk.color, G := color_g dk.color, B := color_b dk.color }) ∧
    (¬ (pg i = true ∧ Dy i ≠ 0
        ∧ 0 < disk_t dk (ray_at Ox Oy Oz Dx Dy Dz i)
        ∧ disk_t dk (ray_at Ox Oy Oz Dx Dy Dz i) < hs.bestT i
        ∧ disk_dist2 dk (ray_at Ox Oy Oz Dx Dy Dz i) ≤ dk.r ^ 2) →
      (intersect_disks_body dk pg Ox Oy Oz Dx Dy Dz hs).lane i = hs.lane i) ∧
    (Dy i = 0 →
      (intersect_disks_body dk pg Ox Oy Oz Dx Dy Dz hs).lane i = hs.lane i) := by
  have hstep : ∀ h : ¬ (pg i = true ∧ Dy i ≠ 0
        ∧ 0 < disk_t dk (ray_at Ox Oy Oz Dx Dy Dz i)
        ∧ disk_t dk (ray_at Ox Oy Oz Dx Dy Dz i) < hs.bestT i
        ∧ disk_dist2 dk (ray_at Ox Oy Oz Dx Dy Dz i) ≤ dk.r ^ 2),
      (intersect_disks_body dk pg Ox Oy Oz Dx Dy Dz hs).lane i = hs.lane i := by
    intro h
    rw [intersect_disks_body_lane, lane_step, if_neg]
    rintro ⟨h1, h2, h3⟩
    simp only [disk_cand, Bool.and_eq_true, decide_eq_true_eq] at h2
    exact h ⟨h1, h2.1, h2.2.1, h3, by rw [pow_two]; exact h2.2.2⟩
  refine ⟨⟨rfl, ?_⟩, ?_, hstep, ?_⟩
  · simp only [disk_dist2, ray_at]
    ring
  · rintro ⟨h1, h2, h3, h4, h5⟩
    rw [intersect_disks_body_lane, lane_step, if_pos]
    · simp only [Lane.write, disk_cand]
    · have h2' : (ray_at Ox Oy Oz Dx Dy Dz i).Dy ≠ 0 := h2
      rw [pow_two] at h5
      exact ⟨h1, by simp [disk_cand, h2', h3, h5], h4⟩
  · intro h0
    apply hstep
    rintro ⟨-, h2, -⟩
    exact h2 h0

/-- C12. Möller–Trumbore: for a triangle and a ray with `det = e1 · (D × e2) ≠ 0`,
of either sign, the `u`, `v`, `t` of the triangle pass solve
`O + t D = v0 + u e1 + v e2`, and an active lane is overwritten exactly when
`u ≥ 0`, `v ≥ 0`, `u + v ≤ 1` and `t < bestT`. -/
theorem moller_trumbore (t : Triangle F) (pg : svbool_t W)
    (Ox Oy Oz Dx Dy Dz : svfloat32_t W F) (hs : HitState W F) (i : Fin W)
    (hdet : tri_det t (ray_at Ox Oy Oz Dx Dy Dz i) ≠ 0) :
    tri_det t (ray_at Ox Oy Oz Dx Dy Dz i)
      = (t.v1 0 - t.v0 0) * (Dy i * (t.v2 2 - t.v0 2) - Dz i * (t.v2 1 - t.v0 1))
        + (t.v1 1 - t.v0 1) * (Dz i * (t.v2 0 - t.v0 0) - Dx i * (t.v2 2 - t.v0 2))
        + (t.v1 2 - t.v0 2) * (Dx i * (t.v2 1 - t.v0 1) - Dy i * (t.v2 0 - t.v0 0)) ∧
    Ox i + tri_t t (ray_at Ox Oy Oz Dx Dy Dz i) * Dx i
      = t.v0 0 + tri_u t (ray_at Ox Oy Oz Dx Dy Dz i) * (t.v1 0 - t.v0 0)
        + tri_v t (ray_at Ox Oy Oz Dx Dy Dz i) * (t.v2 0 - t.v0 0) ∧
    Oy i + tri_t t (ray_at Ox Oy Oz Dx Dy Dz i) * Dy i
      = t.v0 1 + tri_u t (ray_at Ox Oy Oz Dx Dy Dz i) * (t.v1 1 - t.v0 1)
        + tri_v t (ray_at Ox Oy Oz Dx Dy Dz i) * (t.v2 1 - t.v0 1) ∧
    Oz i + tri_t t (ray_at Ox Oy Oz Dx Dy Dz i) * Dz i
      = t.v0 2 + tri_u t (ray_at Ox Oy Oz Dx Dy Dz i) * (t.v1 2 - t.v0 2)
        + tri_v t (ray_at Ox Oy Oz Dx Dy Dz i) * (t.v2 2 - t.v0 2) ∧
    (pg i = true ∧ 0 ≤ tri_u t (ray_at Ox Oy Oz Dx Dy Dz i)
        ∧ 0 ≤ tri_v t (ray_at Ox Oy Oz Dx Dy Dz i)
        ∧ tri_u t (ray_at Ox Oy Oz Dx Dy Dz i) + tri_v t (ray_at Ox Oy Oz Dx Dy Dz i) ≤ 1
        ∧ tri_t t (ray_at Ox Oy Oz Dx Dy Dz i) < hs.bestT i →
      (bvh_trace_packet_sve_body t pg Ox Oy Oz Dx Dy Dz hs).lane i =
        { bestT := tri_t t (ray_at Ox Oy Oz Dx Dy Dz i)
          Nx := hs.Nx i, Ny := hs.Ny i, Nz := hs.Nz i
          R := color_r t.color, G := color_g t.color, B := color_b t.color }) ∧
    (¬ (pg i = true ∧ 0 ≤ tri_u t (ray_at Ox Oy Oz Dx Dy Dz i)
        ∧ 0 ≤ tri_v t (ray_at Ox Oy Oz Dx Dy Dz i)
        ∧ tri_u t (ray_at Ox Oy Oz Dx Dy Dz i) + tri_v t (ray_at Ox Oy Oz Dx Dy Dz i) ≤ 1
        ∧ tri_t t (ray_at Ox Oy Oz Dx Dy Dz i) < hs.bestT i) →
      (bvh_trace_packet_sve_body t pg Ox Oy Oz Dx Dy Dz hs).lane i = hs.lane i) := by
  refine ⟨?_, ?_, ?_, ?_, ?_, ?_⟩
  · simp only [tri_det, tri_px, tri_py, tri_pz, ray_at]
  · simp only [tri_t, tri_u, tri_v]
    field_simp
    simp only [tri_det, tri_px, tri_py, tri_pz, tri_qx, tri_qy, tri_qz, ray_at]
    ring
  · simp only [tri_t, tri_u, tri_v]
    field_simp
    simp only [tri_det, tri_px, tri_py, tri_pz, tri_qx, tri_qy, tri_qz, ray_at]
    ring
  · simp only [tri_t, tri_u, tri_v]
    field_simp
    simp only [tri_det, tri_px, tri_py, tri_pz, tri_qx, tri_qy, tri_qz, ray_at]
    ring
  · rintro ⟨h1, h2, h3, h4, h5⟩
    rw [bvh_trace_packet_sve_body_lane, lane_step, if_pos]
    · simp only [Lane.write, tri_cand, HitState.lane]
    · exact ⟨h1, by simp [tri_cand, hdet, h2, h3, h4], h5⟩
  · intro h
    rw [bvh_trace_packet_sve_body_lane, lane_step, if_neg]
    rintro ⟨h1, h2, h3⟩
    simp only [tri_cand, Bool.and_eq_true, decide_eq_true_eq] at h2
    exact h ⟨h1, h2.2.1, h2.2.2.1, h2.2.2.2, h3⟩

end Claims

/-- Witness for C12: the triangle `tri_behind` and the ray along `-z`, with
`det = 16`; the `z` equation of the solution. -/
theorem moller_trumbore_witness :
    tri_det tri_behind (ray_at (svdup_f32 0) (svdup_f32 0) (svdup_f32 0)
      (svdup_f32 0) (svdup_f32 0) (svdup_f32 (-1)) (0 : Fin 1)) ≠ 0 ∧
    (svdup_f32 0 : svfloat32_t 1 ℚ) 0
      + tri_t tri_behind (ray_at (svdup_f32 0) (svdup_f32 0) (svdup_f32 0)
          (svdup_f32 0) (svdup_f32 0) (svdup_f32 (-1)) (0 : Fin 1))
        * (svdup_f32 (-1) : svfloat32_t 1 ℚ) 0
      = tri_behind.v0 2
        + tri_u tri_behind (ray_at (svdup_f32 0) (svdup_f32 0) (svdup_f32 0)
            (svdup_f32 0) (svdup_f32 0) (svdup_f32 (-1)) (0 : Fin 1))
          * (tri_behind.v1 2 - tri_behind.v0 2)
        + tri_v tri_behind (ray_at (svdup_f32 0) (svdup_f32 0) (svdup_f32 0)
            (svdup_f32 0) (svdup_f32 0) (svdup_f32 (-1)) (0 : Fin 1))
          * (tri_behind.v2 2 - tri_behind.v0 2) := by
  have hdet : tri_det tri_behind (ray_at (svdup_f32 0) (svdup_f32 0) (svdup_f32 0)
      (svdup_f32 0) (svdup_f32 0) (svdup_f32 (-1)) (0 : Fin 1)) ≠ 0 := by
    norm_num [tri_det, tri_px, tri_py, tri_pz, tri_behind, ray_at, svdup_f32]
  exact ⟨hdet, (moller_trumbore tri_behind lane1 (svdup_f32 0) (svdup_f32 0) (svdup_f32 0)
    (svdup_f32 0) (svdup_f32 0) (svdup_f32 (-1)) hit_init 0 hdet).2.2.2.1⟩

section Claims

variable {F : Type} [LinearOrderedField F] {W : Nat}

/-- C13. Triangle hits propagate colour only: in every lane the triangle pass
leaves `Nx`, `Ny`, `Nz` exactly as they were before the pass, also where it
lowers `bestT` and replaces the colour. -/
theorem triangles_keep_normal (triangles : Nat → Triangle F) (num_triangles : Nat)
    (pg : svbool_t W) (Ox Oy Oz Dx Dy Dz : svfloat32_t W F) (hs : HitState W F)
    (i : Fin W) :
    (bvh_trace_packet_sve triangles num_triangles pg Ox Oy Oz Dx Dy Dz hs).Nx i = hs.Nx i ∧
    (bvh_trace_packet_sve triangles num_triangles pg Ox Oy Oz Dx Dy Dz hs).Ny i = hs.Ny i ∧
    (bvh_trace_packet_sve triangles num_triangles pg Ox Oy Oz Dx Dy Dz hs).Nz i = hs.Nz i := by
  have h := foldl_lane_step_normal (pg i)
    ((List.range num_triangles).map
      (fun k => tri_cand (triangles k) (ray_at Ox Oy Oz Dx Dy Dz i))) (hs.lane i)
    (by
      intro c hc
      obtain ⟨k, -, rfl⟩ := List.mem_map.1 hc
      rfl)
  rw [← bvh_trace_packet_sve_lane] at h
  exact h

/-- C14. Shading formula: in an active lane `apply_phong` replaces each channel
`c` by `0.1 + c * max 0 (N · L)`, `L` being `light_dir` over its length as
`sqrtf` computes it; nothing is clamped and the normal stays as it is. -/
theorem phong_shading (light_dir : Fin 3 → F) (pg : svbool_t W)
    (Nx Ny Nz : svfloat32_t W F) (hs : HitState W F) (i : Fin W) (hact : pg i = true) :
    (apply_phong light_dir pg Nx Ny Nz hs).R i
      = 0.1 + hs.R i * max 0
        (Nx i * (light_dir 0 / sqrtf (light_dir 0 * light_dir 0 + light_dir 1 * light_dir 1
            + light_dir 2 * light_dir 2))
          + Ny i * (light_dir 1 / sqrtf (light_dir 0 * light_dir 0 + light_dir 1 * light_dir 1
            + light_dir 2 * light_dir 2))
          + Nz i * (light_dir 2 / sqrtf (light_dir 0 * light_dir 0 + light_dir 1 * light_dir 1
            + light_dir 2 * light_dir 2))) ∧
    (apply_phong light_dir pg Nx Ny Nz hs).G i
      = 0.1 + hs.G i * max 0
        (Nx i * (light_dir 0 / sqrtf (light_dir 0 * light_dir 0 + light_dir 1 * light_dir 1
            + light_dir 2 * light_dir 2))
          + Ny i * (light_dir 1 / sqrtf (light_dir 0 * light_dir 0 + light_dir 1 * light_dir 1
            + light_dir 2 * light_dir 2))
          + Nz i * (light_dir 2 / sqrtf (light_dir 0 * light_dir 0 + light_dir 1 * light_dir 1
            + light_dir 2 * light_dir 2))) ∧
    (apply_phong light_dir pg Nx Ny Nz hs).B i
      = 0.1 + hs.B i * max 0
        (Nx i * (light_dir 0 / sqrtf (light_dir 0 * light_dir 0 + light_dir 1 * light_dir 1
            + light_dir 2 * light_dir 2))
          + Ny i * (light_dir 1 / sqrtf (light_dir 0 * light_dir 0 + light_dir 1 * light_dir 1
            + light_dir 2 * light_dir 2))
          + Nz i * (light_dir 2 / sqrtf (light_dir 0 * light_dir 0 + light_dir 1 * light_dir 1
            + light_dir 2 * light_dir 2))) ∧
    (apply_phong light_dir pg Nx Ny Nz hs).Nx = hs.Nx ∧
    (apply_phong light_dir pg Nx Ny Nz hs).Ny = hs.Ny ∧
    (apply_phong light_dir pg Nx Ny Nz hs).Nz = hs.Nz ∧
    (apply_phong light_dir pg Nx Ny Nz hs).bestT = hs.bestT := by
  simp only [apply_phong, svmad_f32_z, svmax_f32_z, svadd_f32_z, svmul_f32_z, svdup_f32, hact,
    if_true, AMBIENT, max_comm (0 : F), add_comm (0.1 : F), and_self]

end Claims

/-- Witness for C14: a white lane that faces the light ends above 1, unclamped. -/
theorem phong_shading_witness :
    lane1 0 = true ∧
    1 < (apply_phong ![0, 0, 1] lane1 white_hit.Nx white_hit.Ny white_hit.Nz white_hit).R 0 := by
  refine ⟨rfl, ?_⟩
  rw [(phong_shading ![0, 0, 1] lane1 white_hit.Nx white_hit.Ny white_hit.Nz white_hit 0 rfl).1]
  norm_num [white_hit, svdup_f32, sqrtf, List.range_succ]

section Claims

variable {F : Type} [LinearOrderedField F] [FloorRing F]

/-- C15. Framebuffer conversion: `render_tile` stores at index
`(y * 640 + x) * 3 + k` the byte `⌊255 * min (max c 0) 1⌋` of the shaded channel
`c` of pixel `(x, y)`, `k = 0, 1, 2` for R, G, B; the byte is at most 255, is 0 for
`c ≤ 0`, 255 for `c ≥ 1`, and is truncated, not rounded: `0.999` gives 254. -/
theorem framebuffer_conversion (vsqrt : F → F) (W : Nat) (st : Store F) (x y : Nat)
    (hW : 1 ≤ W) (hx : x < 640) (hy : y < 480) :
    (render_tile vsqrt W st).framebuffer ((y * 640 + x) * 3)
      = ⌊255 * min (max (pixel vsqrt st y x).R 0) 1⌋₊ ∧
    (render_tile vsqrt W st).framebuffer ((y * 640 + x) * 3 + 1)
      = ⌊255 * min (max (pixel vsqrt st y x).G 0) 1⌋₊ ∧
    (render_tile vsqrt W st).framebuffer ((y * 640 + x) * 3 + 2)
      = ⌊255 * min (max (pixel vsqrt st y x).B 0) 1⌋₊ ∧
    (∀ (x0 : Nat) (i : Fin W), x0 + i.val = x →
      (packet_hits vsqrt W y x0 st).lane i = pixel vsqrt st y x) ∧
    (∀ c : F, ⌊255 * min (max c 0) 1⌋₊ ≤ 255) ∧
    (∀ c : F, c ≤ 0 → ⌊255 * min (max c 0) 1⌋₊ = 0) ∧
    (∀ c : F, 1 ≤ c → ⌊255 * min (max c 0) 1⌋₊ = 255) ∧
    ⌊255 * min (max (0.999 : F) 0) 1⌋₊ = 254 := by
  have hfb : ∀ idx, idx / 3 = y * 640 + x →
      (render_tile vsqrt W st).framebuffer idx = pixel_byte vsqrt st idx := by
    intro idx hidx
    have hr : 0 ≤ idx / 3 ∧ idx / 3 < HEIGHT * WIDTH := by
      simp only [HEIGHT, WIDTH]
      omega
    rw [render_tile_eq vsqrt W hW]
    simp only [Store.with_fb, paint, if_pos hr]
  have hrow : (y * 640 + x) / WIDTH = y := by
    simp only [WIDTH]
    omega
  have hcol : (y * 640 + x) % WIDTH = x := by
    simp only [WIDTH]
    omega
  refine ⟨?_, ?_, ?_, ?_, ?_, ?_, ?_, ?_⟩
  · rw [hfb _ (by omega), ← to_byte_eq]
    have h3 : (y * 640 + x) * 3 % 3 = 0 := by omega
    have hd : (y * 640 + x) * 3 / 3 = y * 640 + x := by omega
    simp only [pixel_byte, h3, hd, hrow, hcol, if_true]
  · rw [hfb _ (by omega), ← to_byte_eq]
    have h3 : ((y * 640 + x) * 3 + 1) % 3 = 1 := by omega
    have hd : ((y * 640 + x) * 3 + 1) / 3 = y * 640 + x := by omega
    simp only [pixel_byte, h3, hd, hrow, hcol, if_true, one_ne_zero, if_false]
  · rw [hfb _ (by omega), ← to_byte_eq]
    have h3 : ((y * 640 + x) * 3 + 2) % 3 = 2 := by omega
    have hd : ((y * 640 + x) * 3 + 2) / 3 = y * 640 + x := by omega
    simp only [pixel_byte, h3, hd, hrow, hcol]
    norm_num
  · intro x0 i hxi
    subst hxi
    exact packet_hits_lane vsqrt W y x0 st i (by simp only [WIDTH]; exact hx)
  · intro c
    rw [← to_byte_eq]
    exact to_byte_le c
  · intro c hc
    rw [← to_byte_eq]
    exact to_byte_of_nonpos c hc
  · intro c hc
    rw [← to_byte_eq]
    exact to_byte_of_one_le c hc
  · rw [max_eq_left (by norm_num), min_eq_left (by norm_num), Nat.floor_eq_iff (by norm_num)]
    constructor <;> norm_num

end Claims

/-- Witness for C15: the first byte of the image, lane width 4. -/
theorem framebuffer_conversion_witness :
    1 ≤ 4 ∧ 0 < 640 ∧ 0 < 480 ∧
    (render_tile qsqrt 4 zero_store).framebuffer ((0 * 640 + 0) * 3)
      = ⌊255 * min (max (pixel qsqrt zero_store 0 0).R 0) 1⌋₊ :=
  ⟨by decide, by decide, by decide,
    (framebuffer_conversion qsqrt 4 zero_store 0 0 (by decide) (by decide) (by decide)).1⟩

section Claims

variable {F : Type} [LinearOrderedField F]

end Claims

section Claims

variable {F : Type}

/-- C17. Capacity bound: from an empty triangle list, after the calls of
`add_triangle` for the triangles of `calls`, the count is `min n 128` with
`n = calls.length`, slot `k < min n 128` holds the `k`-th triangle inserted, and
no slot from 128 on is written; a call on a list whose count is 128 changes
nothing. -/
theorem capacity_bound (calls : List (Triangle F)) (st : Store F)
    (hempty : st.num_triangles = 0) :
    (calls.foldl (fun s t => add_triangle t.v0 t.v1 t.v2 t.color s) st).num_triangles
      = min calls.length 128 ∧
    (∀ k, k < min calls.length 128 →
      calls[k]?
        = some ((calls.foldl (fun s t => add_triangle t.v0 t.v1 t.v2 t.color s) st).triangles
            k)) ∧
    (∀ k, 128 ≤ k →
      (calls.foldl (fun s t => add_triangle t.v0 t.v1 t.v2 t.color s) st).triangles k
        = st.triangles k) ∧
    (∀ (s : Store F) (v0 v1 v2 : Fin 3 → F) (color : Nat), s.num_triangles = 128 →
      add_triangle v0 v1 v2 color s = s) := by
  obtain ⟨h1, h2, h3⟩ := add_triangles_from calls st (by rw [hempty]; exact Nat.zero_le _)
  rw [hempty, Nat.zero_add] at h1 h2 h3
  simp only [MAX_TRIANGLES] at h1 h2 h3
  refine ⟨h1, fun k hk => ?_, fun k hk => h2 k (Or.inr (by omega)), ?_⟩
  · have := h3 k (Nat.zero_le k) hk
    simpa using this
  · intro s v0 v1 v2 color hs
    exact add_triangle_of_ge v0 v1 v2 color s (by rw [hs]; exact le_refl _)

end Claims

/-- Witness for C17: one triangle added to the empty list of `zero_store`. -/
theorem capacity_bound_witness :
    zero_store.num_triangles = 0 ∧
    ([tri_behind].foldl (fun s t => add_triangle t.v0 t.v1 t.v2 t.color s)
      zero_store).num_triangles = min [tri_behind].length 128 :=
  ⟨rfl, (capacity_bound [tri_behind] zero_store rfl).1⟩

section Claims

variable {F : Type} [LinearOrderedField F] [FloorRing F]

/-- C18. Torus mesh size: from any prior state `init_torus` leaves exactly
`128 = 2 * 8 ^ 2` triangles, none dropped: grid cell `(i, j)`, `i` outer and `j`
inner, fills slot `2 (8 i + j)` with `(v0, v1, v2)` and the next slot with
`(v2, v1, v3)`, each of colour `0xFF8800`. -/
theorem torus_mesh_size (st : Store F) :
    (init_torus st).num_triangles = 128 ∧ 128 = 2 * 8 ^ 2 ∧
    (∀ i j, i < 8 → j < 8 →
      (init_torus st).triangles (2 * (8 * i + j))
        = { v0 := torus_vertex (torus_angle i) (torus_angle j)
            v1 := torus_vertex (torus_angle i) (torus_angle (j + 1))
            v2 := torus_vertex (torus_angle (i + 1)) (torus_angle j)
            color := 0xFF8800 } ∧
      (init_torus st).triangles (2 * (8 * i + j) + 1)
        = { v0 := torus_vertex (torus_angle (i + 1)) (torus_angle j)
            v1 := torus_vertex (torus_angle i) (torus_angle (j + 1))
            v2 := torus_vertex (torus_angle (i + 1)) (torus_angle (j + 1))
            color := 0xFF8800 }) ∧
    (∀ k < 128, ((init_torus st).triangles k).color = 0xFF8800) := by
  obtain ⟨hn, ht, -⟩ := init_torus_inv st
  refine ⟨hn, by norm_num, ?_, ?_⟩
  · intro i j hi hj
    have e1 : (8 * i + j) / 8 = i := by omega
    have e2 : (8 * i + j) % 8 = j := by omega
    have h := ht (8 * i + j) (by omega)
    rw [e1, e2] at h
    exact h
  · intro k hk
    obtain ⟨h1, h2⟩ := ht (k / 2) (by omega)
    rcases Nat.mod_two_eq_zero_or_one k with h | h
    · have e : k = 2 * (k / 2) := by omega
      rw [e, h1]
      rfl
    · have e : k = 2 * (k / 2) + 1 := by omega
      rw [e, h2]
      rfl

/-- C19. Idempotent rebuild: the count and the triangles below the count that
`init_torus` leaves are the same from any two prior states, and a second
`init_torus` in a row changes nothing. -/
theorem init_torus_idempotent (st1 st2 st : Store F) :
    (init_torus st1).num_triangles = (init_torus st2).num_triangles ∧
    (∀ k < (init_torus st1).num_triangles,
      (init_torus st1).triangles k = (init_torus st2).triangles k) ∧
    init_torus (init_torus st) = init_torus st := by
  refine ⟨(init_torus_same st1 st2).1, (init_torus_same st1 st2).2, ?_⟩
  obtain ⟨r1, r2, r3, r4, r5, r6⟩ := init_torus_rest (init_torus st)
  obtain ⟨hn, -, hout⟩ := init_torus_inv (init_torus st)
  obtain ⟨hn0, -, -⟩ := init_torus_inv st
  obtain ⟨-, hsame⟩ := init_torus_same (init_torus st) st
  refine store_eq _ _ r1 r2 r3 r4 ?_ (by rw [hn, hn0]) r5 r6
  funext k
  by_cases hk : k < 128
  · exact hsame k (by rw [hn]; exact hk)
  · exact hout k (by omega)

/-- C20, as the code has it: after `render_scene(sid)` the five spheres, the two
planes, the cylinder, the disk and the light are the same from any two prior
stores; the triangle list with its count is the same from any two prior stores
for `sid` 5 and 9, where `init_torus` runs, and for every other `sid` it is left
exactly as it was before the call. -/
theorem render_scene_reset (sid : Nat) (st1 st2 : Store F) :
    SameObjects (render_scene sid st1) (render_scene sid st2) ∧
    (sid = 5 ∨ sid = 9 → SameTriangles (render_scene sid st1) (render_scene sid st2)) ∧
    (sid ≠ 5 → sid ≠ 9 →
      (render_scene sid st1).num_triangles = st1.num_triangles ∧
      (render_scene sid st1).triangles = st1.triangles) := by
  refine ⟨render_scene_objects sid st1 st2, ?_, ?_⟩
  · rintro (h | h)
    · subst h
      unfold SameTriangles
      simp only [render_scene]
      exact init_torus_same _ _
    · subst h
      unfold SameTriangles
      simp only [render_scene]
      exact init_torus_same _ _
  · intro h5 h9
    match sid, h5, h9 with
    | 0, _, _ | 1, _, _ | 2, _, _ | 3, _, _ | 4, _, _ | 6, _, _ | 7, _, _ | 8, _, _
    | _ + 10, _, _ =>
      simp only [render_scene, NUM_SPHERES, List.range_succ, List.range_zero, List.nil_append,
        List.cons_append, List.foldl_cons, List.foldl_nil, and_self]
    | 5, h, _ => exact absurd rfl h
    | 9, _, h => exact absurd rfl h

end Claims

/-- C20, counterexample: `render_scene(0)` from two prior stores that differ in
the triangle count leaves two different counts. -/
theorem render_scene_keeps_triangles :
    (render_scene 0 zero_store).num_triangles = 0 ∧
    (render_scene 0 stale_store).num_triangles = 1 := by
  constructor <;>
    simp [render_scene, NUM_SPHERES, List.range_succ, zero_store, stale_store]

section Claims

variable {F : Type} [LinearOrderedField F] [FloorRing F]

/-- C21, as the code has it: the torus is traced in every scene.  The rendering
part of one iteration of the scene loop of `main` is `render_tile` on the store
that `render_scene(s); init_torus(); build_bvh();` leave, and for every scene
index `s`, not only 5 and 9, that store holds the 128 torus triangles, grid cell
`m` in slots `2 m` and `2 m + 1`. -/
theorem torus_in_every_scene (vsqrt : F → F) (W s : Nat) (st : Store F) :
    main_scene vsqrt W s st
      = render_tile vsqrt W (build_bvh (init_torus (render_scene s st))) ∧
    (build_bvh (init_torus (render_scene s st))).num_triangles = 128 ∧
    (∀ m < 64,
      (build_bvh (init_torus (render_scene s st))).triangles (2 * m)
        = torus_first (m / 8) (m % 8) ∧
      (build_bvh (init_torus (render_scene s st))).triangles (2 * m + 1)
        = torus_second (m / 8) (m % 8)) := by
  have hb : ∀ a : Store F, build_bvh a = a := fun _ => rfl
  obtain ⟨hn, ht, -⟩ := init_torus_inv (render_scene s st)
  rw [hb]
  refine ⟨?_, hn, ht⟩
  unfold main_scene
  simp only [hb]

end Claims

/-- C21, counterexample: in scene 0, which is neither 5 nor 9, the store that
`main` hands to `render_tile` holds 128 triangles, not none. -/
theorem torus_traced_in_scene_zero :
    main_scene qsqrt 1 0 zero_store
      = render_tile qsqrt 1 (build_bvh (init_torus (render_scene 0 zero_store))) ∧
    (build_bvh (init_torus (render_scene 0 zero_store))).num_triangles = 128 ∧
    (build_bvh (init_torus (render_scene 0 zero_store))).num_triangles ≠ 0 := by
  have hb : ∀ a : Store ℚ, build_bvh a = a := fun _ => rfl
  obtain ⟨hn, -, -⟩ := init_torus_inv (render_scene 0 zero_store)
  rw [hb]
  refine ⟨?_, hn, ?_⟩
  · unfold main_scene
    simp only [hb]
  · rw [hn]
    decide

section Claims

variable {F : Type} [LinearOrderedField F] [FloorRing F]

/-- C22, as the code has it: in the store `main` renders for scene 0 sphere 0 is
centred at `(-2, -1, -3)` with radius 0.8 and sphere 1 at `(0, -1, -4)` with radius
1, and the triangle list holds the 128 triangles of the torus; the lane of pixel
column 320 in row 240 traces the ray `(1/480, -1/480, -1)` from the origin.  With a
square root that is accurate to a thousandth (relative, on the square), the sphere,
plane, cylinder and disk passes leave the hit on sphere 1 in that lane, with `t0`
within 0.01 of 3.8735, and no sphere, plane, cylinder or disk with a valid hit
reports a smaller `t`.  Triangle 72 of the torus has a valid hit at `t` within 0.001
of 0.3774, so the triangle pass replaces the hit: after the five passes the lane
holds the colour of the torus, the normal written for sphere 1, and a `bestT` of at
most 0.3784. -/
theorem centre_pixel_scenario (vsqrt : F → F) (st : Store F) (W x : Nat) (i : Fin W)
    (hv : ∀ d : F, 0 < d → 0 ≤ vsqrt d ∧ |vsqrt d * vsqrt d - d| ≤ d / 1000)
    (hx : x + i.val = 320) :
    main_scene vsqrt W 0 st
      = render_tile vsqrt W (build_bvh (init_torus (render_scene 0 st))) ∧
    (build_bvh (init_torus (render_scene 0 st))).spheres 0 = ⟨-2, -1, -3, 0.8, 0xFF0000⟩ ∧
    (build_bvh (init_torus (render_scene 0 st))).spheres 1 = ⟨0, -1, -4, 1, 0x0FF000⟩ ∧
    (build_bvh (init_torus (render_scene 0 st))).num_triangles = 128 ∧
    (build_bvh (init_torus (render_scene 0 st))).triangles 72 = torus_first 4 4 ∧
    ray_at (svdup_f32 0) (svdup_f32 0) (svdup_f32 0)
      (packet_Dx W x) (packet_Dy W 240) (svdup_f32 (-1.0)) i
      = (⟨0, 0, 0, 1 / 480, -1 / 480, -1⟩ : Ray F) ∧
    (∀ m : Store F, m = build_bvh (init_torus (render_scene 0 st)) →
      ∀ a : HitState W F,
      a = intersect_disks m.disks (packet_pg W x) (svdup_f32 0) (svdup_f32 0)
          (svdup_f32 0) (packet_Dx W x) (packet_Dy W 240) (svdup_f32 (-1.0))
          (intersect_cylinders vsqrt m.cylinders (packet_pg W x) (svdup_f32 0) (svdup_f32 0)
            (svdup_f32 0) (packet_Dx W x) (packet_Dy W 240) (svdup_f32 (-1.0))
            (intersect_planes m.planes (packet_pg W x) (svdup_f32 0) (svdup_f32 0)
              (svdup_f32 0) (packet_Dx W x) (packet_Dy W 240) (svdup_f32 (-1.0))
              (intersect_spheres vsqrt m.spheres (packet_pg W x) (svdup_f32 0)
                (svdup_f32 0) (svdup_f32 0) (packet_Dx W x) (packet_Dy W 240)
                (svdup_f32 (-1.0)) (packet_init W)))) →
      ∀ e : HitState W F,
      e = intersect_all vsqrt m (packet_pg W x) (svdup_f32 0) (svdup_f32 0) (svdup_f32 0)
          (packet_Dx W x) (packet_Dy W 240) (svdup_f32 (-1.0)) (packet_init W) →
      ∀ ray : Ray F, ray = ⟨0, 0, 0, 1 / 480, -1 / 480, -1⟩ →
      e = bvh_trace_packet_sve m.triangles m.num_triangles (packet_pg W x) (svdup_f32 0)
          (svdup_f32 0) (svdup_f32 0) (packet_Dx W x) (packet_Dy W 240) (svdup_f32 (-1.0)) a ∧
      a.lane i = lane_init.write (sphere_cand vsqrt (m.spheres 1) ray) ∧
      |a.bestT i - 3.8735| ≤ 0.01 ∧
      (∀ k < NUM_SPHERES, (sphere_cand vsqrt (m.spheres k) ray).ok = true →
        a.bestT i ≤ (sphere_cand vsqrt (m.spheres k) ray).t) ∧
      (∀ k < NUM_PLANES, (plane_cand (m.planes k) ray).ok = true →
        a.bestT i ≤ (plane_cand (m.planes k) ray).t) ∧
      (∀ k < NUM_CYLINDERS, (cyl_cand vsqrt (m.cylinders k) ray).ok = true →
        a.bestT i ≤ (cyl_cand vsqrt (m.cylinders k) ray).t) ∧
      (∀ k < NUM_DISKS, (disk_cand (m.disks k) ray).ok = true →
        a.bestT i ≤ (disk_cand (m.disks k) ray).t) ∧
      (tri_cand (m.triangles 72) ray).ok = true ∧
      |(tri_cand (m.triangles 72) ray).t - 0.3774| ≤ 0.001 ∧
      e.R i = color_r 0xFF8800 ∧ e.G i = color_g 0xFF8800 ∧ e.B i = color_b 0xFF8800 ∧
      e.Nx i = a.Nx i ∧ e.Ny i = a.Ny i ∧ e.Nz i = a.Nz i ∧
      e.bestT i ≤ 0.3784) := by
  have hbb : ∀ s : Store F, build_bvh s = s := fun _ => rfl
  obtain ⟨h0, h1, h2, h3, h4, h5, h6, h7, h8, -⟩ := render_scene_zero st
  obtain ⟨r1, r2, r3, r4, -, -⟩ := init_torus_rest (render_scene 0 st)
  obtain ⟨hn, htri, -⟩ := init_torus_inv (render_scene 0 st)
  have h72 : (init_torus (render_scene 0 st)).triangles 72 = torus_first 4 4 := by
    have h := (htri 36 (by norm_num)).1
    rw [show 2 * 36 = 72 from rfl, show 36 / 8 = 4 from rfl, show 36 % 8 = 4 from rfl] at h
    exact h
  have hlt : x + i.val < WIDTH := by rw [hx]; decide
  have hray : ray_at (svdup_f32 0) (svdup_f32 0) (svdup_f32 0)
      (packet_Dx W x) (packet_Dy W 240) (svdup_f32 (-1.0)) i
      = (⟨0, 0, 0, 1 / 480, -1 / 480, -1⟩ : Ray F) := by
    rw [packet_ray_lane W x 240 i hlt, hx]
    exact primary_ray_centre
  have hp : (packet_pg W x) i = true := by
    simp only [packet_pg, svwhilelt_b32, decide_eq_true_eq]; exact hlt
  -- the square roots the passes take
  obtain ⟨s1a, s1b⟩ := sqrt_bracket 0.25 0.26 (hv (3809 / 57600) (by norm_num)).1
    (hv (3809 / 57600) (by norm_num)).2
    (by norm_num) (by norm_num) (by norm_num) (by norm_num)
  obtain ⟨-, s4b⟩ := sqrt_bracket 0 2 (hv (613997 / 240000) (by norm_num)).1
    (hv (613997 / 240000) (by norm_num)).2
    (by norm_num) (by norm_num) (by norm_num) (by norm_num)
  obtain ⟨-, scb⟩ := sqrt_bracket 0 2.01 (hv (9599 / 2400) (by norm_num)).1
    (hv (9599 / 2400) (by norm_num)).2
    (by norm_num) (by norm_num) (by norm_num) (by norm_num)
  have ht1 : sphere_t0 vsqrt (⟨0, -1, -4, 1, 0x0FF000⟩ : Sphere F)
      ⟨0, 0, 0, 1 / 480, -1 / 480, -1⟩
      = (1921 / 240 - vsqrt (3809 / 57600)) / (115201 / 57600) := by
    norm_num [sphere_t0, sphere_disc, sphere_a, sphere_b, sphere_c]
  have ht1lo : (3.8635 : F) ≤ (1921 / 240 - vsqrt (3809 / 57600)) / (115201 / 57600) := by
    rw [le_div_iff₀ (by norm_num)]
    linarith
  have ht1hi : (1921 / 240 - vsqrt (3809 / 57600)) / (115201 / 57600) ≤ (3.8835 : F) := by
    rw [div_le_iff₀ (by norm_num)]
    linarith
  have hres : ([sphere_cand vsqrt ⟨-2, -1, -3, 0.8, 0xFF0000⟩ ⟨0, 0, 0, 1 / 480, -1 / 480, -1⟩,
         sphere_cand vsqrt ⟨0, -1, -4, 1, 0x0FF000⟩ ⟨0, 0, 0, 1 / 480, -1 / 480, -1⟩,
         sphere_cand vsqrt ⟨2, -1, -5, 0.8, 0x00FF00⟩ ⟨0, 0, 0, 1 / 480, -1 / 480, -1⟩,
         sphere_cand vsqrt ⟨-2, 0, -6, 1, 0x000FF0⟩ ⟨0, 0, 0, 1 / 480, -1 / 480, -1⟩,
         sphere_cand vsqrt ⟨0, 0, -7, 0.8, 0x0000FF⟩ ⟨0, 0, 0, 1 / 480, -1 / 480, -1⟩,
         plane_cand ⟨0, 1, 0, -1, 0xAAAAAA⟩ ⟨0, 0, 0, 1 / 480, -1 / 480, -1⟩,
         plane_cand ⟨0, 0, 1, 6, 0xCCCCCC⟩ ⟨0, 0, 0, 1 / 480, -1 / 480, -1⟩,
         cyl_cand vsqrt ⟨0, -1, -5, 1, 2, 0x00FFFF⟩ ⟨0, 0, 0, 1 / 480, -1 / 480, -1⟩,
         disk_cand ⟨2, -1, -4, 1.5, 0xFFFF00⟩ ⟨0, 0, 0, 1 / 480, -1 / 480, -1⟩] :
        List (Cand F)).foldl (lane_step true) lane_init
      = lane_init.write (sphere_cand vsqrt ⟨0, -1, -4, 1, 0x0FF000⟩
          ⟨0, 0, 0, 1 / 480, -1 / 480, -1⟩) := by
    have e0 : lane_step true (lane_init : Lane F)
        (sphere_cand vsqrt ⟨-2, -1, -3, 0.8, 0xFF0000⟩ ⟨0, 0, 0, 1 / 480, -1 / 480, -1⟩)
        = lane_init := by
      rw [lane_step, if_neg]
      rintro ⟨-, hok, -⟩
      norm_num [sphere_cand, sphere_disc, sphere_a, sphere_b, sphere_c] at hok
    have e1 : lane_step true (lane_init : Lane F)
        (sphere_cand vsqrt ⟨0, -1, -4, 1, 0x0FF000⟩ ⟨0, 0, 0, 1 / 480, -1 / 480, -1⟩)
        = lane_init.write (sphere_cand vsqrt ⟨0, -1, -4, 1, 0x0FF000⟩
            ⟨0, 0, 0, 1 / 480, -1 / 480, -1⟩) := by
      rw [lane_step, if_pos]
      refine ⟨rfl, ?_, ?_⟩
      · have hd : sphere_disc (⟨0, -1, -4, 1, 0x0FF000⟩ : Sphere F)
            ⟨0, 0, 0, 1 / 480, -1 / 480, -1⟩ = 3809 / 57600 := by
          norm_num [sphere_disc, sphere_a, sphere_b, sphere_c]
        simp only [sphere_cand, Bool.and_eq_true, decide_eq_true_eq, ht1, hd]
        constructor
        · norm_num
        · linarith
      · simp only [sphere_cand, ht1, lane_init]
        linarith
    rw [List.foldl_cons, e0, List.foldl_cons, e1]
    apply foldl_lane_step_no_closer
    intro c hc hok
    have hb : (lane_init.write (sphere_cand vsqrt ⟨0, -1, -4, 1, 0x0FF000⟩
        ⟨0, 0, 0, 1 / 480, -1 / 480, -1⟩) : Lane F).bestT ≤ 3.8835 := by
      simp only [Lane.write, sphere_cand, ht1]
      exact ht1hi
    refine le_trans hb ?_
    simp only [List.mem_cons, List.mem_singleton, List.not_mem_nil, or_false] at hc
    rcases hc with rfl | rfl | rfl | rfl | rfl | rfl | rfl
    · exfalso
      norm_num [sphere_cand, sphere_disc, sphere_a, sphere_b, sphere_c] at hok
    · exfalso
      norm_num [sphere_cand, sphere_disc, sphere_a, sphere_b, sphere_c] at hok
    · have e : (sphere_cand vsqrt (⟨0, 0, -7, 0.8, 0x0000FF⟩ : Sphere F)
          ⟨0, 0, 0, 1 / 480, -1 / 480, -1⟩).t
          = (14 - vsqrt (613997 / 240000)) / (115201 / 57600) := by
        norm_num [sphere_cand, sphere_t0, sphere_disc, sphere_a, sphere_b, sphere_c]
      rw [e, le_div_iff₀ (by norm_num)]
      linarith
    · exfalso
      norm_num [plane_cand, plane_t, plane_denom] at hok
    · have e : (plane_cand (⟨0, 0, 1, 6, 0xCCCCCC⟩ : Plane F)
          ⟨0, 0, 0, 1 / 480, -1 / 480, -1⟩).t = 6 := by
        norm_num [plane_cand, plane_t, plane_denom]
      rw [e]
      norm_num
    · have e : (cyl_cand vsqrt (⟨0, -1, -5, 1, 2, 0x00FFFF⟩ : Cylinder F)
          ⟨0, 0, 0, 1 / 480, -1 / 480, -1⟩).t
          = (10 - vsqrt (9599 / 2400)) / (230401 / 115200) := by
        norm_num [cyl_cand, cyl_t0, cyl_disc, cyl_a, cyl_b, cyl_c]
      rw [e, le_div_iff₀ (by norm_num)]
      linarith
    · have e : (disk_cand (⟨2, -1, -4, 1.5, 0xFFFF00⟩ : Disk F)
          ⟨0, 0, 0, 1 / 480, -1 / 480, -1⟩).t = 480 := by
        norm_num [disk_cand, disk_t]
      rw [e]
      norm_num
  obtain ⟨k1, k2, k3⟩ := (torus_triangle_centre : _ ∧ _ ∧
    (tri_cand (torus_first 4 4 : Triangle F) ⟨0, 0, 0, 1 / 480, -1 / 480, -1⟩).t ≤ 0.3784)
  refine ⟨?_, ?_, ?_, ?_, ?_, hray, ?_⟩
  · unfold main_scene
    simp only [hbb]
  · rw [hbb, r1, h0]
  · rw [hbb, r1, h1]
  · rw [hbb, hn]
  · rw [hbb, h72]
  intro m hm a ha e he ray hr
  have hi : (packet_init W : HitState W F).lane i = lane_init := rfl
  have hbest : ∀ hs : HitState W F, hs.bestT i = (hs.lane i).bestT := fun _ => rfl
  -- the lane after the sphere, plane, cylinder and disk passes
  have hAf : a.lane i
      = ((List.range NUM_SPHERES).map (fun k => sphere_cand vsqrt (m.spheres k) ray)
        ++ (List.range NUM_PLANES).map (fun k => plane_cand (m.planes k) ray)
        ++ (List.range NUM_CYLINDERS).map (fun k => cyl_cand vsqrt (m.cylinders k) ray)
        ++ (List.range NUM_DISKS).map (fun k => disk_cand (m.disks k) ray)).foldl
          (lane_step true) lane_init := by
    rw [ha, intersect_disks_lane, intersect_cylinders_lane, intersect_planes_lane,
      intersect_spheres_lane, hray, hp, hi, hr]
    simp only [List.foldl_append]
  have hA : a.lane i = lane_init.write (sphere_cand vsqrt ⟨0, -1, -4, 1, 0x0FF000⟩
      ⟨0, 0, 0, 1 / 480, -1 / 480, -1⟩) := by
    rw [hAf, ← hres, hm, hbb, r1, r2, r3, r4, hr]
    simp only [NUM_SPHERES, NUM_PLANES, NUM_CYLINDERS, NUM_DISKS,
      List.range_succ, List.range_zero, List.nil_append, List.cons_append, List.map_cons,
      List.map_nil, List.map_append, List.append_nil, h0, h1, h2, h3, h4, h5, h6, h7, h8]
  have hAlo : (3.8635 : F) ≤ (a.lane i).bestT := by
    rw [hA]
    simp only [Lane.write, sphere_cand, ht1]
    exact ht1lo
  have hAhi : (a.lane i).bestT ≤ (3.8835 : F) := by
    rw [hA]
    simp only [Lane.write, sphere_cand, ht1]
    exact ht1hi
  have hAe : e = bvh_trace_packet_sve m.triangles m.num_triangles (packet_pg W x)
      (svdup_f32 0) (svdup_f32 0) (svdup_f32 0) (packet_Dx W x) (packet_Dy W 240)
      (svdup_f32 (-1.0)) a := by
    rw [he, ha]
    rfl
  -- the lane after the triangle pass
  have hE : e.lane i = ((List.range 128).map (fun k => tri_cand
      ((init_torus (render_scene 0 st)).triangles k) ⟨0, 0, 0, 1 / 480, -1 / 480, -1⟩)).foldl
      (lane_step true) (a.lane i) := by
    rw [hAe, bvh_trace_packet_sve_lane, hray, hp, hm, hbb, hn]
  have hmem : tri_cand (torus_first 4 4 : Triangle F) ⟨0, 0, 0, 1 / 480, -1 / 480, -1⟩
      ∈ (List.range 128).map (fun k => tri_cand
        ((init_torus (render_scene 0 st)).triangles k) ⟨0, 0, 0, 1 / 480, -1 / 480, -1⟩) := by
    rw [List.mem_map]
    exact ⟨72, List.mem_range.2 (by norm_num), by rw [h72]⟩
  have hEhi : (e.lane i).bestT ≤ (0.3784 : F) := by
    rw [hE]
    exact le_trans (foldl_lane_step_le_cand _ _ _ hmem k1) k3
  have hcol := foldl_lane_step_colour true ((List.range 128).map (fun k => tri_cand
      ((init_torus (render_scene 0 st)).triangles k) ⟨0, 0, 0, 1 / 480, -1 / 480, -1⟩))
      (a.lane i) (color_r 0xFF8800) (color_g 0xFF8800) (color_b 0xFF8800) (by
        intro c hc
        obtain ⟨k, hk, rfl⟩ := List.mem_map.1 hc
        simp only [tri_cand, init_torus_colour _ k (List.mem_range.1 hk), and_self])
  rw [← hE] at hcol
  have hnor := foldl_lane_step_normal true ((List.range 128).map (fun k => tri_cand
      ((init_torus (render_scene 0 st)).triangles k) ⟨0, 0, 0, 1 / 480, -1 / 480, -1⟩))
      (a.lane i) (by
        intro c hc
        obtain ⟨k, -, rfl⟩ := List.mem_map.1 hc
        rfl)
  rw [← hE] at hnor
  have hne : e.lane i ≠ a.lane i := by
    intro h
    rw [h] at hEhi
    have : (3.8635 : F) ≤ 0.3784 := le_trans hAlo hEhi
    norm_num at this
  have hcol2 := hcol.resolve_left hne
  have hle : ∀ c : Cand F, c ∈ ((List.range NUM_SPHERES).map
        (fun k => sphere_cand vsqrt (m.spheres k) ray)
        ++ (List.range NUM_PLANES).map (fun k => plane_cand (m.planes k) ray)
        ++ (List.range NUM_CYLINDERS).map (fun k => cyl_cand vsqrt (m.cylinders k) ray)
        ++ (List.range NUM_DISKS).map (fun k => disk_cand (m.disks k) ray)) →
      c.ok = true → a.bestT i ≤ c.t := by
    intro c hc hok
    have h := foldl_lane_step_le_cand _ lane_init c hc hok
    rw [← hAf] at h
    exact h
  refine ⟨hAe, ?_, ?_, ?_, ?_, ?_, ?_, ?_, ?_, hcol2.1, hcol2.2.1, hcol2.2.2,
    hnor.1, hnor.2.1, hnor.2.2, hEhi⟩
  · rw [hm, hbb, r1, h1, hr]
    exact hA
  · rw [hbest, abs_le]
    constructor
    · have e : (-0.01 : F) = 3.8635 - 3.8735 := by norm_num
      rw [e]
      exact sub_le_sub_right hAlo _
    · have e : (0.01 : F) = 3.8835 - 3.8735 := by norm_num
      rw [e]
      exact sub_le_sub_right hAhi _
  · intro k hk
    apply hle
    simp only [List.mem_append, List.mem_map, List.mem_range]
    exact Or.inl (Or.inl (Or.inl ⟨k, hk, rfl⟩))
  · intro k hk
    apply hle
    simp only [List.mem_append, List.mem_map, List.mem_range]
    exact Or.inl (Or.inl (Or.inr ⟨k, hk, rfl⟩))
  · intro k hk
    apply hle
    simp only [List.mem_append, List.mem_map, List.mem_range]
    exact Or.inl (Or.inr ⟨k, hk, rfl⟩)
  · intro k hk
    apply hle
    simp only [List.mem_append, List.mem_map, List.mem_range]
    exact Or.inr ⟨k, hk, rfl⟩
  · rw [hm, hbb, h72, hr]
    exact k1
  · rw [hm, hbb, h72, hr, abs_le]
    constructor
    · have e : (-0.001 : F) = 0.3764 - 0.3774 := by norm_num
      rw [e]
      exact sub_le_sub_right k2 _
    · have e : (0.001 : F) = 0.3784 - 0.3774 := by norm_num
      rw [e]
      exact sub_le_sub_right k3 _

end Claims

set_option maxRecDepth 8000 in
/-- Witness for C22: the real numbers with their square root, the globals as the
program starts, a packet of one lane at column 320. -/
theorem centre_pixel_scenario_witness :
    (∀ d : ℝ, 0 < d → 0 ≤ Real.sqrt d ∧ |Real.sqrt d * Real.sqrt d - d| ≤ d / 1000) ∧
    320 + ((0 : Fin 1) : Nat) = 320 ∧
    (intersect_all Real.sqrt (build_bvh (init_torus (render_scene 0 (initial_store ℝ))))
      (packet_pg 1 320) (svdup_f32 0) (svdup_f32 0) (svdup_f32 0) (packet_Dx 1 320)
      (packet_Dy 1 240) (svdup_f32 (-1.0)) (packet_init 1)).bestT 0 ≤ 0.3784 := by
  have hv : ∀ d : ℝ, 0 < d → 0 ≤ Real.sqrt d ∧ |Real.sqrt d * Real.sqrt d - d| ≤ d / 1000 := by
    intro d hd
    refine ⟨Real.sqrt_nonneg d, ?_⟩
    rw [Real.mul_self_sqrt (le_of_lt hd), sub_self, abs_zero]
    exact div_nonneg (le_of_lt hd) (by norm_num)
  have h := (centre_pixel_scenario Real.sqrt (initial_store ℝ) 1 320 0 hv rfl).2.2.2.2.2.2
  have h1 := h _ rfl
  have h1b := h1 _ rfl
  have h1c := h1b _ rfl
  have h2 := h1c ⟨0, 0, 0, 1 / 480, -1 / 480, -1⟩ rfl
  exact ⟨hv, rfl, h2.2.2.2.2.2.2.2.2.2.2.2.2.2.2.2⟩

/-- C22, counterexample: after `render_scene(0)` sphere 0 is not the unit sphere at
`(0, 0, -3)`, the ray of pixel column 320, row 240 is not `(0, 0, -1)`, and that ray
misses sphere 0: the discriminant is negative and the iteration of
`intersect_spheres` for sphere 0 leaves the lane as it was. -/
theorem centre_pixel_misses_sphere_zero :
    (render_scene 0 zero_store).spheres 0 = ⟨-2, -1, -3, 4 / 5, 0xFF0000⟩ ∧
    (render_scene 0 zero_store).spheres 0 ≠ ⟨0, 0, -3, 1, 0xFF0000⟩ ∧
    ray_at (svdup_f32 0) (svdup_f32 0) (svdup_f32 0) (packet_Dx 1 320) (packet_Dy 1 240)
      (svdup_f32 (-1.0)) (0 : Fin 1) = (⟨0, 0, 0, 1 / 480, -1 / 480, -1⟩ : Ray ℚ) ∧
    ray_at (svdup_f32 0) (svdup_f32 0) (svdup_f32 0) (packet_Dx 1 320) (packet_Dy 1 240)
      (svdup_f32 (-1.0)) (0 : Fin 1) ≠ (⟨0, 0, 0, 0, 0, -1⟩ : Ray ℚ) ∧
    sphere_disc ((render_scene 0 zero_store).spheres 0)
      (⟨0, 0, 0, 1 / 480, -1 / 480, -1⟩ : Ray ℚ) < 0 ∧
    (intersect_spheres_body qsqrt ((render_scene 0 zero_store).spheres 0) (packet_pg 1 320)
      (svdup_f32 0) (svdup_f32 0) (svdup_f32 0) (packet_Dx 1 320) (packet_Dy 1 240)
      (svdup_f32 (-1.0)) (packet_init 1)).lane 0 = (packet_init 1).lane 0 := by
  have hs : (render_scene 0 zero_store).spheres 0 = ⟨-2, -1, -3, 4 / 5, 0xFF0000⟩ := by
    rw [(render_scene_zero zero_store).1]
    norm_num
  have hray : ray_at (svdup_f32 0) (svdup_f32 0) (svdup_f32 0) (packet_Dx 1 320)
      (packet_Dy 1 240) (svdup_f32 (-1.0)) (0 : Fin 1)
      = (⟨0, 0, 0, 1 / 480, -1 / 480, -1⟩ : Ray ℚ) := by
    rw [packet_ray_lane 1 320 240 0 (by decide)]
    exact primary_ray_centre
  have hd : sphere_disc (⟨-2, -1, -3, 4 / 5, 0xFF0000⟩ : Sphere ℚ)
      (⟨0, 0, 0, 1 / 480, -1 / 480, -1⟩ : Ray ℚ) < 0 := by
    norm_num [sphere_disc, sphere_a, sphere_b, sphere_c]
  refine ⟨hs, ?_, hray, ?_, ?_, ?_⟩
  · rw [hs]
    intro h
    have := congrArg Sphere.x h
    norm_num at this
  · rw [hray]
    intro h
    have := congrArg Ray.Dx h
    norm_num at this
  · rw [hs]
    exact hd
  · rw [intersect_spheres_body_lane, hray, hs, lane_step, if_neg]
    rintro ⟨-, hok, -⟩
    simp only [sphere_cand, Bool.and_eq_true, decide_eq_true_eq] at hok
    exact absurd hok.1 (not_lt.2 (le_of_lt hd))

section Claims

variable {F : Type} [LinearOrderedField F] [FloorRing F]

/-- C23. Validation: for every scene index, framebuffer and reference table
`validate_framebuffer` returns 1 exactly when the framebuffer agrees with the
table of that scene at every index below `640 * 480 * 3`, and 0 otherwise; with a
table `golden` that holds, for each of the 10 scenes, the framebuffer the golden
build rendered, every scene validates from any prior store and the scene loop of
the regression build reaches `TEST PASS`. -/
theorem validation_round_trip (vsqrt : F → F) (reference_images golden : Nat → Nat → Nat)
    (sid : Nat) (st stg stv : Store F) (Wg Wv : Nat) (hg : 1 ≤ Wg) (hv : 1 ≤ Wv)
    (href : ∀ s < NUM_SCENES, ∀ i < IMG_SIZE,
      golden s i = (main_generate vsqrt Wg stg).1.getD s (fun _ => 0) i) :
    (validate_framebuffer reference_images sid st = 1 ↔
      ∀ i < IMG_SIZE, st.framebuffer i = reference_images sid i) ∧
    (validate_framebuffer reference_images sid st = 0 ↔
      ¬ ∀ i < IMG_SIZE, st.framebuffer i = reference_images sid i) ∧
    (∀ s < NUM_SCENES, ∀ prior : Store F,
      validate_framebuffer golden s (main_scene vsqrt Wv s prior) = 1) ∧
    (∃ final, main_validate golden vsqrt Wv stv = some final) := by
  have hone := validate_framebuffer_eq_one reference_images sid st
  have hall : ∀ s < NUM_SCENES, ∀ prior : Store F,
      validate_framebuffer golden s (main_scene vsqrt Wv s prior) = 1 := by
    intro s hs prior
    rw [validate_framebuffer_eq_one]
    intro i hi
    rw [href s hs i hi, (main_generate_images vsqrt Wg stg hg).2 s hs i hi]
    exact main_scene_framebuffer vsqrt s _ _ Wv Wg hv hg i hi
  refine ⟨hone, ?_, hall, ?_⟩
  · rw [← hone]
    unfold validate_framebuffer
    rcases validate_loop_zero_or_one st.framebuffer (reference_images sid) IMG_SIZE 0
      with h | h <;> rw [h] <;> simp
  · unfold main_validate
    refine foldl_range_inv (fun _ (o : Option (Store F)) => ∃ final, o = some final)
      _ NUM_SCENES ?_ _ ⟨stv, rfl⟩
    rintro k hk o ⟨cur, rfl⟩
    simp only [Option.some_bind, hall k hk cur, one_ne_zero, if_false]
    exact ⟨_, rfl⟩

end Claims

/-- Witness for C23: the table taken from the golden build at lane width 1,
validated at lane width 4 from another initial store. -/
theorem validation_round_trip_witness :
    1 ≤ 1 ∧ 1 ≤ 4 ∧
    (∀ s < NUM_SCENES, ∀ i < IMG_SIZE,
      (fun s i => (main_generate qsqrt 1 zero_store).1.getD s (fun _ => 0) i) s i
        = (main_generate qsqrt 1 zero_store).1.getD s (fun _ => 0) i) ∧
    ∃ final, main_validate
      (fun s i => (main_generate qsqrt 1 zero_store).1.getD s (fun _ => 0) i)
      qsqrt 4 tie_store = some final :=
  ⟨le_refl 1, by decide, fun _ _ _ _ => rfl,
    (validation_round_trip qsqrt (fun _ _ => 0)
      (fun s i => (main_generate qsqrt 1 zero_store).1.getD s (fun _ => 0) i)
      0 zero_store zero_store tie_store 1 4 (le_refl 1) (by decide)
      (fun _ _ _ _ => rfl)).2.2.2⟩

/-- C24, as the code has it: for `|x| ≤ 3.14159`, where no range reduction takes
place, `my_sinf(x) = x (1 - x²/6 + x⁴/120)` and `my_cosf(x) = 1 - x²/2 + x⁴/24`; these
approximate the sine and the cosine with relative error at most `1e-3` for
`|x| ≤ 0.8`. -/
theorem trig_precision (x : ℝ) (h : |x| ≤ 3.14159) :
    my_sinf x = x * (1 - x ^ 2 / 6 + x ^ 4 / 120) ∧
    my_cosf x = 1 - x ^ 2 / 2 + x ^ 4 / 24 ∧
    (|x| ≤ 0.8 →
      |my_sinf x - Real.sin x| ≤ 0.001 * |Real.sin x| ∧
      |my_cosf x - Real.cos x| ≤ 0.001 * |Real.cos x|) := by
  refine ⟨my_sinf_eq x h, my_cosf_eq x h, ?_⟩
  intro hs
  have h1 : |x| ≤ 1 := le_trans hs (by norm_num)
  have h0 : 0 ≤ |x| := abs_nonneg x
  have h2 : |x| ^ 2 ≤ 0.8 ^ 2 := pow_le_pow_left₀ h0 hs 2
  have h5 : |x| ^ 5 ≤ 0.8 ^ 5 := pow_le_pow_left₀ h0 hs 5
  have h6 : |x| ^ 6 ≤ 0.8 ^ 6 := pow_le_pow_left₀ h0 hs 6
  constructor
  · rw [my_sinf_eq x h, abs_sub_comm]
    have e : x * (1 - x ^ 2 / 6 + x ^ 4 / 120) = x - x ^ 3 / 6 + x ^ 5 / 120 := by ring
    rw [e]
    refine le_trans (sin_taylor x h1) ?_
    refine le_trans ?_ (mul_le_mul_of_nonneg_left (abs_sin_lower x h1) (by norm_num))
    have e6 : |x| ^ 6 = |x| * |x| ^ 5 := by ring
    rw [e6]
    have hk : |x| ^ 5 * (7 / 4320) ≤ 0.001 * (1 - |x| ^ 2 / 4) := by
      norm_num at h2 h5 ⊢
      linarith
    nlinarith
  · rw [my_cosf_eq x h, abs_sub_comm]
    refine le_trans (cos_taylor x h1) ?_
    have hc : 1 - x ^ 2 / 2 ≤ Real.cos x := Real.one_sub_sq_div_two_le_cos
    have hx2 : x ^ 2 = |x| ^ 2 := (sq_abs x).symm
    have hcp : 0.68 ≤ Real.cos x := by
      rw [hx2] at hc
      norm_num at h2 ⊢
      linarith
    rw [abs_of_nonneg (le_trans (by norm_num) hcp)]
    norm_num at h6 ⊢
    linarith

/-- Witness for C24: the grid angle `1 / 8 * 6.28318` of the torus. -/
theorem trig_precision_witness :
    (torus_angle 1 : ℝ) = 0.7853975 ∧
    |(0.7853975 : ℝ)| ≤ 3.14159 ∧ |(0.7853975 : ℝ)| ≤ 0.8 ∧
    |my_sinf (0.7853975 : ℝ) - Real.sin 0.7853975| ≤ 0.001 * |Real.sin 0.7853975| ∧
    |my_cosf (0.7853975 : ℝ) - Real.cos 0.7853975| ≤ 0.001 * |Real.cos 0.7853975| :=
  ⟨by norm_num [torus_angle], by norm_num [abs_le], by norm_num [abs_le],
    (trig_precision 0.7853975 (by norm_num [abs_le])).2.2 (by norm_num [abs_le])⟩

/-- C24, counterexample: at `x = 3.14159`, the grid angle `4 / 8 * 6.28318` of the
torus, `my_sinf` gives about 0.524 where the sine is below 0.01, and `my_cosf` a
positive number where the cosine is negative: neither is within a relative error
of `1e-3`. -/
theorem trig_precision_fails_at_pi :
    (torus_angle 4 : ℝ) = 3.14159 ∧
    |(3.14159 : ℝ)| ≤ 3.14159 ∧
    ¬ (|my_sinf (3.14159 : ℝ) - Real.sin 3.14159| ≤ 0.001 * |Real.sin 3.14159|) ∧
    ¬ (|my_cosf (3.14159 : ℝ) - Real.cos 3.14159| ≤ 0.001 * |Real.cos 3.14159|) := by
  have hx : |(3.14159 : ℝ)| ≤ 3.14159 := by norm_num [abs_le]
  have hpi1 : (3.14159 : ℝ) < Real.pi := lt_trans (by norm_num) Real.pi_gt_d6
  have hpi2 : Real.pi < 3.15 := Real.pi_lt_d2
  refine ⟨by norm_num [torus_angle], hx, ?_, ?_⟩
  · rw [my_sinf_eq _ hx]
    have hs : Real.sin 3.14159 = Real.sin (Real.pi - 3.14159) := (Real.sin_pi_sub _).symm
    have hlt : Real.sin (Real.pi - 3.14159) < Real.pi - 3.14159 := Real.sin_lt (by linarith)
    have hpos : 0 < Real.sin (Real.pi - 3.14159) :=
      Real.sin_pos_of_pos_of_lt_pi (by linarith) (by linarith)
    rw [hs, abs_of_pos hpos]
    intro hcon
    have := (abs_le.1 hcon).2
    norm_num at this
    linarith
  · rw [my_cosf_eq _ hx]
    have hneg : Real.cos 3.14159 < 0 :=
      Real.cos_neg_of_pi_div_two_lt_of_lt (by linarith) (by linarith)
    have hge : -1 ≤ Real.cos 3.14159 := Real.neg_one_le_cos _
    rw [abs_of_neg hneg]
    intro hcon
    have := (abs_le.1 hcon).2
    norm_num at this
    linarith

section Claims

variable {F : Type} [LinearOrderedField F] [FloorRing F]

/-- C25. Light normalisation: for every scene index below 10 the raw light
direction `render_scene` sets, `(-1, 1, -1)` for scene 1, `(0, -1, -1)` for scene 4
and `(1, 1, -1)` otherwise, is not zero and neither is the `sqrtf` of its squared
length; the stored `light_dir` is `normalize_light` of it, a positive multiple of
it, and its squared length is within `1e-6` of 1, with the five Newton steps of
`sqrtf` evaluated exactly. -/
theorem light_normalisation (sid : Nat) (st : Store F) (h : sid < 10) :
    ∃ raw : Fin 3 → F,
      raw = (if sid = 1 then ![-1, 1, -1] else if sid = 4 then ![0, -1, -1] else ![1, 1, -1]) ∧
      raw ≠ 0 ∧
      sqrtf (raw 0 * raw 0 + raw 1 * raw 1 + raw 2 * raw 2) ≠ 0 ∧
      (render_scene sid st).light_dir = normalize_light raw ∧
      (∃ k : F, 0 < k ∧ ∀ j, (render_scene sid st).light_dir j = k * raw j) ∧
      |(render_scene sid st).light_dir 0 * (render_scene sid st).light_dir 0
        + (render_scene sid st).light_dir 1 * (render_scene sid st).light_dir 1
        + (render_scene sid st).light_dir 2 * (render_scene sid st).light_dir 2 - 1|
        ≤ 1 / 1000000 := by
  refine ⟨_, rfl, ?_, ?_, render_scene_light sid st h, ?_, ?_⟩
  · intro h0
    have := congrFun h0 2
    split_ifs at this <;> simp at this
  · split_ifs <;> norm_num [sqrtf_two, sqrtf_three]
  · rw [render_scene_light sid st h]
    split_ifs
    · refine ⟨579069776145402304 / 1002978273411373057, by norm_num, ?_⟩
      intro j
      rw [normalize_light_apply]
      norm_num [sqrtf_three]
      ring
    · refine ⟨627013566048 / 886731088897, by norm_num, ?_⟩
      intro j
      rw [normalize_light_apply]
      norm_num [sqrtf_two]
      ring
    · refine ⟨579069776145402304 / 1002978273411373057, by norm_num, ?_⟩
      intro j
      rw [normalize_light_apply]
      norm_num [sqrtf_three]
      ring
  · rw [render_scene_light sid st h]
    simp only [normalize_light_apply]
    split_ifs
    · norm_num [sqrtf_three, abs_le]
    · norm_num [sqrtf_two, abs_le]
    · norm_num [sqrtf_three, abs_le]

end Claims

/-- Witness for C25: scene 0 from zero-initialised globals. -/
theorem light_normalisation_witness :
    0 < 10 ∧
    |(render_scene 0 zero_store).light_dir 0 * (render_scene 0 zero_store).light_dir 0
      + (render_scene 0 zero_store).light_dir 1 * (render_scene 0 zero_store).light_dir 1
      + (render_scene 0 zero_store).light_dir 2 * (render_scene 0 zero_store).light_dir 2 - 1|
      ≤ 1 / 1000000 := by
  obtain ⟨_, _, _, _, _, _, h⟩ := light_normalisation 0 zero_store (by decide)
  exact ⟨by decide, h⟩

section Claims

variable {F : Type} [LinearOrderedField F] [FloorRing F]

/-- C26. Framebuffer coverage: for every lane width `W ≥ 1` the record of the
stores of one call of `render_tile` holds each index below `640 * 480 * 3` exactly
once and no other index; after the call every byte below `640 * 480 * 3` is the
rendered one whatever the framebuffer held before, nothing beyond is touched, and
storing the rendered bytes at the recorded indices gives the framebuffer that
`render_tile` leaves. -/
theorem framebuffer_coverage (vsqrt : F → F) (W : Nat) (hW : 1 ≤ W) (st : Store F) :
    (∀ idx < IMG_SIZE, (render_tile_writes W).count idx = 1) ∧
    (∀ idx ∈ render_tile_writes W, idx < IMG_SIZE) ∧
    (render_tile_writes W).Nodup ∧
    (∀ (fb : Nat → Nat), ∀ idx < IMG_SIZE,
      (render_tile vsqrt W (st.with_fb fb)).framebuffer idx
        = (render_tile vsqrt W st).framebuffer idx) ∧
    (∀ idx, IMG_SIZE ≤ idx → (render_tile vsqrt W st).framebuffer idx = st.framebuffer idx) ∧
    (render_tile_writes W).foldl
        (fun fb idx => Function.update fb idx (pixel_byte vsqrt st idx)) st.framebuffer
      = (render_tile vsqrt W st).framebuffer := by
  have hin : ∀ idx, idx < IMG_SIZE ↔ (0 ≤ idx / 3 ∧ idx / 3 < HEIGHT * WIDTH) := by
    intro idx
    simp only [IMG_SIZE, HEIGHT, WIDTH]
    omega
  have hcount : ∀ idx, (render_tile_writes W).count idx = if idx < IMG_SIZE then 1 else 0 := by
    intro idx
    rw [render_tile_writes_count W idx hW, covered]
    simp only [hin idx]
  have hmem : ∀ idx ∈ render_tile_writes W, idx < IMG_SIZE := by
    intro idx h
    by_contra hcon
    have h0 := hcount idx
    rw [if_neg hcon] at h0
    exact (List.count_eq_zero.1 h0) h
  have hout : ∀ idx, IMG_SIZE ≤ idx →
      (render_tile vsqrt W st).framebuffer idx = st.framebuffer idx := by
    intro idx h
    rw [render_tile_eq vsqrt W hW]
    simp only [Store.with_fb, paint]
    rw [if_neg]
    intro hc
    exact absurd ((hin idx).2 hc) (not_lt.2 h)
  refine ⟨?_, hmem, ?_, ?_, hout, ?_⟩
  · intro idx h
    rw [hcount, if_pos h]
  · rw [List.nodup_iff_count_le_one]
    intro idx
    rw [hcount]
    split_ifs <;> omega
  · intro fb idx h
    rw [render_tile_framebuffer vsqrt W hW _ idx h, render_tile_framebuffer vsqrt W hW _ idx h]
    rfl
  · funext idx
    rw [replay_apply]
    by_cases h : idx < IMG_SIZE
    · have hm : idx ∈ render_tile_writes W := by
        apply List.count_pos_iff.1
        rw [hcount, if_pos h]
        exact Nat.one_pos
      rw [if_pos hm, render_tile_framebuffer vsqrt W hW _ idx h]
    · rw [if_neg (fun hm => h (hmem idx hm)), hout idx (not_lt.1 h)]

end Claims

/-- Witness for C26: three lanes, a width that does not divide 640; the first
byte and the last byte of the image are written once each. -/
theorem framebuffer_coverage_witness :
    1 ≤ 3 ∧ 640 % 3 ≠ 0 ∧ (render_tile_writes 3).count 0 = 1 ∧
    (render_tile_writes 3).count (640 * 480 * 3 - 1) = 1 := by
  obtain ⟨h, -⟩ := framebuffer_coverage qsqrt 3 (by decide) zero_store
  exact ⟨by decide, by decide, h 0 (by decide), h _ (by decide)⟩

section Claims

variable {F : Type} [LinearOrderedField F] [FloorRing F]

end Claims

section Claims

variable {F : Type} [LinearOrderedField F] {W : Nat}

/-- C28. Only the near root is tested: when the ray of a lane has a direction other
than zero and starts strictly inside sphere `k`, then, with an exact square root of
the discriminant, the discriminant is positive, the near root `t0` is negative and
the iteration of `intersect_spheres` for that sphere leaves the lane as it was,
although the far root `t1 = (-b + sqrt disc) / (2a)` is positive and the ray leaves
the sphere there; when this holds for each of the five spheres, `intersect_spheres`
leaves the lane as it was. -/
theorem near_root_only (vsqrt : F → F) (spheres : Nat → Sphere F) (pg : svbool_t W)
    (Ox Oy Oz Dx Dy Dz : svfloat32_t W F) (hs : HitState W F) (i : Fin W) (k : Nat)
    (hD : Dx i ≠ 0 ∨ Dy i ≠ 0 ∨ Dz i ≠ 0)
    (hin : (Ox i - (spheres k).x) ^ 2 + (Oy i - (spheres k).y) ^ 2 + (Oz i - (spheres k).z) ^ 2
      < (spheres k).r ^ 2)
    (hv0 : 0 ≤ vsqrt (sphere_disc (spheres k) (ray_at Ox Oy Oz Dx Dy Dz i)))
    (hv : vsqrt (sphere_disc (spheres k) (ray_at Ox Oy Oz Dx Dy Dz i))
        * vsqrt (sphere_disc (spheres k) (ray_at Ox Oy Oz Dx Dy Dz i))
      = sphere_disc (spheres k) (ray_at Ox Oy Oz Dx Dy Dz i)) :
    (intersect_spheres_body vsqrt (spheres k) pg Ox Oy Oz Dx Dy Dz hs).lane i = hs.lane i ∧
    0 < sphere_disc (spheres k) (ray_at Ox Oy Oz Dx Dy Dz i) ∧
    sphere_t0 vsqrt (spheres k) (ray_at Ox Oy Oz Dx Dy Dz i) < 0 ∧
    (∃ t1 : F, t1 = (- sphere_b (spheres k) (ray_at Ox Oy Oz Dx Dy Dz i)
          + vsqrt (sphere_disc (spheres k) (ray_at Ox Oy Oz Dx Dy Dz i)))
        / (2 * sphere_a (ray_at Ox Oy Oz Dx Dy Dz i)) ∧ 0 < t1 ∧
      (Ox i + t1 * Dx i - (spheres k).x) ^ 2 + (Oy i + t1 * Dy i - (spheres k).y) ^ 2
        + (Oz i + t1 * Dz i - (spheres k).z) ^ 2 = (spheres k).r ^ 2) ∧
    ((∀ j < NUM_SPHERES,
        (Ox i - (spheres j).x) ^ 2 + (Oy i - (spheres j).y) ^ 2 + (Oz i - (spheres j).z) ^ 2
          < (spheres j).r ^ 2 ∧
        0 ≤ vsqrt (sphere_disc (spheres j) (ray_at Ox Oy Oz Dx Dy Dz i)) ∧
        vsqrt (sphere_disc (spheres j) (ray_at Ox Oy Oz Dx Dy Dz i))
            * vsqrt (sphere_disc (spheres j) (ray_at Ox Oy Oz Dx Dy Dz i))
          = sphere_disc (spheres j) (ray_at Ox Oy Oz Dx Dy Dz i)) →
      (intersect_spheres vsqrt spheres pg Ox Oy Oz Dx Dy Dz hs).lane i = hs.lane i) := by
  have hok : ∀ j,
      (Ox i - (spheres j).x) ^ 2 + (Oy i - (spheres j).y) ^ 2 + (Oz i - (spheres j).z) ^ 2
          < (spheres j).r ^ 2 →
      0 ≤ vsqrt (sphere_disc (spheres j) (ray_at Ox Oy Oz Dx Dy Dz i)) →
      vsqrt (sphere_disc (spheres j) (ray_at Ox Oy Oz Dx Dy Dz i))
            * vsqrt (sphere_disc (spheres j) (ray_at Ox Oy Oz Dx Dy Dz i))
          = sphere_disc (spheres j) (ray_at Ox Oy Oz Dx Dy Dz i) →
      (sphere_cand vsqrt (spheres j) (ray_at Ox Oy Oz Dx Dy Dz i)).ok = false := by
    intro j h1 h2 h3
    obtain ⟨-, ht0, -⟩ :=
      sphere_inside_roots vsqrt (spheres j) (ray_at Ox Oy Oz Dx Dy Dz i) hD h1 h2 h3
    simp only [sphere_cand, Bool.and_eq_false_iff, decide_eq_false_iff_not, not_lt]
    right
    exact le_of_lt ht0
  obtain ⟨hd, ht0, ht1⟩ :=
    sphere_inside_roots vsqrt (spheres k) (ray_at Ox Oy Oz Dx Dy Dz i) hD hin hv0 hv
  refine ⟨?_, hd, ht0, ⟨_, rfl, ht1, ?_⟩, ?_⟩
  · rw [intersect_spheres_body_lane, lane_step, if_neg]
    rintro ⟨-, h, -⟩
    rw [hok k hin hv0 hv] at h
    exact Bool.noConfusion h
  · have hr := (sphere_roots (spheres k) (ray_at Ox Oy Oz Dx Dy Dz i) _
      (sphere_a_ne_zero _ _ hd) hv).2
    have hp := sphere_point (spheres k) (ray_at Ox Oy Oz Dx Dy Dz i)
      ((- sphere_b (spheres k) (ray_at Ox Oy Oz Dx Dy Dz i)
          + vsqrt (sphere_disc (spheres k) (ray_at Ox Oy Oz Dx Dy Dz i)))
        / (2 * sphere_a (ray_at Ox Oy Oz Dx Dy Dz i)))
    rw [hr] at hp
    exact sub_eq_zero.1 hp
  · intro hall
    rw [intersect_spheres_lane]
    apply foldl_lane_step_no_closer
    intro c hc h
    simp only [List.mem_map, List.mem_range] at hc
    obtain ⟨j, hj, rfl⟩ := hc
    obtain ⟨h1, h2, h3⟩ := hall j hj
    rw [hok j h1 h2 h3] at h
    exact Bool.noConfusion h

/-- C29. Sphere normals are unit vectors: for a sphere with `r ≠ 0` and a lane that
the iteration of `intersect_spheres` for it updates, with an exact square root of
the discriminant, the hit point `O + t0 D` lies on the sphere and the normal written,
`(O + t0 D - C) / r`, has `nx² + ny² + nz² = 1`. -/
theorem sphere_normal_unit (vsqrt : F → F) (s : Sphere F) (pg : svbool_t W)
    (Ox Oy Oz Dx Dy Dz : svfloat32_t W F) (hs : HitState W F) (i : Fin W) (hr : s.r ≠ 0)
    (hv : vsqrt (sphere_disc s (ray_at Ox Oy Oz Dx Dy Dz i))
        * vsqrt (sphere_disc s (ray_at Ox Oy Oz Dx Dy Dz i))
      = sphere_disc s (ray_at Ox Oy Oz Dx Dy Dz i))
    (hupd : pg i = true ∧ 0 < sphere_disc s (ray_at Ox Oy Oz Dx Dy Dz i)
        ∧ 0 < sphere_t0 vsqrt s (ray_at Ox Oy Oz Dx Dy Dz i)
        ∧ sphere_t0 vsqrt s (ray_at Ox Oy Oz Dx Dy Dz i) < hs.bestT i) :
    (intersect_spheres_body vsqrt s pg Ox Oy Oz Dx Dy Dz hs).bestT i
      = sphere_t0 vsqrt s (ray_at Ox Oy Oz Dx Dy Dz i) ∧
    (Ox i + sphere_t0 vsqrt s (ray_at Ox Oy Oz Dx Dy Dz i) * Dx i - s.x) ^ 2
      + (Oy i + sphere_t0 vsqrt s (ray_at Ox Oy Oz Dx Dy Dz i) * Dy i - s.y) ^ 2
      + (Oz i + sphere_t0 vsqrt s (ray_at Ox Oy Oz Dx Dy Dz i) * Dz i - s.z) ^ 2 = s.r ^ 2 ∧
    (intersect_spheres_body vsqrt s pg Ox Oy Oz Dx Dy Dz hs).Nx i
      = (Ox i + sphere_t0 vsqrt s (ray_at Ox Oy Oz Dx Dy Dz i) * Dx i - s.x) / s.r ∧
    (intersect_spheres_body vsqrt s pg Ox Oy Oz Dx Dy Dz hs).Ny i
      = (Oy i + sphere_t0 vsqrt s (ray_at Ox Oy Oz Dx Dy Dz i) * Dy i - s.y) / s.r ∧
    (intersect_spheres_body vsqrt s pg Ox Oy Oz Dx Dy Dz hs).Nz i
      = (Oz i + sphere_t0 vsqrt s (ray_at Ox Oy Oz Dx Dy Dz i) * Dz i - s.z) / s.r ∧
    (intersect_spheres_body vsqrt s pg Ox Oy Oz Dx Dy Dz hs).Nx i ^ 2
      + (intersect_spheres_body vsqrt s pg Ox Oy Oz Dx Dy Dz hs).Ny i ^ 2
      + (intersect_spheres_body vsqrt s pg Ox Oy Oz Dx Dy Dz hs).Nz i ^ 2 = 1 := by
  obtain ⟨hp, hd, hpos, hlt⟩ := hupd
  have hlane : (intersect_spheres_body vsqrt s pg Ox Oy Oz Dx Dy Dz hs).lane i
      = (hs.lane i).write (sphere_cand vsqrt s (ray_at Ox Oy Oz Dx Dy Dz i)) := by
    rw [intersect_spheres_body_lane, lane_step, if_pos]
    exact ⟨hp, by simp [sphere_cand, hd, hpos], hlt⟩
  have hon := sub_eq_zero.1 ((sphere_point s (ray_at Ox Oy Oz Dx Dy Dz i)
    (sphere_t0 vsqrt s (ray_at Ox Oy Oz Dx Dy Dz i))).trans
    (sphere_roots s (ray_at Ox Oy Oz Dx Dy Dz i) _ (sphere_a_ne_zero _ _ hd) hv).1)
  have hon2 : (Ox i + sphere_t0 vsqrt s (ray_at Ox Oy Oz Dx Dy Dz i) * Dx i - s.x) ^ 2
      + (Oy i + sphere_t0 vsqrt s (ray_at Ox Oy Oz Dx Dy Dz i) * Dy i - s.y) ^ 2
      + (Oz i + sphere_t0 vsqrt s (ray_at Ox Oy Oz Dx Dy Dz i) * Dz i - s.z) ^ 2 = s.r ^ 2 := hon
  have hb : (intersect_spheres_body vsqrt s pg Ox Oy Oz Dx Dy Dz hs).bestT i
      = sphere_t0 vsqrt s (ray_at Ox Oy Oz Dx Dy Dz i) := by
    have := congrArg Lane.bestT hlane
    exact this
  have hnx : (intersect_spheres_body vsqrt s pg Ox Oy Oz Dx Dy Dz hs).Nx i
      = (Ox i + sphere_t0 vsqrt s (ray_at Ox Oy Oz Dx Dy Dz i) * Dx i - s.x) / s.r := by
    have := congrArg Lane.Nx hlane
    simp only [HitState.lane, Lane.write, sphere_cand] at this
    rw [this]
    simp only [ray_at]
    ring
  have hny : (intersect_spheres_body vsqrt s pg Ox Oy Oz Dx Dy Dz hs).Ny i
      = (Oy i + sphere_t0 vsqrt s (ray_at Ox Oy Oz Dx Dy Dz i) * Dy i - s.y) / s.r := by
    have := congrArg Lane.Ny hlane
    simp only [HitState.lane, Lane.write, sphere_cand] at this
    rw [this]
    simp only [ray_at]
    ring
  have hnz : (intersect_spheres_body vsqrt s pg Ox Oy Oz Dx Dy Dz hs).Nz i
      = (Oz i + sphere_t0 vsqrt s (ray_at Ox Oy Oz Dx Dy Dz i) * Dz i - s.z) / s.r := by
    have := congrArg Lane.Nz hlane
    simp only [HitState.lane, Lane.write, sphere_cand] at this
    rw [this]
    simp only [ray_at]
    ring
  refine ⟨hb, hon2, hnx, hny, hnz, ?_⟩
  rw [hnx, hny, hnz, div_pow, div_pow, div_pow, ← add_div, ← add_div, hon2]
  exact div_self (pow_ne_zero 2 hr)

end Claims

/-- Witness for C28: the camera inside a unit sphere, looking along `-z`. -/
theorem near_root_only_witness :
    ((svdup_f32 (-1) : svfloat32_t 1 ℚ) 0 ≠ 0) ∧
    (intersect_spheres_body qsqrt around_sphere lane1 (svdup_f32 0) (svdup_f32 0)
      (svdup_f32 0) (svdup_f32 0) (svdup_f32 0) (svdup_f32 (-1)) hit_init).lane 0
      = hit_init.lane 0 :=
  ⟨by norm_num [svdup_f32],
    (near_root_only qsqrt (fun _ => around_sphere) lane1 (svdup_f32 0) (svdup_f32 0)
      (svdup_f32 0) (svdup_f32 0) (svdup_f32 0) (svdup_f32 (-1)) hit_init 0 0
      (by norm_num [svdup_f32]) (by norm_num [around_sphere, svdup_f32])
      (by rw [around_sphere_disc, qsqrt_four]; norm_num)
      (by rw [around_sphere_disc, qsqrt_four]; norm_num)).1⟩

/-- Witness for C29: the unit sphere at `(0, 0, -3)` and the ray along `-z`. -/
theorem sphere_normal_unit_witness :
    front_sphere.r ≠ 0 ∧
    (intersect_spheres_body qsqrt front_sphere lane1 (svdup_f32 0) (svdup_f32 0)
        (svdup_f32 0) (svdup_f32 0) (svdup_f32 0) (svdup_f32 (-1)) hit_init).Nx 0 ^ 2
      + (intersect_spheres_body qsqrt front_sphere lane1 (svdup_f32 0) (svdup_f32 0)
        (svdup_f32 0) (svdup_f32 0) (svdup_f32 0) (svdup_f32 (-1)) hit_init).Ny 0 ^ 2
      + (intersect_spheres_body qsqrt front_sphere lane1 (svdup_f32 0) (svdup_f32 0)
        (svdup_f32 0) (svdup_f32 0) (svdup_f32 0) (svdup_f32 (-1)) hit_init).Nz 0 ^ 2 = 1 :=
  ⟨by norm_num [front_sphere],
    (sphere_normal_unit qsqrt front_sphere lane1 (svdup_f32 0) (svdup_f32 0)
      (svdup_f32 0) (svdup_f32 0) (svdup_f32 0) (svdup_f32 (-1)) hit_init 0
      (by norm_num [front_sphere])
      (by rw [front_sphere_disc, qsqrt_four]; norm_num)
      ⟨rfl, by rw [front_sphere_disc]; norm_num, by rw [front_sphere_t0]; norm_num,
        by rw [front_sphere_t0]; norm_num [hit_init, svdup_f32]⟩).2.2.2.2.2⟩

end Raytracer
